import Mathlib

/-! libsigrok DMM protocol parsers (Cyrustek ES519XX and Brymen BM25x) and string
utilities.

A shallow embedding of `src/dmm/es519xx.c`, of `src/dmm/bm25x.c` and of the
functions `sr_parse_rational`, `sr_parse_sizestring` and `sr_si_string_u64` of
`src/strutil.c`, followed by theorems about the packet validators, the flag
classifier, the parser entry points and the string conversions.

Conventions of the embedding:

* a packet buffer `const uint8_t *buf` is a total function from index to byte;
* C `gboolean` fields are `Bool`, C `int` values are `Int`, or `Nat` where they
  are sizes, indices or baud rates (all values stay far from the 32-bit
  limits), `mqflags` is a natural-number bit mask;
* a `float` is kept as a term (`FloatVal`): sign, integer magnitude and
  power-of-ten exponent, or an infinity, or not-a-number; the term stands for
  the single-precision product of the converted integer and `powf(10, e)`,
  which `FloatVal.float32` evaluates with its rounding (`binary32`);
* a function that writes through pointers returns the new contents next to its
  return code;
* an array read outside the array (undefined behaviour in C) is the result
  `none` of the `Option`-valued functions, and so is a signed overflow;
* a C string is the list of its characters before the terminating NUL, a
  `char *` into it is the rest of the list from there, and two such pointers
  are equal when the two rests have the same length;
* `int64_t` and `uint64_t` values are integers with the range checks and the
  reductions modulo `2 ^ 64` written out.
-/

namespace Sigrok

/-! ## Common data -/

/-- One `uint8_t`. -/
abbrev Byte := Fin 256

/-- A packet buffer as seen through `const uint8_t *buf`: the byte at each index. -/
abbrev Buffer := Nat → Byte

/-- Buffer holding the listed bytes, zero beyond them. -/
def Buffer.ofList (l : List Nat) : Buffer := fun i => Fin.ofNat (l.getD i 0)

/-- Modelled from the spec: the return code `SR_OK` is declared in `libsigrok.h`,
which is not among the sources; it is the accept outcome, zero. -/
def SR_OK : Int := 0

/-- Modelled from the spec: the return code `SR_ERR` is declared in
`libsigrok.h`, which is not among the sources; it is the reject outcome, a
negative value. -/
def SR_ERR : Int := -1

/-- Modelled from the spec: `enum sr_mq` is declared in `libsigrok.h`, which is
not among the sources; these are the measured quantities the two parsers
assign. -/
inductive sr_mq
  | SR_MQ_VOLTAGE
  | SR_MQ_CURRENT
  | SR_MQ_RESISTANCE
  | SR_MQ_CAPACITANCE
  | SR_MQ_TEMPERATURE
  | SR_MQ_FREQUENCY
  | SR_MQ_DUTY_CYCLE
  | SR_MQ_CONTINUITY
  | SR_MQ_GAIN
  deriving DecidableEq, Repr

/-- Modelled from the spec: `enum sr_unit` is declared in `libsigrok.h`, which
is not among the sources; these are the units the two parsers assign. -/
inductive sr_unit
  | SR_UNIT_VOLT
  | SR_UNIT_AMPERE
  | SR_UNIT_OHM
  | SR_UNIT_FARAD
  | SR_UNIT_CELSIUS
  | SR_UNIT_FAHRENHEIT
  | SR_UNIT_HERTZ
  | SR_UNIT_PERCENTAGE
  | SR_UNIT_BOOLEAN
  | SR_UNIT_UNITLESS
  | SR_UNIT_REVOLUTIONS_PER_MINUTE
  deriving DecidableEq, Repr

open sr_mq sr_unit

/-- Modelled from the spec: the `SR_MQFLAG_*` bit values are declared in
`libsigrok.h`, which is not among the sources; the qualifier flags form a bit
set with one distinct bit per flag. -/
def SR_MQFLAG_AC : Nat := 0x01

/-- Modelled from the spec: see `SR_MQFLAG_AC`. -/
def SR_MQFLAG_DC : Nat := 0x02

/-- Modelled from the spec: see `SR_MQFLAG_AC`. -/
def SR_MQFLAG_RMS : Nat := 0x04

/-- Modelled from the spec: see `SR_MQFLAG_AC`. -/
def SR_MQFLAG_DIODE : Nat := 0x08

/-- Modelled from the spec: see `SR_MQFLAG_AC`. -/
def SR_MQFLAG_HOLD : Nat := 0x10

/-- Modelled from the spec: see `SR_MQFLAG_AC`. -/
def SR_MQFLAG_MAX : Nat := 0x20

/-- Modelled from the spec: see `SR_MQFLAG_AC`. -/
def SR_MQFLAG_MIN : Nat := 0x40

/-- Modelled from the spec: see `SR_MQFLAG_AC`. -/
def SR_MQFLAG_AUTORANGE : Nat := 0x80

/-- Modelled from the spec: see `SR_MQFLAG_AC`. -/
def SR_MQFLAG_RELATIVE : Nat := 0x100

/-- Symbolic single-precision value. `num neg m e` stands for the float both
parsers compute from an integer `m`: `(float)m` multiplied once by
`powf(10, e)`, negated when `neg`. The float it holds, with the rounding of the
product, is `FloatVal.float32`; the decimal number `m * 10 ^ e` it
approximates is `FloatVal.toRat`. `inf neg` is plus or minus infinity, `nan`
is not-a-number. -/
inductive FloatVal
  | num (neg : Bool) (m : Nat) (e : Int)
  | inf (neg : Bool)
  | nan
  deriving DecidableEq, Repr

/-- The C conversion `(float)intval`. -/
def FloatVal.ofInt (i : Int) : FloatVal := .num (decide (i < 0)) i.natAbs 0

/-- The C statement `x *= powf(10, exponent)`, recorded in the term. Both
parsers apply it once, to a converted integer (a term with exponent 0), so the
term `num neg m e` it yields stands for the one float product
`(float)m * powf(10, e)`; the rounding of that product is not in the term but
in `FloatVal.float32`. -/
def FloatVal.scale : FloatVal → Int → FloatVal
  | .num s m e, x => .num s m (e + x)
  | .inf s, _ => .inf s
  | .nan, _ => .nan

/-- The C expression `-x`. -/
def FloatVal.neg : FloatVal → FloatVal
  | .num s m e => .num (!s) m e
  | .inf s => .inf (!s)
  | .nan => .nan

/-- The C comparison `x < 0.0`. -/
def FloatVal.ltZero : FloatVal → Bool
  | .num s m _ => s && decide (m ≠ 0)
  | .inf s => s
  | .nan => false

/-- The C comparison `x > n` for a natural-number constant `n`. -/
def FloatVal.gtNat : FloatVal → Nat → Bool
  | .num s m e, n =>
    !s && (if 0 ≤ e then decide (n < m * 10 ^ e.toNat)
      else decide (n * 10 ^ (-e).toNat < m))
  | .inf s, _ => !s
  | .nan, _ => false

/-- Modelled from the spec: `struct sr_datafeed_analog` is declared in
`libsigrok.h`, which is not among the sources; this is the part of it the
parsers write: `meaning->mq`, `meaning->unit`, `meaning->mqflags`,
`encoding->digits` and `spec->spec_digits`. -/
structure sr_datafeed_analog where
  mq : sr_mq
  unit : sr_unit
  mqflags : Nat
  digits : Int
  spec_digits : Int
  deriving DecidableEq, Repr

/-- The two assignments `analog->meaning->mq = mq` and
`analog->meaning->unit = unit`. -/
def sr_datafeed_analog.set_mq (analog : sr_datafeed_analog) (mq : sr_mq) (unit : sr_unit) :
    sr_datafeed_analog :=
  { analog with mq := mq, unit := unit }

/-- The statement `if (c) { analog->meaning->mq = mq; analog->meaning->unit = unit; }`. -/
def sr_datafeed_analog.set_mq_if (analog : sr_datafeed_analog) (c : Bool) (mq : sr_mq)
    (unit : sr_unit) : sr_datafeed_analog :=
  if c then analog.set_mq mq unit else analog

/-- The statement `if (c) mqflags |= k`. -/
def or_if (mqflags : Nat) (c : Bool) (k : Nat) : Nat :=
  if c then mqflags ||| k else mqflags

/-- The C test `(b & (1 << k)) != 0`. -/
def bitSet (b : Byte) (k : Nat) : Bool := (b.val &&& (1 <<< k)) != 0

/-- The C test `b & m` of a byte against a mask: some bit of `m` is set in `b`. -/
def maskSet (b : Byte) (m : Nat) : Bool := (b.val &&& m) != 0

/-! ## ES519XX (`src/dmm/es519xx.c`) -/

/-- Modelled from the spec: `struct es519xx_info` is declared in
`libsigrok-internal.h`, which is not among the sources; the fields are those
`es519xx.c` reads and writes. -/
structure es519xx_info where
  is_judge : Bool
  is_voltage : Bool
  is_auto : Bool
  is_micro : Bool
  is_current : Bool
  is_milli : Bool
  is_resistance : Bool
  is_continuity : Bool
  is_diode : Bool
  is_frequency : Bool
  is_rpm : Bool
  is_capacitance : Bool
  is_duty_cycle : Bool
  is_temperature : Bool
  is_celsius : Bool
  is_fahrenheit : Bool
  is_adp0 : Bool
  is_adp1 : Bool
  is_adp2 : Bool
  is_adp3 : Bool
  is_sign : Bool
  is_batt : Bool
  is_ol : Bool
  is_pmax : Bool
  is_pmin : Bool
  is_apo : Bool
  is_dc : Bool
  is_ac : Bool
  is_vahz : Bool
  is_min : Bool
  is_max : Bool
  is_rel : Bool
  is_hold : Bool
  is_digit4 : Bool
  is_ul : Bool
  is_vasel : Bool
  is_vbar : Bool
  is_lpf1 : Bool
  is_lpf0 : Bool
  is_rmr : Bool
  baudrate : Nat
  packet_size : Nat
  alt_functions : Bool
  fivedigits : Bool
  clampmeter : Bool
  selectable_lpf : Bool
  digits : Int
  deriving DecidableEq, Repr

/-- The record after `memset(&info, 0, sizeof(struct es519xx_info))`. -/
def es519xx_info.zero : es519xx_info :=
  { is_judge := false, is_voltage := false, is_auto := false, is_micro := false,
    is_current := false, is_milli := false, is_resistance := false,
    is_continuity := false, is_diode := false, is_frequency := false,
    is_rpm := false, is_capacitance := false, is_duty_cycle := false,
    is_temperature := false, is_celsius := false, is_fahrenheit := false,
    is_adp0 := false, is_adp1 := false, is_adp2 := false, is_adp3 := false,
    is_sign := false, is_batt := false, is_ol := false, is_pmax := false,
    is_pmin := false, is_apo := false, is_dc := false, is_ac := false,
    is_vahz := false, is_min := false, is_max := false, is_rel := false,
    is_hold := false, is_digit4 := false, is_ul := false, is_vasel := false,
    is_vbar := false, is_lpf1 := false, is_lpf0 := false, is_rmr := false,
    baudrate := 0, packet_size := 0, alt_functions := false,
    fivedigits := false, clampmeter := false, selectable_lpf := false,
    digits := 0 }

/-- Exponent table `exponents_2400_11b`. -/
def exponents_2400_11b : List (List Int) :=
  [ [  -4,  -3,  -2, -1,  0,  0,  0,  0 ],
    [  -7,  -6,   0,  0,  0,  0,  0,  0 ],
    [  -5,  -4,   0,  0,  0,  0,  0,  0 ],
    [  -2,   0,   0,  0,  0,  0,  0,  0 ],
    [   1,   2,   3,  4,  5,  6,  0,  0 ],
    [  -1,   0,   1,  2,  3,  4,  0,  0 ],
    [   0,   1,   2,  3,  4,  5,  0,  0 ],
    [ -12, -11, -10, -9, -8, -7, -6, -5 ],
    [  -3,   0,   0,  0,  0,  0,  0,  0 ] ]

/-- Exponent table `exponents_19200_11b_5digits`. -/
def exponents_19200_11b_5digits : List (List Int) :=
  [ [  -4,  -3,  -2, -1, -5,  0,  0,  0 ],
    [  -8,  -7,   0,  0,  0,  0,  0,  0 ],
    [  -6,  -5,   0,  0,  0,  0,  0,  0 ],
    [   0,  -3,   0,  0,  0,  0,  0,  0 ],
    [  -4,  -3,  -2, -1,  0,  0,  0,  0 ],
    [  -2,  -1,   0,  1,  2,  3,  4,  0 ],
    [  -1,   0,   0,  1,  2,  3,  4,  0 ],
    [ -12, -11, -10, -9, -8, -7, -6, -5 ],
    [  -4,   0,   0,  0,  0,  0,  0,  0 ] ]

/-- Exponent table `exponents_19200_11b_clampmeter`. -/
def exponents_19200_11b_clampmeter : List (List Int) :=
  [ [  -3,  -2,  -1,  0, -4,  0,  0,  0 ],
    [  -7,  -6,   0,  0,  0,  0,  0,  0 ],
    [  -5,  -4,   0,  0,  0,  0,  0,  0 ],
    [  -2,   0,   0,  0,  0,  0,  0,  0 ],
    [  -3,  -2,  -1,  0,  0,  0,  0,  0 ],
    [  -1,   0,   1,  2,  3,  4,  0,  0 ],
    [  -1,   0,   0,  1,  2,  3,  4,  0 ],
    [ -12, -11, -10, -9, -8, -7, -6, -5 ],
    [  -3,   0,   0,  0,  0,  0,  0,  0 ] ]

/-- Exponent table `exponents_19200_11b`. -/
def exponents_19200_11b : List (List Int) :=
  [ [  -3,  -2,  -1,  0, -4,  0,  0,  0 ],
    [  -7,  -6,   0,  0,  0,  0,  0,  0 ],
    [  -5,  -4,   0,  0,  0,  0,  0,  0 ],
    [  -3,  -2,   0,  0,  0,  0,  0,  0 ],
    [   0,   0,   0,  0,  0,  0,  0,  0 ],
    [  -1,   0,   1,  2,  3,  4,  0,  0 ],
    [   0,   1,   2,  3,  4,  0,  0,  0 ],
    [ -12, -11, -10, -9, -8, -7, -6,  0 ],
    [  -3,   0,   0,  0,  0,  0,  0,  0 ] ]

/-- Exponent table `exponents_19200_14b`. -/
def exponents_19200_14b : List (List Int) :=
  [ [  -4,  -3,  -2, -1, -5,  0,  0,  0 ],
    [  -8,  -7,   0,  0,  0,  0,  0,  0 ],
    [  -6,  -5,   0,  0,  0,  0,  0,  0 ],
    [  -3,   0,   0,  0,  0,  0,  0,  0 ],
    [  -4,  -3,  -2, -1,  0,  0,  0,  0 ],
    [  -2,  -1,   0,  1,  2,  3,  4,  0 ],
    [  -2,  -1,   0,  0,  1,  2,  3,  4 ],
    [ -12, -11, -10, -9, -8, -7, -6, -5 ],
    [  -4,   0,   0,  0,  0,  0,  0,  0 ] ]

/-- The array read `table[mode][idx]`; `none` when an index is outside the array. -/
def lookup2 (table : List (List Int)) (mode idx : Nat) : Option Int :=
  match table.get? mode with
  | none => none
  | some row => row.get? idx

/-- The C library test `isdigit` on a byte. -/
def isdigit (b : Byte) : Bool := decide (48 ≤ b.val) && decide (b.val ≤ 57)

/-- The digit loop of `parse_value`:
`for (i = 0; i < num_digits; i++) intval = 10 * intval + (buf[i + 1] - '0')`. -/
def parse_value_digits (buf : Buffer) (num_digits : Nat) (intval : Int) : Int :=
  (List.range num_digits).foldl (fun acc i => 10 * acc + (((buf (i + 1)).val : Int) - 48)) intval

/-- The function `parse_value`: return code and new `*result`. -/
def parse_value (buf : Buffer) (info : es519xx_info) (result : FloatVal) : Int × FloatVal :=
  let num_digits : Nat := 4 + (if info.packet_size = 14 then 1 else 0)
  if info.is_ol then (SR_OK, FloatVal.inf false)
  else if info.is_ul then (SR_OK, FloatVal.inf false)
  else if !isdigit (buf 1) || !isdigit (buf 2) || !isdigit (buf 3) || !isdigit (buf 4)
      || (decide (num_digits = 5) && !isdigit (buf 5)) then
    (SR_ERR, result)
  else
    let intval : Int := if info.is_digit4 then 1 else 0
    let intval := parse_value_digits buf num_digits intval
    let intval := intval * (if info.is_sign then -1 else 1)
    (SR_OK, FloatVal.ofInt intval)

/-- The measurement-mode chain of `parse_range`: the table row, or `none` for
the `Invalid mode` branch. -/
def parse_range_mode (info : es519xx_info) : Option Nat :=
  if info.is_voltage then some 0
  else if info.is_current && info.is_micro then some 1
  else if info.is_current && info.is_milli then some 2
  else if info.is_current && info.is_auto then some 3
  else if info.is_current && !info.is_auto then some 4
  else if info.is_rpm then some 4
  else if info.is_resistance || info.is_continuity then some 5
  else if info.is_frequency then some 6
  else if info.is_capacitance then some 7
  else if info.is_diode then some 8
  else if info.is_duty_cycle then some 0
  else none

/-- The exponent selection of `parse_range`; `none` when an array is read
outside its bounds. -/
def parse_range_exponent (info : es519xx_info) (mode idx : Nat) : Option Int :=
  if info.is_vbar then
    if info.is_micro then ([-1, 0] : List Int).get? idx
    else if info.is_milli then ([-2, -1] : List Int).get? idx
    else some 0
  else if info.is_duty_cycle then some (-1)
  else if info.baudrate = 2400 then lookup2 exponents_2400_11b mode idx
  else if info.fivedigits then lookup2 exponents_19200_11b_5digits mode idx
  else if info.clampmeter then lookup2 exponents_19200_11b_clampmeter mode idx
  else if info.packet_size = 11 then lookup2 exponents_19200_11b mode idx
  else if info.packet_size = 14 then lookup2 exponents_19200_14b mode idx
  else some 0

/-- The function `parse_range`: return code, new `*floatval` and new `*info`;
`none` when an array is read outside its bounds. -/
def parse_range (b : Byte) (floatval : FloatVal) (info : es519xx_info) :
    Option (Int × FloatVal × es519xx_info) :=
  let idx : Int := (b.val : Int) - 48
  if idx < 0 ∨ idx > 7 then some (SR_ERR, floatval, info)
  else
    match parse_range_mode info with
    | none => some (SR_ERR, floatval, info)
    | some mode =>
      match parse_range_exponent info mode idx.toNat with
      | none => none
      | some exponent =>
        some (SR_OK, floatval.scale exponent, { info with digits := -exponent })

/-- Status byte part of `parse_flags` (the byte at index `status`). -/
def parse_flags_status (buf : Buffer) (status : Nat) (info : es519xx_info) : es519xx_info :=
  if info.alt_functions then
    { info with
      is_sign := bitSet (buf status) 3
      is_batt := bitSet (buf status) 2
      is_ol := bitSet (buf status) 1 || bitSet (buf status) 0 }
  else
    { info with
      is_judge := bitSet (buf status) 3
      is_sign := bitSet (buf status) 2
      is_batt := bitSet (buf status) 1
      is_ol := bitSet (buf status) 0 }

/-- Option 1 byte of the 11-byte packets without alternate functions, in `parse_flags`. -/
def parse_flags_option1 (buf : Buffer) (info : es519xx_info) : es519xx_info :=
  if info.baudrate = 2400 then
    { info with
      is_pmax := bitSet (buf 7) 3
      is_pmin := bitSet (buf 7) 2
      is_vahz := bitSet (buf 7) 0 }
  else if info.fivedigits then
    { info with
      is_ul := bitSet (buf 7) 3
      is_pmax := bitSet (buf 7) 2
      is_pmin := bitSet (buf 7) 1
      is_digit4 := bitSet (buf 7) 0 }
  else if info.clampmeter then
    { info with
      is_ul := bitSet (buf 7) 3
      is_vasel := bitSet (buf 7) 2
      is_vbar := bitSet (buf 7) 1 }
  else
    { info with
      is_hold := bitSet (buf 7) 3
      is_max := bitSet (buf 7) 2
      is_min := bitSet (buf 7) 1 }

/-- Option bytes part of `parse_flags`. -/
def parse_flags_options (buf : Buffer) (info : es519xx_info) : es519xx_info :=
  if info.packet_size = 14 then
    let info := { info with
      is_max := bitSet (buf 8) 3
      is_min := bitSet (buf 8) 2
      is_rel := bitSet (buf 8) 1
      is_rmr := bitSet (buf 8) 0
      is_ul := bitSet (buf 9) 3
      is_pmax := bitSet (buf 9) 2
      is_pmin := bitSet (buf 9) 1
      is_dc := bitSet (buf 10) 3
      is_ac := bitSet (buf 10) 2
      is_auto := bitSet (buf 10) 1
      is_vahz := bitSet (buf 10) 0 }
    if info.selectable_lpf then
      { info with
        is_hold := bitSet (buf 11) 3
        is_vbar := bitSet (buf 11) 2
        is_lpf1 := bitSet (buf 11) 1
        is_lpf0 := bitSet (buf 11) 0 }
    else
      { info with
        is_vbar := bitSet (buf 11) 2
        is_hold := bitSet (buf 11) 1
        is_lpf1 := bitSet (buf 11) 0 }
  else if info.alt_functions then
    { info with
      is_dc := bitSet (buf 8) 3
      is_auto := bitSet (buf 8) 2
      is_apo := bitSet (buf 8) 0
      is_ac := !bitSet (buf 8) 3 }
  else
    let info := parse_flags_option1 buf info
    let info := { info with
      is_dc := bitSet (buf 8) 3
      is_ac := bitSet (buf 8) 2
      is_auto := bitSet (buf 8) 1 }
    if info.baudrate = 2400 then
      { info with is_apo := bitSet (buf 8) 0 }
    else
      { info with is_vahz := bitSet (buf 8) 0 }

/-- The frequency / RPM / duty cycle selection used twice in `parse_flags`. -/
def parse_flags_freq (info : es519xx_info) : es519xx_info :=
  if info.packet_size = 14 then
    if info.is_judge then { info with is_duty_cycle := true }
    else { info with is_frequency := true }
  else
    if info.is_judge then { info with is_rpm := true }
    else { info with is_frequency := true }

/-- Function byte switch of `parse_flags` for `alt_functions`. -/
def parse_flags_function_alt (f : Nat) (info : es519xx_info) : es519xx_info :=
  match f with
  | 0x3f => { info with is_current := true, is_auto := true }
  | 0x3e => { info with is_current := true, is_micro := true, is_auto := true }
  | 0x3d => { info with is_current := true, is_milli := true, is_auto := true }
  | 0x3c => { info with is_voltage := true }
  | 0x37 => { info with is_resistance := true }
  | 0x36 => { info with is_continuity := true }
  | 0x3b => { info with is_diode := true }
  | 0x3a => { info with is_frequency := true }
  | 0x34 => { info with is_adp0 := true }
  | 0x35 => { info with is_adp0 := true }
  | 0x38 => { info with is_adp1 := true }
  | 0x39 => { info with is_adp1 := true }
  | 0x32 => { info with is_adp2 := true }
  | 0x33 => { info with is_adp2 := true }
  | 0x30 => { info with is_adp3 := true }
  | 0x31 => { info with is_adp3 := true }
  | _ => info

/-- Function byte switch of `parse_flags` without `alt_functions`. -/
def parse_flags_function_std (f : Nat) (info : es519xx_info) : es519xx_info :=
  match f with
  | 0x3b => { info with is_voltage := true }
  | 0x3d => { info with is_current := true, is_micro := true, is_auto := true }
  | 0x3f => { info with is_current := true, is_milli := true, is_auto := true }
  | 0x30 => { info with is_current := true, is_auto := true }
  | 0x39 => { info with is_current := true, is_auto := false }
  | 0x33 => { info with is_resistance := true }
  | 0x35 => { info with is_continuity := true }
  | 0x31 => { info with is_diode := true }
  | 0x32 => parse_flags_freq info
  | 0x36 => { info with is_capacitance := true }
  | 0x34 =>
    if info.is_judge then { info with is_temperature := true, is_celsius := true }
    else { info with is_temperature := true, is_fahrenheit := true }
  | 0x3e => { info with is_adp0 := true }
  | 0x3c => { info with is_adp1 := true }
  | 0x38 => { info with is_adp2 := true }
  | 0x3a => { info with is_adp3 := true }
  | _ => info

/-- Function byte part of `parse_flags`. -/
def parse_flags_function (f : Nat) (info : es519xx_info) : es519xx_info :=
  if info.alt_functions then parse_flags_function_alt f info
  else parse_flags_function_std f info

/-- The VAHZ rule of `parse_flags`. -/
def parse_flags_vahz (info : es519xx_info) : es519xx_info :=
  if info.is_vahz && (info.is_voltage || info.is_current) then
    parse_flags_freq { info with
      is_voltage := false
      is_current := false
      is_milli := false
      is_micro := false }
  else info

/-- The VASEL rule of `parse_flags`. -/
def parse_flags_vasel (info : es519xx_info) : es519xx_info :=
  if info.is_current && (info.is_micro || info.is_milli) && info.is_vasel then
    { info with is_current := false, is_auto := false, is_voltage := true }
  else info

/-- The 2400 baud rule of `parse_flags` (inverted mA / A mapping, no manual A). -/
def parse_flags_2400 (info : es519xx_info) : es519xx_info :=
  if info.baudrate = 2400 then
    if info.is_current && (info.is_milli || !info.is_auto) then
      { info with is_milli := !info.is_milli, is_auto := true }
    else info
  else info

/-- The function `parse_flags`: the new `*info`. -/
def parse_flags (buf : Buffer) (info : es519xx_info) : es519xx_info :=
  let function : Nat := 5 + (if info.packet_size = 14 then 1 else 0)
  let status : Nat := function + 1
  let info := parse_flags_status buf status info
  let info := parse_flags_options buf info
  let info := parse_flags_function (buf function).val info
  let info := parse_flags_vahz info
  let info := parse_flags_vasel info
  parse_flags_2400 info

/-- Measurement mode part of `handle_flags`: new `*analog` and `*floatval`. -/
def handle_flags_modes (analog : sr_datafeed_analog) (floatval : FloatVal)
    (info : es519xx_info) : sr_datafeed_analog × FloatVal :=
  let analog := analog.set_mq_if info.is_voltage SR_MQ_VOLTAGE SR_UNIT_VOLT
  let analog := analog.set_mq_if info.is_current SR_MQ_CURRENT SR_UNIT_AMPERE
  let analog := analog.set_mq_if info.is_resistance SR_MQ_RESISTANCE SR_UNIT_OHM
  let analog := analog.set_mq_if info.is_frequency SR_MQ_FREQUENCY SR_UNIT_HERTZ
  let analog := analog.set_mq_if info.is_capacitance SR_MQ_CAPACITANCE SR_UNIT_FARAD
  let analog := analog.set_mq_if (info.is_temperature && info.is_celsius)
    SR_MQ_TEMPERATURE SR_UNIT_CELSIUS
  let analog := analog.set_mq_if (info.is_temperature && info.is_fahrenheit)
    SR_MQ_TEMPERATURE SR_UNIT_FAHRENHEIT
  let analog := analog.set_mq_if info.is_continuity SR_MQ_CONTINUITY SR_UNIT_BOOLEAN
  let floatval := if info.is_continuity then
    (if floatval.ltZero || floatval.gtNat 25 then FloatVal.num false 0 0
      else FloatVal.num false 1 0)
    else floatval
  let analog := analog.set_mq_if info.is_diode SR_MQ_VOLTAGE SR_UNIT_VOLT
  let analog := analog.set_mq_if info.is_rpm SR_MQ_FREQUENCY SR_UNIT_REVOLUTIONS_PER_MINUTE
  let analog := analog.set_mq_if info.is_duty_cycle SR_MQ_DUTY_CYCLE SR_UNIT_PERCENTAGE
  (analog, floatval)

/-- Measurement related flags part of `handle_flags`: the new `mqflags`. -/
def handle_flags_mqflags (mqflags : Nat) (info : es519xx_info) : Nat :=
  let mqflags := or_if mqflags info.is_ac SR_MQFLAG_AC
  let mqflags := or_if mqflags info.is_dc SR_MQFLAG_DC
  let mqflags := or_if mqflags info.is_auto SR_MQFLAG_AUTORANGE
  let mqflags := or_if mqflags info.is_diode (SR_MQFLAG_DIODE ||| SR_MQFLAG_DC)
  let mqflags := or_if mqflags info.is_hold SR_MQFLAG_HOLD
  let mqflags := or_if mqflags info.is_max SR_MQFLAG_MAX
  let mqflags := or_if mqflags info.is_min SR_MQFLAG_MIN
  let mqflags := or_if mqflags info.is_rel SR_MQFLAG_RELATIVE
  mqflags

/-- The function `handle_flags`: new `*analog` and `*floatval` (the logging
of the other flags has no effect on them). -/
def handle_flags (analog : sr_datafeed_analog) (floatval : FloatVal)
    (info : es519xx_info) : sr_datafeed_analog × FloatVal :=
  let r := handle_flags_modes analog floatval info
  ({ r.1 with mqflags := handle_flags_mqflags r.1.mqflags info }, r.2)

/-- The function `flags_valid`. -/
def flags_valid (info : es519xx_info) : Bool :=
  let count : Nat := (if info.is_micro then 1 else 0)
  let count := count + (if info.is_milli then 1 else 0)
  if count > 1 then false
  else
    let count : Nat := (if info.is_voltage then 1 else 0)
    let count := count + (if info.is_current then 1 else 0)
    let count := count + (if info.is_resistance then 1 else 0)
    let count := count + (if info.is_frequency then 1 else 0)
    let count := count + (if info.is_capacitance then 1 else 0)
    let count := count + (if info.is_temperature then 1 else 0)
    let count := count + (if info.is_continuity then 1 else 0)
    let count := count + (if info.is_diode then 1 else 0)
    let count := count + (if info.is_rpm then 1 else 0)
    if count > 1 then false
    else if info.is_ac && info.is_dc then false
    else true

/-- The C library function `memcmp` on `n` bytes of `buf` starting at offsets
`a` and `b`: zero exactly when the two ranges hold the same bytes. -/
def memcmp (buf : Buffer) (a b : Nat) : Nat → Int
  | 0 => 0
  | n + 1 =>
    if buf a = buf b then memcmp buf (a + 1) (b + 1) n
    else ((buf a).val : Int) - ((buf b).val : Int)

/-- The function `sr_es519xx_packet_valid`: result and new `*info`. -/
def sr_es519xx_packet_valid (buf : Buffer) (info : es519xx_info) : Bool × es519xx_info :=
  let s := info.packet_size
  if s = 11 ∧ memcmp buf 0 s s ≠ 0 then (false, info)
  else if (buf (s - 2)).val ≠ 13 ∨ (buf (s - 1)).val ≠ 10 then (false, info)
  else
    let info := parse_flags buf info
    if !flags_valid info then (false, info)
    else (true, info)

/-- The function `sr_es519xx_parse`: return code and the new `*floatval`,
`*analog` and `*info`; `none` when an array is read outside its bounds. -/
def sr_es519xx_parse (buf : Buffer) (floatval : FloatVal) (analog : sr_datafeed_analog)
    (info : es519xx_info) : Option (Int × FloatVal × sr_datafeed_analog × es519xx_info) :=
  let pv := sr_es519xx_packet_valid buf info
  if !pv.1 then some (SR_ERR, floatval, analog, pv.2)
  else
    let v := parse_value buf pv.2 floatval
    if v.1 ≠ SR_OK then some (v.1, v.2, analog, pv.2)
    else
      match parse_range (buf 0) v.2 pv.2 with
      | none => none
      | some (ret, fv, info) =>
        if ret ≠ SR_OK then some (ret, fv, analog, info)
        else
          let analog := { analog with digits := info.digits, spec_digits := info.digits }
          let h := handle_flags analog fv info
          some (SR_OK, h.2, h.1, info)

/-- The seven protocol variants, one per pair of entry points. -/
inductive es519xx_variant
  | v2400_11b
  | v2400_11b_altfn
  | v19200_11b_5digits
  | v19200_11b_clamp
  | v19200_11b
  | v19200_14b
  | v19200_14b_sel_lpf
  deriving DecidableEq, Repr

/-- The `info` record each entry point builds after its `memset`. -/
def es519xx_variant.init : es519xx_variant → es519xx_info
  | .v2400_11b => { es519xx_info.zero with baudrate := 2400, packet_size := 11 }
  | .v2400_11b_altfn =>
    { es519xx_info.zero with baudrate := 2400, packet_size := 11, alt_functions := true }
  | .v19200_11b_5digits =>
    { es519xx_info.zero with baudrate := 19200, packet_size := 11, fivedigits := true }
  | .v19200_11b_clamp =>
    { es519xx_info.zero with baudrate := 19200, packet_size := 11, clampmeter := true }
  | .v19200_11b => { es519xx_info.zero with baudrate := 19200, packet_size := 11 }
  | .v19200_14b => { es519xx_info.zero with baudrate := 19200, packet_size := 14 }
  | .v19200_14b_sel_lpf =>
    { es519xx_info.zero with baudrate := 19200, packet_size := 14, selectable_lpf := true }

/-- Packet size of a variant. -/
def es519xx_variant.size (v : es519xx_variant) : Nat := v.init.packet_size

/-- The functions `sr_es519xx_*_packet_valid`: a local `info` is zeroed, set up
for the variant and passed to `sr_es519xx_packet_valid`. -/
def es519xx_packet_valid (v : es519xx_variant) (buf : Buffer) : Bool :=
  (sr_es519xx_packet_valid buf v.init).1

/-- The functions `sr_es519xx_*_parse`: the caller's `info` is zeroed, set up
for the variant and passed to `sr_es519xx_parse`. -/
def es519xx_parse (v : es519xx_variant) (buf : Buffer) (floatval : FloatVal)
    (analog : sr_datafeed_analog) (_info : es519xx_info) :
    Option (Int × FloatVal × sr_datafeed_analog × es519xx_info) :=
  sr_es519xx_parse buf floatval analog v.init

/-- The function `sr_es519xx_2400_11b_packet_valid`. -/
def sr_es519xx_2400_11b_packet_valid (buf : Buffer) : Bool :=
  es519xx_packet_valid .v2400_11b buf

/-- The function `sr_es519xx_2400_11b_parse`. -/
def sr_es519xx_2400_11b_parse := es519xx_parse .v2400_11b

/-- The function `sr_es519xx_2400_11b_altfn_packet_valid`. -/
def sr_es519xx_2400_11b_altfn_packet_valid (buf : Buffer) : Bool :=
  es519xx_packet_valid .v2400_11b_altfn buf

/-- The function `sr_es519xx_2400_11b_altfn_parse`. -/
def sr_es519xx_2400_11b_altfn_parse := es519xx_parse .v2400_11b_altfn

/-- The function `sr_es519xx_19200_11b_5digits_packet_valid`. -/
def sr_es519xx_19200_11b_5digits_packet_valid (buf : Buffer) : Bool :=
  es519xx_packet_valid .v19200_11b_5digits buf

/-- The function `sr_es519xx_19200_11b_5digits_parse`. -/
def sr_es519xx_19200_11b_5digits_parse := es519xx_parse .v19200_11b_5digits

/-- The function `sr_es519xx_19200_11b_clamp_packet_valid`. -/
def sr_es519xx_19200_11b_clamp_packet_valid (buf : Buffer) : Bool :=
  es519xx_packet_valid .v19200_11b_clamp buf

/-- The function `sr_es519xx_19200_11b_clamp_parse`. -/
def sr_es519xx_19200_11b_clamp_parse := es519xx_parse .v19200_11b_clamp

/-- The function `sr_es519xx_19200_11b_packet_valid`. -/
def sr_es519xx_19200_11b_packet_valid (buf : Buffer) : Bool :=
  es519xx_packet_valid .v19200_11b buf

/-- The function `sr_es519xx_19200_11b_parse`. -/
def sr_es519xx_19200_11b_parse := es519xx_parse .v19200_11b

/-- The function `sr_es519xx_19200_14b_packet_valid`. -/
def sr_es519xx_19200_14b_packet_valid (buf : Buffer) : Bool :=
  es519xx_packet_valid .v19200_14b buf

/-- The function `sr_es519xx_19200_14b_parse`. -/
def sr_es519xx_19200_14b_parse := es519xx_parse .v19200_14b

/-- The function `sr_es519xx_19200_14b_sel_lpf_packet_valid`. -/
def sr_es519xx_19200_14b_sel_lpf_packet_valid (buf : Buffer) : Bool :=
  es519xx_packet_valid .v19200_14b_sel_lpf buf

/-- The function `sr_es519xx_19200_14b_sel_lpf_parse`. -/
def sr_es519xx_19200_14b_sel_lpf_parse := es519xx_parse .v19200_14b_sel_lpf

/-- An analog record with no qualifier flag, as a caller hands it in. -/
def analog0 : sr_datafeed_analog :=
  { mq := SR_MQ_GAIN, unit := SR_UNIT_UNITLESS, mqflags := 0, digits := 0, spec_digits := 0 }

/-! ## Brymen BM25x (`src/dmm/bm25x.c`) -/

/-- Modelled from the spec: the constant `BRYMEN_BM25X_PACKET_SIZE` is declared
in `libsigrok-internal.h`, which is not among the sources; the Brymen packet
has 15 bytes. -/
def BRYMEN_BM25X_PACKET_SIZE : Nat := 15

/-- The constant `MAX_DIGITS`. -/
def MAX_DIGITS : Nat := 4

/-- The loop of `sr_brymen_bm25x_packet_valid` from index `i`, with `n`
iterations left: `false` as soon as a high nibble differs from its index. -/
def bm25x_nibbles_valid (buf : Buffer) : Nat → Nat → Bool
  | _, 0 => true
  | i, n + 1 =>
    if (buf i).val >>> 4 ≠ i then false
    else bm25x_nibbles_valid buf (i + 1) n

/-- The function `sr_brymen_bm25x_packet_valid`. -/
def sr_brymen_bm25x_packet_valid (buf : Buffer) : Bool :=
  if (buf 0).val ≠ 2 then false
  else bm25x_nibbles_valid buf 1 (BRYMEN_BM25X_PACKET_SIZE - 1)

/-- The function `decode_digit`; the glyphs are their character codes. -/
def decode_digit (num : Nat) (buf : Buffer) : Int :=
  let val : Nat := ((buf (3 + 2 * num)).val &&& 0xe) ||| (((buf (4 + 2 * num)).val <<< 4) &&& 0xf0)
  match val with
  | 0xbe => 0
  | 0xa0 => 1
  | 0xda => 2
  | 0xf8 => 3
  | 0xe4 => 4
  | 0x7c => 5
  | 0x7e => 6
  | 0xa8 => 7
  | 0xfe => 8
  | 0xfc => 9
  | 0x00 => 32
  | 0x40 => 45
  | 0x16 => 76
  | 0x1e => 67
  | 0x4e => 70
  | 0x5e => 69
  | 0x62 => 110
  | 0x42 => 114
  | _ => -1

/-- The loop of `decode_point` from index `i`, with `n` iterations left and
the point `p` found so far. -/
def decode_point_loop (buf : Buffer) : Nat → Nat → Int → Int
  | _, 0, p => p
  | i, n + 1, p =>
    if !maskSet (buf (11 - 2 * i)) 1 then decode_point_loop buf (i + 1) n p
    else if p ≠ 0 then -1
    else decode_point_loop buf (i + 1) n i

/-- The function `decode_point`. -/
def decode_point (buf : Buffer) : Int :=
  decode_point_loop buf 1 (MAX_DIGITS - 1) 0

/-- The function `decode_scale`. -/
def decode_scale (point digits : Int) : Int :=
  let pos : Int := if point ≠ 0 then point + digits - MAX_DIGITS else 0
  if pos < 0 ∨ pos > 3 then 0
  else -pos

/-- The function `decode_prefix`. -/
def decode_prefix (buf : Buffer) : Int :=
  if maskSet (buf 11) 2 then 6
  else if maskSet (buf 11) 1 then 3
  else if maskSet (buf 13) 1 then -3
  else if maskSet (buf 13) 2 then -6
  else if maskSet (buf 12) 1 then -9
  else 0

/-- The digit loop of `decode_value` from index `i`, with `n` iterations left
and the value `val` so far: the value and the index at which the loop ended
or was left by `break`, or `none` for the jump to `special`. -/
def decode_value_loop (buf : Buffer) : Nat → Nat → Nat → Option (Nat × Nat)
  | i, 0, val => some (val, i)
  | i, n + 1, val =>
    let digit := decode_digit i buf
    if i = 3 ∧ (digit = 67 ∨ digit = 70) then some (val, i)
    else if digit < 0 ∨ digit > 9 then none
    else decode_value_loop buf (i + 1) n (10 * val + digit.toNat)

/-- The function `decode_value`: the returned value and the new `*exponent`. -/
def decode_value (buf : Buffer) (exponent : Int) : FloatVal × Int :=
  match decode_value_loop buf 0 MAX_DIGITS 0 with
  | some (val, i) => (FloatVal.num false val 0, decode_scale (decode_point buf) i)
  | none =>
    if decode_digit 1 buf = 0 ∧ decode_digit 2 buf = 76 then (FloatVal.inf false, exponent)
    else (FloatVal.nan, exponent)

/-- Qualifier flag part of `sr_brymen_bm25x_parse` (the seven tests of
`buf[1]`, `buf[11]`, `buf[13]` and `buf[14]`): the new `mqflags`. -/
def bm25x_mqflags (buf : Buffer) (mqflags : Nat) : Nat :=
  let mqflags := or_if mqflags (maskSet (buf 1) 8) SR_MQFLAG_AUTORANGE
  let mqflags := or_if mqflags (maskSet (buf 1) 4) SR_MQFLAG_DC
  let mqflags := or_if mqflags (maskSet (buf 1) 2) SR_MQFLAG_AC
  let mqflags := or_if mqflags (maskSet (buf 1) 1) SR_MQFLAG_RELATIVE
  let mqflags := or_if mqflags (maskSet (buf 11) 8) SR_MQFLAG_HOLD
  let mqflags := or_if mqflags (maskSet (buf 13) 8) SR_MQFLAG_MAX
  let mqflags := or_if mqflags (maskSet (buf 14) 8) SR_MQFLAG_MIN
  mqflags

/-- Volt indicator part of `sr_brymen_bm25x_parse` (`buf[14] & 4`), with the
diode rule: the new `*analog`. -/
def bm25x_volt (buf : Buffer) (analog : sr_datafeed_analog) : sr_datafeed_analog :=
  if maskSet (buf 14) 4 then
    let analog := analog.set_mq SR_MQ_VOLTAGE SR_UNIT_VOLT
    if analog.mqflags &&& (SR_MQFLAG_DC ||| SR_MQFLAG_AC) = 0 then
      { analog with mqflags := analog.mqflags ||| (SR_MQFLAG_DIODE ||| SR_MQFLAG_DC) }
    else analog
  else analog

/-- Remaining measured-quantity part of `sr_brymen_bm25x_parse` (current,
resistance, capacitance, frequency, temperature): the new `*analog`. -/
def bm25x_modes (buf : Buffer) (analog : sr_datafeed_analog) : sr_datafeed_analog :=
  let analog := analog.set_mq_if (maskSet (buf 14) 2) SR_MQ_CURRENT SR_UNIT_AMPERE
  let analog := analog.set_mq_if (maskSet (buf 12) 4) SR_MQ_RESISTANCE SR_UNIT_OHM
  let analog := analog.set_mq_if (maskSet (buf 13) 4) SR_MQ_CAPACITANCE SR_UNIT_FARAD
  let analog := analog.set_mq_if (maskSet (buf 12) 2) SR_MQ_FREQUENCY SR_UNIT_HERTZ
  let analog := analog.set_mq_if (decode_digit 3 buf = 67) SR_MQ_TEMPERATURE SR_UNIT_CELSIUS
  let analog := analog.set_mq_if (decode_digit 3 buf = 70) SR_MQ_TEMPERATURE SR_UNIT_FAHRENHEIT
  analog

/-- The function `sr_brymen_bm25x_parse`: return code and the new `*floatval`
and `*analog`. -/
def sr_brymen_bm25x_parse (buf : Buffer) (_floatval : FloatVal)
    (analog : sr_datafeed_analog) : Int × FloatVal × sr_datafeed_analog :=
  let exponent : Int := 0
  let analog := { analog with mq := SR_MQ_GAIN, unit := SR_UNIT_UNITLESS, mqflags := 0 }
  let analog := { analog with mqflags := bm25x_mqflags buf analog.mqflags }
  let analog := bm25x_volt buf analog
  let analog := bm25x_modes buf analog
  let dv := decode_value buf exponent
  let val := dv.1
  let exponent := dv.2 + decode_prefix buf
  let val := val.scale exponent
  let val := if maskSet (buf 3) 1 then val.neg else val
  (SR_OK, val, { analog with digits := -exponent, spec_digits := -exponent })

/-- Number of measurement-kind flags set in a decoded-flags record: voltage,
current, resistance, frequency, capacitance, temperature, continuity, diode,
rpm and duty cycle. -/
def kind_count (info : es519xx_info) : Nat :=
  info.is_voltage.toNat + info.is_current.toNat + info.is_resistance.toNat
    + info.is_frequency.toNat + info.is_capacitance.toNat + info.is_temperature.toNat
    + info.is_continuity.toNat + info.is_diode.toNat + info.is_rpm.toNat
    + info.is_duty_cycle.toNat

/-- The six-field outcome of a parse call: return code, value, mq, unit,
mqflags and digits. -/
def es519xx_outcome (r : Int × FloatVal × sr_datafeed_analog × es519xx_info) :
    Int × FloatVal × sr_mq × sr_unit × Nat × Int :=
  (r.1, r.2.1, r.2.2.1.mq, r.2.2.1.unit, r.2.2.1.mqflags, r.2.2.1.digits)

/-- Decision taken by `parse_value`, apart from the caller's `*result`: the
value it stores, or `none` when it returns `SR_ERR`. -/
def value_decision (buf : Buffer) (info : es519xx_info) : Option FloatVal :=
  if (parse_value buf info FloatVal.nan).1 = SR_OK then
    some (parse_value buf info FloatVal.nan).2
  else none

/-- Decision taken by `parse_range`, apart from the caller's `*floatval`:
`none` for a read outside an array, `some none` for `SR_ERR`, and
`some (some e)` when the exponent `e` is applied. -/
def range_decision (b : Byte) (info : es519xx_info) : Option (Option Int) :=
  let idx : Int := (b.val : Int) - 48
  if idx < 0 ∨ idx > 7 then some none
  else
    match parse_range_mode info with
    | none => some none
    | some mode => (parse_range_exponent info mode idx.toNat).map some

/-- Verdict of `sr_es519xx_parse` on a buffer, apart from the caller's value
and record: `none` for a read outside an array, `some none` for a rejected
packet, and `some (some (x, e))` for a packet accepted with the unscaled value
`x` and the exponent `e`. -/
def es519xx_verdict (buf : Buffer) (info : es519xx_info) : Option (Option (FloatVal × Int)) :=
  if (sr_es519xx_packet_valid buf info).1 = false then some none
  else
    match value_decision buf (parse_flags buf info) with
    | none => some none
    | some x =>
      match range_decision (buf 0) (parse_flags buf info) with
      | none => none
      | some none => some none
      | some (some e) => some (some (x, e))

/-- The value `sr_es519xx_parse` leaves in `*floatval` when it rejects a
packet: the value stored by `parse_value` if that step was reached and passed,
the caller's value otherwise. -/
def es519xx_rejected_value (buf : Buffer) (info : es519xx_info) (fv : FloatVal) : FloatVal :=
  if (sr_es519xx_packet_valid buf info).1 = true
      ∧ (parse_value buf (parse_flags buf info) fv).1 = SR_OK then
    (parse_value buf (parse_flags buf info) fv).2
  else fv

/-- Qualifier bits an ES519XX entry point adds for a buffer: the flags part of
`handle_flags` run on an empty `mqflags`. -/
def es519xx_mqflags (v : es519xx_variant) (buf : Buffer) : Nat :=
  handle_flags_mqflags 0 (parse_flags buf v.init)

/-! ## Sample packets -/

/-- A 19200 baud 11-byte packet sent twice: range `0`, digits `0050`, function
`0x3b` (V), option 2 byte with the DC bit. -/
def pkt_volt_dc : Buffer :=
  Buffer.ofList [0x30, 0x30, 0x30, 0x35, 0x30, 0x3b, 0x30, 0x30, 0x38, 0x0d, 0x0a,
    0x30, 0x30, 0x30, 0x35, 0x30, 0x3b, 0x30, 0x30, 0x38, 0x0d, 0x0a]

/-- A 19200 baud 11-byte packet sent twice: range `0`, digits `0050`, function
`0x31` (diode), option 2 byte with the AC bit. -/
def pkt_diode_ac : Buffer :=
  Buffer.ofList [0x30, 0x30, 0x30, 0x35, 0x30, 0x31, 0x30, 0x30, 0x34, 0x0d, 0x0a,
    0x30, 0x30, 0x30, 0x35, 0x30, 0x31, 0x30, 0x30, 0x34, 0x0d, 0x0a]

/-- The record `info` holds after `pkt_volt_dc` was accepted at 19200 baud. -/
def info_volt_dc : es519xx_info :=
  { es519xx_info.zero with
    baudrate := 19200, packet_size := 11, is_voltage := true, is_dc := true, digits := 3 }

/-- A 19200 baud 11-byte packet sent twice: range `0`, digits `0025`, function
`0x34` (temperature). -/
def pkt_temperature : Buffer :=
  Buffer.ofList [0x30, 0x30, 0x30, 0x32, 0x35, 0x34, 0x30, 0x30, 0x30, 0x0d, 0x0a,
    0x30, 0x30, 0x30, 0x32, 0x35, 0x34, 0x30, 0x30, 0x30, 0x0d, 0x0a]

/-- The 11 bytes of `pkt_volt_dc` sent once, followed by zero bytes. -/
def pkt_volt_dc_once : Buffer :=
  Buffer.ofList [0x30, 0x30, 0x30, 0x35, 0x30, 0x3b, 0x30, 0x30, 0x38, 0x0d, 0x0a]

/-- The bytes of `pkt_volt_dc` followed by a further byte `0xff`. -/
def pkt_volt_dc_tail : Buffer :=
  Buffer.ofList [0x30, 0x30, 0x30, 0x35, 0x30, 0x3b, 0x30, 0x30, 0x38, 0x0d, 0x0a,
    0x30, 0x30, 0x30, 0x35, 0x30, 0x3b, 0x30, 0x30, 0x38, 0x0d, 0x0a, 0xff]

/-- A clamp meter packet sent twice: range `2`, digits `0050`, function `0x3d`
(uA), option 1 byte with the VBAR bit. -/
def pkt_clamp_vbar : Buffer :=
  Buffer.ofList [0x32, 0x30, 0x30, 0x35, 0x30, 0x3d, 0x30, 0x32, 0x30, 0x0d, 0x0a,
    0x32, 0x30, 0x30, 0x35, 0x30, 0x3d, 0x30, 0x32, 0x30, 0x0d, 0x0a]

/-- A Brymen packet with valid index nibbles whose byte 1 has the DC and the
AC bit set. -/
def pkt_bm_ac_dc : Buffer :=
  Buffer.ofList [0x02, 0x16, 0x20, 0x30, 0x40, 0x50, 0x60, 0x70, 0x80, 0x90, 0xa0, 0xb0,
    0xc0, 0xd0, 0xe0]

/-- Number of leading bytes an entry point reads: an 11-byte packet is compared
with its repetition in the following 11 bytes. -/
def es519xx_variant.reads (v : es519xx_variant) : Nat :=
  if v.size = 11 then 22 else 14

/-! ## Definitions for the value and digit theorems -/

/-- The segment patterns of `decode_digit` with the value returned for each:
the digits 0 to 9, then the glyphs by character code. -/
def segment_table : List (Nat × Int) :=
  [(0xbe, 0), (0xa0, 1), (0xda, 2), (0xf8, 3), (0xe4, 4), (0x7c, 5), (0x7e, 6), (0xa8, 7),
    (0xfe, 8), (0xfc, 9), (0x00, 32), (0x40, 45), (0x16, 76), (0x1e, 67), (0x4e, 70),
    (0x5e, 69), (0x62, 110), (0x42, 114)]

/-- Decimal number a symbolic value approximates: plus or minus `m * 10 ^ e`
for `num`, the reading before the product is rounded to a `float`; the
infinities and not-a-number have none. The float the program holds is
`FloatVal.float32`, which differs from this number wherever `m * 10 ^ e` is
no `float`. -/
def FloatVal.toRat : FloatVal → Option ℚ
  | .num s m e => some ((if s then -1 else 1) * (m : ℚ) * (10 : ℚ) ^ e)
  | .inf _ => none
  | .nan => none

/-- A decoded digit position shows a decimal digit: the test
`digit < 0 || digit > 9` of `decode_value` fails. -/
def is_decimal (digit : Int) : Bool := decide (0 ≤ digit) && decide (digit ≤ 9)

/-- Number of decimal-point bits set in a Brymen packet (bit 0 of `buf[9]`,
`buf[7]` and `buf[5]`). -/
def bm25x_point_bits (buf : Buffer) : Nat :=
  (maskSet (buf 9) 1).toNat + (maskSet (buf 7) 1).toNat + (maskSet (buf 5) 1).toNat

/-- Point index named by the decimal-point bits: 1 for `buf[9]`, 2 for
`buf[7]`, 3 for `buf[5]`, 0 when none is set. -/
def bm25x_point_index (buf : Buffer) : Nat :=
  if maskSet (buf 9) 1 then 1 else if maskSet (buf 7) 1 then 2
  else if maskSet (buf 5) 1 then 3 else 0

/-- Number of digit positions the digit loop of `decode_value` went through:
4 for four decimal digits, 3 for three decimal digits followed by `C` or `F`,
`none` when the loop left for `special`. -/
def bm25x_digit_count (buf : Buffer) : Option Nat :=
  (decode_value_loop buf 0 MAX_DIGITS 0).map Prod.snd

/-- The value is a finite number between `lo` and `hi`, bounds included. -/
def FloatVal.in_range (x : FloatVal) (lo hi : ℚ) : Bool :=
  match x.toRat with
  | some q => decide (lo ≤ q ∧ q ≤ hi)
  | none => false

/-- Exponent table of a variant: the 2400 baud table for both 2400 baud
variants, then the five-digit, the clamp meter, the 11-byte and the 14-byte
table. -/
def es519xx_variant.table : es519xx_variant → List (List Int)
  | .v2400_11b => exponents_2400_11b
  | .v2400_11b_altfn => exponents_2400_11b
  | .v19200_11b_5digits => exponents_19200_11b_5digits
  | .v19200_11b_clamp => exponents_19200_11b_clampmeter
  | .v19200_11b => exponents_19200_11b
  | .v19200_14b => exponents_19200_14b
  | .v19200_14b_sel_lpf => exponents_19200_14b

/-- Exponent of a packet as the specification describes it, for variant `v`,
decoded flags `info`, table row `mode` and range index `idx`: the VBAR pairs
when `is_vbar` (micro: -1, 0; milli: -2, -1; the initial 0 with neither), -1
for duty cycle, otherwise the entry of the variant's table.
`parse_range_exponent_eq` relates it to the exponent `parse_range` selects. -/
def es519xx_exponent (v : es519xx_variant) (info : es519xx_info) (mode idx : Nat) :
    Option Int :=
  if info.is_vbar then
    if info.is_micro then ([-1, 0] : List Int).get? idx
    else if info.is_milli then ([-2, -1] : List Int).get? idx
    else some 0
  else if info.is_duty_cycle then some (-1)
  else lookup2 v.table mode idx

/-- Decimal integer shown by the value bytes of a packet of variant `v`:
`buf[1..4]`, or `buf[1..5]` for the 14-byte packets, with a leading 1 when
`digit4` is set. -/
def es519xx_magnitude (v : es519xx_variant) (buf : Buffer) (digit4 : Bool) : Int :=
  if v.size = 14 then
    (if digit4 then 100000 else 0) + 10000 * (((buf 1).val : Int) - 48)
      + 1000 * (((buf 2).val : Int) - 48) + 100 * (((buf 3).val : Int) - 48)
      + 10 * (((buf 4).val : Int) - 48) + (((buf 5).val : Int) - 48)
  else
    (if digit4 then 10000 else 0) + 1000 * (((buf 1).val : Int) - 48)
      + 100 * (((buf 2).val : Int) - 48) + 10 * (((buf 3).val : Int) - 48)
      + (((buf 4).val : Int) - 48)

/-- The fields of `struct es519xx_info` the entry points set up and
`parse_flags` leaves alone. -/
def es519xx_info.config (info : es519xx_info) : Nat × Nat × Bool × Bool × Bool × Bool :=
  (info.baudrate, info.packet_size, info.alt_functions, info.fivedigits, info.clampmeter,
    info.selectable_lpf)

/-- Index of a byte that holds a digit of the value: `buf[1..4]` and their
repetition `buf[12..15]` in the 11-byte packets, `buf[1..5]` in the 14-byte
packets. -/
def es519xx_value_byte (v : es519xx_variant) (i : Nat) : Bool :=
  if v.size = 14 then decide (1 ≤ i ∧ i ≤ 5)
  else decide ((1 ≤ i ∧ i ≤ 4) ∨ (12 ≤ i ∧ i ≤ 15))

/-! ## Further sample packets -/

/-- A Brymen packet showing `12.34` volt DC: digits 1, 2, 3, 4, the
decimal-point bit of `buf[7]`, no prefix, sign bit clear. -/
def pkt_bm_1234 : Buffer :=
  Buffer.ofList [0x02, 0x14, 0x20, 0x30, 0x4a, 0x5a, 0x6d, 0x79, 0x8f, 0x94, 0xae, 0xb0,
    0xc0, 0xd0, 0xe4]

/-- A Brymen packet showing `12.3 C`: digits 1, 2, 3 and the glyph `C`, the
decimal-point bit of `buf[7]`, no prefix. -/
def pkt_bm_123C : Buffer :=
  Buffer.ofList [0x02, 0x10, 0x20, 0x30, 0x4a, 0x5a, 0x6d, 0x79, 0x8f, 0x9e, 0xa1, 0xb0,
    0xc0, 0xd0, 0xe0]

/-- A Brymen packet showing ` 0L ` (open circuit) in the resistance mode. -/
def pkt_bm_0L : Buffer :=
  Buffer.ofList [0x02, 0x10, 0x20, 0x30, 0x40, 0x5e, 0x6b, 0x76, 0x81, 0x90, 0xa0, 0xb0,
    0xc4, 0xd0, 0xe0]

/-- A 2400 baud packet sent twice: range `0`, digits `0050`, function `0x33`
(resistance), status byte with the sign bit. -/
def pkt_res_neg : Buffer :=
  Buffer.ofList [0x30, 0x30, 0x30, 0x35, 0x30, 0x33, 0x34, 0x30, 0x30, 0x0d, 0x0a,
    0x30, 0x30, 0x30, 0x35, 0x30, 0x33, 0x34, 0x30, 0x30, 0x0d, 0x0a]

/-- A 19200 baud 11-byte packet sent twice: range `0`, digits `0050`, function
`0x33` (resistance), status byte with the overflow bit. -/
def pkt_res_ol : Buffer :=
  Buffer.ofList [0x30, 0x30, 0x30, 0x35, 0x30, 0x33, 0x31, 0x30, 0x30, 0x0d, 0x0a,
    0x30, 0x30, 0x30, 0x35, 0x30, 0x33, 0x31, 0x30, 0x30, 0x0d, 0x0a]

/-- The packet `pkt_res_ol` with the digits `9999` in place of `0050`. -/
def pkt_res_ol_9999 : Buffer :=
  Buffer.ofList [0x30, 0x39, 0x39, 0x39, 0x39, 0x33, 0x31, 0x30, 0x30, 0x0d, 0x0a,
    0x30, 0x39, 0x39, 0x39, 0x39, 0x33, 0x31, 0x30, 0x30, 0x0d, 0x0a]

/-- A 19200 baud 11-byte packet sent twice: range `0`, digits `0050`, function
`0x35` (continuity), status byte with the overflow bit. -/
def pkt_cont_ol : Buffer :=
  Buffer.ofList [0x30, 0x30, 0x30, 0x35, 0x30, 0x35, 0x31, 0x30, 0x30, 0x0d, 0x0a,
    0x30, 0x30, 0x30, 0x35, 0x30, 0x35, 0x31, 0x30, 0x30, 0x0d, 0x0a]

/-- A 19200 baud 11-byte packet sent twice: range `0`, digits `0300`, function
`0x35` (continuity): a reading of 30.0 ohm. -/
def pkt_cont_30 : Buffer :=
  Buffer.ofList [0x30, 0x30, 0x33, 0x30, 0x30, 0x35, 0x30, 0x30, 0x30, 0x0d, 0x0a,
    0x30, 0x30, 0x33, 0x30, 0x30, 0x35, 0x30, 0x30, 0x30, 0x0d, 0x0a]

/-- A clamp meter packet sent twice: range `0`, digits `0050`, function `0x30`
(A), option 1 byte with the VASEL bit, VAHZ bit clear. -/
def pkt_clamp_vasel_a : Buffer :=
  Buffer.ofList [0x30, 0x30, 0x30, 0x35, 0x30, 0x30, 0x30, 0x34, 0x30, 0x0d, 0x0a,
    0x30, 0x30, 0x30, 0x35, 0x30, 0x30, 0x30, 0x34, 0x30, 0x0d, 0x0a]

/-- A clamp meter packet sent twice: range `0`, digits `0050`, function `0x3d`
(uA), option 1 byte with the VASEL bit, VAHZ bit clear. -/
def pkt_clamp_vasel_ua : Buffer :=
  Buffer.ofList [0x30, 0x30, 0x30, 0x35, 0x30, 0x3d, 0x30, 0x34, 0x30, 0x0d, 0x0a,
    0x30, 0x30, 0x30, 0x35, 0x30, 0x3d, 0x30, 0x34, 0x30, 0x0d, 0x0a]

/-- A 2400 baud packet sent twice: range `0`, digits `0050`, function `0x39`
(manual A). -/
def pkt_manual_a : Buffer :=
  Buffer.ofList [0x30, 0x30, 0x30, 0x35, 0x30, 0x39, 0x30, 0x30, 0x30, 0x0d, 0x0a,
    0x30, 0x30, 0x30, 0x35, 0x30, 0x39, 0x30, 0x30, 0x30, 0x0d, 0x0a]

/-- The record `info` holds after `pkt_res_ol` was accepted at 19200 baud. -/
def info_res_ol : es519xx_info :=
  { es519xx_info.zero with
    baudrate := 19200, packet_size := 11, is_resistance := true, is_ol := true, digits := 1 }

/-- The record `info` holds after `pkt_cont_30` was accepted at 19200 baud. -/
def info_cont_30 : es519xx_info :=
  { es519xx_info.zero with
    baudrate := 19200, packet_size := 11, is_continuity := true, digits := 1 }

/-- A Brymen packet showing `43.21`: digits 4, 3, 2, 1, the decimal-point bit
of `buf[7]`, no prefix. -/
def pkt_bm_4321 : Buffer :=
  Buffer.ofList [0x02, 0x14, 0x20, 0x34, 0x4e, 0x58, 0x6f, 0x7b, 0x8d, 0x90, 0xaa, 0xb0,
    0xc0, 0xd0, 0xe4]

/-- A Brymen packet with two decimal-point bits set (`buf[5]` and `buf[7]`):
digits 1, 2, 3, 4, no prefix. -/
def pkt_bm_two_points : Buffer :=
  Buffer.ofList [0x02, 0x14, 0x20, 0x30, 0x4a, 0x5b, 0x6d, 0x79, 0x8f, 0x94, 0xae, 0xb0,
    0xc0, 0xd0, 0xe4]

/-! ## String utilities (`src/strutil.c`) -/

/-- The character code read through a `const char *`: the code of the first
character, or 0 at the terminating NUL. -/
def peek (s : List Char) : Nat :=
  match s with
  | [] => 0
  | c :: _ => c.toNat

/-- The C library test `isspace` on a character code, in the C locale: space,
`\t`, `\n`, `\v`, `\f` and `\r`. -/
def isspace (c : Nat) : Bool := decide (c = 32) || (decide (9 ≤ c) && decide (c ≤ 13))

/-- The loop `while (isspace(*str)) str++`. -/
def skip_isspace : List Char → List Char
  | [] => []
  | c :: cs => if isspace c.toNat then skip_isspace cs else c :: cs

/-- Decimal digit test on a character code, as the C library number parsers
apply it in base 10. -/
def is_digit_code (c : Nat) : Bool := decide (48 ≤ c) && decide (c ≤ 57)

/-- The leading decimal digits of a string, and the rest of the string. -/
def span_digits : List Char → List Char × List Char
  | [] => ([], [])
  | c :: cs =>
    if is_digit_code c.toNat then ((c :: (span_digits cs).1), (span_digits cs).2)
    else ([], c :: cs)

/-- The number a string of decimal digits denotes. -/
def digits_value (ds : List Char) : Nat :=
  ds.foldl (fun acc c => 10 * acc + (c.toNat - 48)) 0

/-- The GLib function `g_ascii_strtoll(nptr, &endptr, 10)`, after its
documentation: leading white space is skipped, an optional sign and the
decimal digits are read; the result is the value, the new `endptr` and whether
`ERANGE` was stored in `errno`. Without digits the value is 0 and `endptr` is
`nptr`; a value outside `gint64` gives the nearest limit and `ERANGE`. -/
def g_ascii_strtoll (nptr : List Char) : Int × List Char × Bool :=
  let s := skip_isspace nptr
  let negative : Bool := decide (peek s = 45)
  let s := if peek s = 45 ∨ peek s = 43 then s.tail else s
  let d := span_digits s
  if d.1 = [] then (0, nptr, false)
  else if negative then
    if digits_value d.1 > 2 ^ 63 then (-(2 ^ 63 : Int), d.2, true)
    else (-(digits_value d.1 : Int), d.2, false)
  else
    if digits_value d.1 > 2 ^ 63 - 1 then ((2 ^ 63 - 1 : Int), d.2, true)
    else ((digits_value d.1 : Int), d.2, false)

/-- A value of type `int64_t`, or `none` when the arithmetic result lies
outside the type (signed overflow, undefined behaviour in C). -/
def int64_checked (x : Int) : Option Int :=
  if -(2 ^ 63 : Int) ≤ x ∧ x < 2 ^ 63 then some x else none

/-- The conversion of an `int64_t` or `ptrdiff_t` value to `int32_t`: reduced
modulo `2 ^ 32` into the range of the type. -/
def to_int32 (x : Int) : Int := (x + 2 ^ 31) % 2 ^ 32 - 2 ^ 31

/-- The loop `x *= 10` run `n` times on an `int64_t`; `none` on signed
overflow. -/
def mul10_loop : Nat → Int → Option Int
  | 0, x => some x
  | n + 1, x =>
    match int64_checked (x * 10) with
    | none => none
    | some y => mul10_loop n y

/-- Integer part of `sr_parse_rational`, on the string after the leading white
space: `integral`, `endptr` and `no_integer`, or `none` for `return SR_ERR`. -/
def parse_rational_integral (str : List Char) : Option (Int × List Char × Bool) :=
  let r := g_ascii_strtoll str
  let integral := r.1
  let endptr := r.2.1
  if endptr.length = str.length ∧ (peek str = 45 ∨ peek str = 43) ∧ peek str.tail = 46 then
    some (integral, endptr.tail, true)
  else if endptr.length = str.length ∧ peek str = 46 then
    some (integral, endptr, true)
  else if r.2.2 then none
  else some (integral, endptr, false)

/-- Fraction part of `sr_parse_rational`: `fractional`, `fractional_len` and
`endptr`, or `none` for `return SR_ERR`. -/
def parse_rational_fraction (endptr : List Char) (no_integer : Bool) :
    Option (Int × Int × List Char) :=
  if peek endptr = 46 then
    let start := endptr.tail
    let r := g_ascii_strtoll start
    let endptr := r.2.1
    let is_exp : Bool := decide (peek endptr = 69) || decide (peek endptr = 101)
    let is_eos : Bool := decide (peek endptr = 0)
    let reset : Bool := decide (endptr.length = start.length) && (is_exp || is_eos)
    let fractional : Int := if reset then 0 else r.1
    let errno : Bool := if reset then false else r.2.2
    if errno then none
    else
      let no_fractional : Bool := decide (endptr.length = start.length)
      if no_integer && no_fractional then none
      else some (fractional, to_int32 ((start.length : Int) - (endptr.length : Int)), endptr)
  else some (0, 0, endptr)

/-- Exponent part of `sr_parse_rational`: `exponent` and `endptr`, or `none`
for `return SR_ERR`. -/
def parse_rational_exponent (endptr : List Char) : Option (Int × List Char) :=
  if peek endptr = 69 ∨ peek endptr = 101 then
    let r := g_ascii_strtoll endptr.tail
    if r.2.2 then none
    else some (to_int32 r.1, r.2.1)
  else some (0, endptr)

/-- Arithmetic at the end of `sr_parse_rational`: `ret->p` and `ret->q`, or
`none` on a signed overflow. -/
def parse_rational_result (integral fractional fractional_len exponent : Int)
    (is_negative : Bool) : Option (Int × Int) :=
  match mul10_loop fractional_len.toNat integral with
  | none => none
  | some integral =>
    if exponent - fractional_len < -(2 ^ 31 : Int) ∨ (2 ^ 31 : Int) ≤ exponent - fractional_len
    then none
    else
      let exponent := exponent - fractional_len
      match int64_checked (if !is_negative then integral + fractional
          else integral - fractional) with
      | none => none
      | some integral =>
        match mul10_loop exponent.toNat integral with
        | none => none
        | some integral =>
          match mul10_loop (-exponent).toNat 1 with
          | none => none
          | some denominator => some (integral, denominator)

/-- The function `sr_parse_rational`: return code and the new `ret->p` and
`ret->q`; `none` on a signed overflow. -/
def sr_parse_rational (str : List Char) (ret : Int × Int) : Option (Int × Int × Int) :=
  let str := skip_isspace str
  match parse_rational_integral str with
  | none => some (SR_ERR, ret)
  | some (integral, endptr, no_integer) =>
    let is_negative : Bool := decide (integral < 0) || decide (peek str = 45)
    match parse_rational_fraction endptr no_integer with
    | none => some (SR_ERR, ret)
    | some (fractional, fractional_len, endptr) =>
      match parse_rational_exponent endptr with
      | none => some (SR_ERR, ret)
      | some (exponent, endptr) =>
        if peek endptr ≠ 0 then some (SR_ERR, ret)
        else
          match parse_rational_result integral fractional fractional_len exponent
              is_negative with
          | none => none
          | some (p, q) => some (SR_OK, p, q)

/-- A decimal number text in the form the claim about `sr_parse_rational`
describes: white space, a sign (`+`, `-` or none), the integer digits, an
optional point with the fraction digits, an optional exponent letter with its
sign and digits. -/
structure decimal_text where
  spaces : List Char
  sign : List Char
  int_digits : List Char
  has_point : Bool
  frac_digits : List Char
  has_exp : Bool
  exp_char : Char
  exp_sign : List Char
  exp_digits : List Char

/-- The fraction part of a decimal number text: the point and the fraction
digits, or nothing. -/
def decimal_text.frac_text (t : decimal_text) : List Char :=
  if t.has_point then '.' :: t.frac_digits else []

/-- The exponent part of a decimal number text: the exponent letter, the sign
and the exponent digits, or nothing. -/
def decimal_text.exp_text (t : decimal_text) : List Char :=
  if t.has_exp then t.exp_char :: (t.exp_sign ++ t.exp_digits) else []

/-- The characters of a decimal number text. -/
def decimal_text.text (t : decimal_text) : List Char :=
  t.spaces ++ (t.sign ++ (t.int_digits ++ (t.frac_text ++ t.exp_text)))

/-- Well-formed decimal number text: the parts hold what their names say, the
integer or the fraction digits are present, and so are the exponent digits
when there is an exponent. -/
def decimal_text.wf (t : decimal_text) : Prop :=
  (∀ c ∈ t.spaces, isspace c.toNat = true)
    ∧ (t.sign = [] ∨ t.sign = ['+'] ∨ t.sign = ['-'])
    ∧ (∀ c ∈ t.int_digits, is_digit_code c.toNat = true)
    ∧ (∀ c ∈ t.frac_digits, is_digit_code c.toNat = true)
    ∧ (t.has_point = false → t.frac_digits = [])
    ∧ (t.int_digits ≠ [] ∨ t.frac_digits ≠ [])
    ∧ (t.has_exp = true → (t.exp_char = 'e' ∨ t.exp_char = 'E')
        ∧ (t.exp_sign = [] ∨ t.exp_sign = ['+'] ∨ t.exp_sign = ['-'])
        ∧ t.exp_digits ≠ [] ∧ ∀ c ∈ t.exp_digits, is_digit_code c.toNat = true)
    ∧ (t.has_exp = false → t.exp_sign = [] ∧ t.exp_digits = [])

/-- Well-formedness of a decimal number text can be decided. -/
instance decimal_text.wf_decidable (t : decimal_text) : Decidable t.wf := by
  unfold decimal_text.wf
  infer_instance

/-- The exponent `X` of a decimal number text, with its sign; 0 without
exponent. -/
def decimal_text.exponent (t : decimal_text) : Int :=
  if t.exp_sign = ['-'] then -(digits_value t.exp_digits : Int)
  else (digits_value t.exp_digits : Int)

/-- The magnitude of the numerator the claim gives:
`(D * 10 ^ len(F) + F) * 10 ^ max(0, X - len(F))`. -/
def decimal_text.magnitude (t : decimal_text) : Nat :=
  (digits_value t.int_digits * 10 ^ t.frac_digits.length + digits_value t.frac_digits)
    * 10 ^ (t.exponent - t.frac_digits.length).toNat

/-- The numerator `p` the claim gives: the magnitude, negative for the sign
`-`. -/
def decimal_text.p (t : decimal_text) : Int :=
  if t.sign = ['-'] then -(t.magnitude : Int) else (t.magnitude : Int)

/-- The denominator `q` the claim gives: `10 ^ max(0, len(F) - X)`. -/
def decimal_text.q (t : decimal_text) : Nat :=
  10 ^ ((t.frac_digits.length : Int) - t.exponent).toNat

/-- The decimal value of a decimal number text: plus or minus `D.F * 10 ^ X`. -/
def decimal_text.value (t : decimal_text) : ℚ :=
  (if t.sign = ['-'] then -1 else 1)
    * ((digits_value t.int_digits : ℚ)
      + (digits_value t.frac_digits : ℚ) / (10 : ℚ) ^ t.frac_digits.length)
    * (10 : ℚ) ^ t.exponent

/-- Modelled from the spec: the macro `SR_KHZ` is declared in `libsigrok.h`,
which is not among the sources; `SR_KHZ(n)` is `n` kilohertz in hertz. -/
def SR_KHZ (n : Nat) : Nat := n * 1000

/-- Modelled from the spec: the macro `SR_MHZ` is declared in `libsigrok.h`,
which is not among the sources; `SR_MHZ(n)` is `n` megahertz in hertz. -/
def SR_MHZ (n : Nat) : Nat := n * 1000000

/-- Modelled from the spec: the macro `SR_GHZ` is declared in `libsigrok.h`,
which is not among the sources; `SR_GHZ(n)` is `n` gigahertz in hertz. -/
def SR_GHZ (n : Nat) : Nat := n * 1000000000

/-- The C library function `strtoull(nptr, &endptr, 10)`: leading white space
is skipped, an optional sign and the decimal digits are read; the result is
the value and the new `endptr`. Without digits the value is 0 and `endptr` is
`nptr`; a value outside `unsigned long long` gives `ULLONG_MAX`; after the sign
`-` the value is negated in the unsigned type. -/
def strtoull (nptr : List Char) : Nat × List Char :=
  let s := skip_isspace nptr
  let negative : Bool := decide (peek s = 45)
  let s := if peek s = 45 ∨ peek s = 43 then s.tail else s
  let d := span_digits s
  if d.1 = [] then (0, nptr)
  else if digits_value d.1 ≥ 2 ^ 64 then (2 ^ 64 - 1, d.2)
  else if negative then ((2 ^ 64 - digits_value d.1) % 2 ^ 64, d.2)
  else (digits_value d.1, d.2)

/-- Number of binary digits of a value below `2 ^ fuel`. -/
def bit_length : Nat → Nat → Nat
  | 0, _ => 0
  | fuel + 1, x => if x = 0 then 0 else 1 + bit_length fuel (x / 2)

/-- The value of `(double)x` for a `uint64_t x`: `x` itself when it has at
most 53 binary digits, else the nearest value with 53 significant binary
digits, a tie going to the even one. -/
def double_of_u64 (x : Nat) : Nat :=
  let b := bit_length 64 x
  if b ≤ 53 then x
  else
    let sh := b - 53
    let q := x / 2 ^ sh
    let r := x % 2 ^ sh
    let half := 2 ^ (sh - 1)
    (if r > half ∨ (r = half ∧ q % 2 = 1) then q + 1 else q) * 2 ^ sh

/-- The conversion `(uint64_t)d` of a non-negative integral `double`; `none`
when the value is outside the type (undefined behaviour in C). -/
def u64_of_double (d : Nat) : Option Nat :=
  if d < 2 ^ 64 then some d else none

/-- The end pointer `g_ascii_strtod` leaves for a string that starts with a
point: after the fraction digits and an exponent with digits, or the start
when no digit follows the point. -/
def strtod_end (s : List Char) : List Char :=
  let d := span_digits s.tail
  if d.1 = [] then s
  else if peek d.2 = 101 ∨ peek d.2 = 69 then
    let e := d.2.tail
    let e := if peek e = 45 ∨ peek e = 43 then e.tail else e
    let x := span_digits e
    if x.1 = [] then d.2 else x.2
  else d.2

/-- What `sr_parse_sizestring` stores in `*size`: a value known exactly, or
the conversion to `uint64_t` of `(double)n + strtod(frac) * mult`, which is
kept symbolic. -/
inductive size_value
  | exact (n : Nat)
  | with_fraction (n : Nat) (mult : Nat) (frac : List Char)
  deriving DecidableEq, Repr

/-- The loop of `sr_parse_sizestring`, with `fuel` rounds left: the pointer
`s`, the multiplier and the text of the fraction read last (`none` for 0.0)
when the loop ends; `none` when `s++` has moved the pointer past the
terminating NUL and the loop test reads there. -/
def sizestring_loop : Nat → List Char → Option (List Char) →
    Option (List Char × Nat × Option (List Char))
  | 0, s, frac => some (s, 0, frac)
  | fuel + 1, s, frac =>
    match s with
    | [] => some ([], 0, frac)
    | c :: cs =>
      if c.toNat = 32 then sizestring_loop fuel cs frac
      else if c.toNat = 46 then
        let e := strtod_end (c :: cs)
        let frac : Option (List Char) :=
          if e.length = (c :: cs).length then none
          else some ((c :: cs).take ((c :: cs).length - e.length))
        match e with
        | [] => none
        | _ :: es => sizestring_loop fuel es frac
      else if c.toNat = 107 ∨ c.toNat = 75 then some (cs, SR_KHZ 1, frac)
      else if c.toNat = 109 ∨ c.toNat = 77 then some (cs, SR_MHZ 1, frac)
      else if c.toNat = 103 ∨ c.toNat = 71 then some (cs, SR_GHZ 1, frac)
      else if c.toNat = 116 ∨ c.toNat = 84 then some (cs, SR_GHZ 1000, frac)
      else if c.toNat = 112 ∨ c.toNat = 80 then some (cs, SR_GHZ (1000 * 1000), frac)
      else if c.toNat = 101 ∨ c.toNat = 69 then some (cs, SR_GHZ (1000 * 1000 * 1000), frac)
      else some (c :: cs, 0, frac)

/-- The GLib test `g_ascii_strcasecmp(s, "Hz") == 0`: the string is `hz` in
any case. -/
def is_hz (s : List Char) : Bool :=
  match s with
  | [h, z] => (decide (h.toNat = 72) || decide (h.toNat = 104))
      && (decide (z.toNat = 90) || decide (z.toNat = 122))
  | _ => false

/-- The function `sr_parse_sizestring`: return code and the new `*size`;
`none` for the undefined cases of the loop and of the conversion to
`uint64_t`. -/
def sr_parse_sizestring (sizestring : List Char) : Option (Int × size_value) :=
  let r := strtoull sizestring
  let size := r.1
  match sizestring_loop (r.2.length + 1) r.2 none with
  | none => none
  | some (s, multiplier, frac) =>
    let size := if multiplier > 0 then (size * multiplier) % 2 ^ 64 else size
    let ret : Int := if peek s ≠ 0 ∧ is_hz s = false then SR_ERR else SR_OK
    match frac with
    | none =>
      match u64_of_double (double_of_u64 size) with
      | none => none
      | some v => some (ret, size_value.exact v)
    | some f => some (ret, size_value.with_fraction size (if multiplier > 0 then multiplier else 1) f)

/-- The factor the claim about `sr_parse_sizestring` gives for a suffix
letter: `10 ^ 3` for `k`, `10 ^ 6` for `m`, `10 ^ 9` for `g`, in either case;
1 for any other character. -/
def suffix_factor (c : Char) : Nat :=
  if c.toNat = 107 ∨ c.toNat = 75 then 10 ^ 3
  else if c.toNat = 109 ∨ c.toNat = 77 then 10 ^ 6
  else if c.toNat = 103 ∨ c.toNat = 71 then 10 ^ 9
  else 1

/-- Modelled from the spec: the macro `SR_HZ` is declared in `libsigrok.h`,
which is not among the sources; `SR_HZ(n)` is `n` hertz. -/
def SR_HZ (n : Nat) : Nat := n

/-- The array `divisor` of `sr_si_string_u64`. -/
def si_divisor : List Nat :=
  [SR_HZ 1, SR_KHZ 1, SR_MHZ 1, SR_GHZ 1, SR_GHZ 1000, SR_GHZ (1000 * 1000),
    SR_GHZ (1000 * 1000 * 1000)]

/-- The loop `for (i = 0; (quot = x / divisor[i]) >= 1000; i++);` of
`sr_si_string_u64` from index `i`, with `fuel` rounds left: the final `i` and
`quot`; `none` when `divisor` is read outside its seven entries. -/
def si_index_loop (x : Nat) : Nat → Nat → Option (Nat × Nat)
  | 0, _ => none
  | fuel + 1, i =>
    match si_divisor.get? i with
    | none => none
    | some d => if x / d ≥ 1000 then si_index_loop x fuel (i + 1) else some (i, x / d)

/-- The character of a decimal digit. -/
def digit_char (d : Nat) : Char :=
  match d with
  | 0 => '0'
  | 1 => '1'
  | 2 => '2'
  | 3 => '3'
  | 4 => '4'
  | 5 => '5'
  | 6 => '6'
  | 7 => '7'
  | 8 => '8'
  | _ => '9'

/-- The digits of `n` in front of `acc`, most significant first, with `fuel`
digits at most. -/
def utoa_loop : Nat → Nat → List Char → List Char
  | 0, _, acc => acc
  | fuel + 1, n, acc =>
    if n / 10 = 0 then digit_char (n % 10) :: acc
    else utoa_loop fuel (n / 10) (digit_char (n % 10) :: acc)

/-- The C library conversion `%llu` of `printf` for a `uint64_t`: the decimal
digits, at most 20. -/
def format_u64 (n : Nat) : List Char := utoa_loop 20 n []

/-- The C library conversion `%0<w>llu` of `printf`: the decimal digits,
with zeros in front up to the width `w`. -/
def format_u64_padded (w n : Nat) : List Char :=
  List.replicate (w - (format_u64 n).length) '0' ++ format_u64 n

/-- The loop `while (f >= fract && strchr("0.", *f)) *f-- = 0` of
`sr_si_string_u64`: the characters `0` and `.` are cut off the end. -/
def si_strip (fract : List Char) : List Char :=
  (fract.reverse.dropWhile (fun c => decide (c = '0') || decide (c = '.'))).reverse

/-- The text `fract` of `sr_si_string_u64` for the index `i` and the remainder
`r`: empty for index 0, else the remainder printed after a point with `3 * i`
digits and stripped; `none` when the text does not fit `char fract[20]`. -/
def si_fract (i r : Nat) : Option (List Char) :=
  if i ≠ 0 then
    if ('.' :: format_u64_padded (i * 3) r).length + 1 > 20 then none
    else some (si_strip ('.' :: format_u64_padded (i * 3) r))
  else some []

/-- The array `prefix` of `sr_si_string_u64`, as character codes: the string
literal with its terminating NUL. -/
def si_prefix_codes : List Nat := [0, 107, 77, 71, 84, 80, 69, 0]

/-- The conversion `%.1s` applied to `prefix + i`: at most one character, none
at a NUL; `none` when the array is read outside. -/
def si_prefix_text (i : Nat) : Option (List Char) :=
  match si_prefix_codes.get? i with
  | none => none
  | some 0 => some []
  | some c => some [Char.ofNat c]

/-- The function `sr_si_string_u64`: the new string; `none` when an array is
read or written outside its bounds. A `NULL` unit is `none`. -/
def sr_si_string_u64 (x : Nat) (unit : Option (List Char)) : Option (List Char) :=
  let unit := unit.getD []
  match si_index_loop x 8 0 with
  | none => none
  | some (i, quot) =>
    match si_divisor.get? i with
    | none => none
    | some d =>
      match si_fract i (x % d) with
      | none => none
      | some fract =>
        match si_prefix_text i with
        | none => none
        | some p => some (format_u64 quot ++ fract ++ [' '] ++ p ++ unit)

/-- The function `sr_samplerate_string`. -/
def sr_samplerate_string (samplerate : Nat) : Option (List Char) :=
  sr_si_string_u64 samplerate (some "Hz".toList)

/-- The prefix letters the claim about `sr_si_string_u64` lists: none, `k`,
`M`, `G`, `T`, `P`, `E`. -/
def si_prefix_letter (i : Nat) : List Char :=
  match i with
  | 0 => []
  | 1 => ['k']
  | 2 => ['M']
  | 3 => ['G']
  | 4 => ['T']
  | 5 => ['P']
  | _ => ['E']

/-- A digit string without its trailing zeros. -/
def strip_trailing_zeros (l : List Char) : List Char :=
  (l.reverse.dropWhile (fun c => decide (c = '0'))).reverse

/-- The text the claim about `sr_si_string_u64` gives for the value `x`, the
index `i` and the unit `u`: the quotient, then the remainder after a point
when it is not 0, padded to `3 * i` digits and without trailing zeros, then a
space, the prefix letter and the unit. -/
def si_text (x i : Nat) (u : List Char) : List Char :=
  format_u64 (x / 1000 ^ i)
    ++ (if x % 1000 ^ i = 0 then []
        else '.' :: strip_trailing_zeros (format_u64_padded (3 * i) (x % 1000 ^ i)))
    ++ [' '] ++ si_prefix_letter i ++ u

/-! ## Single-precision arithmetic -/

/-- Value held by a C `float` (IEEE 754 binary32): `fin neg n k` is the number
`n * 2 ^ k`, negated when `neg`; `inf neg` is plus or minus infinity, `nan` is
not-a-number. -/
inductive binary32
  | fin (neg : Bool) (n : Nat) (k : Int)
  | inf (neg : Bool)
  | nan
  deriving DecidableEq, Repr

/-- The number a `float` holds; nothing for the infinities and not-a-number. -/
def binary32.toRat : binary32 → Option ℚ
  | .fin s n k => some ((if s then -1 else 1) * (n : ℚ) * (2 : ℚ) ^ k)
  | .inf _ => none
  | .nan => none

/-- The C expression `-x` on a `float`. -/
def binary32.neg : binary32 → binary32
  | .fin s n k => .fin (!s) n k
  | .inf s => .inf (!s)
  | .nan => .nan

/-- The integer `e` with `2 ^ e ≤ a / b < 2 ^ (e + 1)`, for positive `a` and
`b`. -/
def binary_exponent (a b : Nat) : Int :=
  let e0 : Int := (bit_length a a : Int) - (bit_length b b : Int)
  if b * 2 ^ e0.toNat ≤ a * 2 ^ (-e0).toNat then e0 else e0 - 1

/-- The integer nearest to `num / den`, the even one of two equally near. -/
def round_half_even (num den : Nat) : Nat :=
  let q := num / den
  let r := num % den
  if den < 2 * r ∨ (2 * r = den ∧ q % 2 = 1) then q + 1 else q

/-- The `float` nearest to the number `a / b` (`b` positive), negated when
`neg`, in the default rounding mode of IEEE 754: 24 significant binary digits,
a tie going to the even significand, multiples of `2 ^ (-149)` below
`2 ^ (-126)`, and infinity from `2 ^ 128` on. -/
def binary32.round (neg : Bool) (a b : Nat) : binary32 :=
  if a = 0 then .fin neg 0 0
  else
    let k : Int := max (binary_exponent a b - 23) (-149)
    let n := round_half_even (a * 2 ^ (-k).toNat) (b * 2 ^ k.toNat)
    if 2 ^ 128 ≤ n * 2 ^ k.toNat then .inf neg else .fin neg n k

/-- The C conversion `(float)intval` of an `int`. -/
def binary32.ofInt (i : Int) : binary32 := binary32.round (decide (i < 0)) i.natAbs 1

/-- The C product `x * y` of two `float` values. -/
def binary32.mul : binary32 → binary32 → binary32
  | .nan, _ => .nan
  | _, .nan => .nan
  | .fin s1 n1 k1, .fin s2 n2 k2 =>
    binary32.round (xor s1 s2) (n1 * n2 * 2 ^ (k1 + k2).toNat) (2 ^ (-(k1 + k2)).toNat)
  | .fin s1 n1 _, .inf s2 => if n1 = 0 then .nan else .inf (xor s1 s2)
  | .inf s1, .fin s2 n2 _ => if n2 = 0 then .nan else .inf (xor s1 s2)
  | .inf s1, .inf s2 => .inf (xor s1 s2)

/-- The C library call `powf(10, exponent)` with an `int` exponent, taken as
the `float` nearest to `10 ^ exponent`; the library function is outside the
sources. -/
def powf10 (exponent : Int) : binary32 :=
  binary32.round false (10 ^ exponent.toNat) (10 ^ (-exponent).toNat)

/-- The `float` a symbolic value stands for: the product of the converted
integer and `powf(10, e)`, rounded once, with the sign of the term. -/
def FloatVal.float32 : FloatVal → binary32
  | .num s m e => (binary32.round s m 1).mul (powf10 e)
  | .inf s => .inf s
  | .nan => .nan

/-! ## Sample packets and texts for the last claims -/

/-- A Brymen packet with the volt and the ampere indicator, the AC and the DC
bit, two decimal-point bits and a segment pattern that is no digit or glyph in
the first position. -/
def pkt_bm_odd : Buffer :=
  Buffer.ofList [0x02, 0x16, 0x20, 0x32, 0x40, 0x5b, 0x6d, 0x79, 0x8f, 0x94, 0xae, 0xb0,
    0xc0, 0xd0, 0xe6]

/-- A 19200 baud 11-byte packet sent twice, like `pkt_volt_dc` with the colon
`0x3a` in place of the third value digit. -/
def pkt_volt_colon : Buffer :=
  Buffer.ofList [0x30, 0x30, 0x30, 0x3a, 0x30, 0x3b, 0x30, 0x30, 0x38, 0x0d, 0x0a,
    0x30, 0x30, 0x30, 0x3a, 0x30, 0x3b, 0x30, 0x30, 0x38, 0x0d, 0x0a]

/-- A 14-byte packet: range `0`, digits `00500`, function `0x32`, status byte
with the judge bit. -/
def pkt_duty_14b : Buffer :=
  Buffer.ofList [0x30, 0x30, 0x30, 0x35, 0x30, 0x30, 0x32, 0x38, 0x30, 0x30, 0x30, 0x30,
    0x0d, 0x0a]

/-- The decimal number text `-0.5`. -/
def text_minus_half : decimal_text :=
  { spaces := [], sign := ['-'], int_digits := ['0'], has_point := true,
    frac_digits := ['5'], has_exp := false, exp_char := 'e', exp_sign := [],
    exp_digits := [] }

/-- A 2400 baud packet sent twice: range `0`, digits `0005`, function `0x3b`
(V): a reading of 0.0005 volt. -/
def pkt_volt_5 : Buffer :=
  Buffer.ofList [0x30, 0x30, 0x30, 0x30, 0x35, 0x3b, 0x30, 0x30, 0x30, 0x0d, 0x0a,
    0x30, 0x30, 0x30, 0x30, 0x35, 0x3b, 0x30, 0x30, 0x30, 0x0d, 0x0a]

/-- A 19200 baud 11-byte packet sent twice: range `0`, digits `0050`, function
`0x3b` (V), option 2 byte with the DC and the AC bit. -/
def pkt_volt_ac_dc : Buffer :=
  Buffer.ofList [0x30, 0x30, 0x30, 0x35, 0x30, 0x3b, 0x30, 0x30, 0x3c, 0x0d, 0x0a,
    0x30, 0x30, 0x30, 0x35, 0x30, 0x3b, 0x30, 0x30, 0x3c, 0x0d, 0x0a]

/-- A 2400 baud packet sent twice: range `0`, digits `0050`, function `0x39`
(manual A), option 1 byte with the VAHZ bit. -/
def pkt_manual_a_vahz : Buffer :=
  Buffer.ofList [0x30, 0x30, 0x30, 0x35, 0x30, 0x39, 0x30, 0x31, 0x30, 0x0d, 0x0a,
    0x30, 0x30, 0x30, 0x35, 0x30, 0x39, 0x30, 0x31, 0x30, 0x0d, 0x0a]

/-! ## Theorems: ES519XX flag classifier -/

theorem kind_count_status (buf : Buffer) (status : Nat) (info : es519xx_info) :
    kind_count (parse_flags_status buf status info) = kind_count info := by
  unfold parse_flags_status
  split <;> rfl

theorem kind_count_options (buf : Buffer) (info : es519xx_info) :
    kind_count (parse_flags_options buf info) = kind_count info := by
  unfold parse_flags_options parse_flags_option1
  simp only []
  split_ifs <;> rfl

theorem kind_count_freq (info : es519xx_info)
    (h : info.is_duty_cycle.toNat + info.is_frequency.toNat + info.is_rpm.toNat = 0) :
    kind_count (parse_flags_freq info) = kind_count info + 1 := by
  unfold parse_flags_freq
  split_ifs <;> simp only [kind_count, Bool.toNat_true] <;> omega

theorem kind_count_function_alt (f : Nat) (info : es519xx_info) (h : kind_count info = 0) :
    kind_count (parse_flags_function_alt f info) ≤ 1 := by
  unfold kind_count at h
  unfold parse_flags_function_alt
  split <;> simp only [kind_count, Bool.toNat_true] <;> omega

theorem kind_count_function_std (f : Nat) (info : es519xx_info) (h : kind_count info = 0) :
    kind_count (parse_flags_function_std f info) ≤ 1 := by
  have hf := kind_count_freq info (by unfold kind_count at h; omega)
  unfold parse_flags_function_std
  split
  case h_9 => omega
  case h_11 =>
    unfold kind_count at h
    split <;> simp only [kind_count, Bool.toNat_true] <;> omega
  all_goals
    unfold kind_count at h
    simp only [kind_count, Bool.toNat_true]
    omega

theorem kind_count_function (f : Nat) (info : es519xx_info) (h : kind_count info = 0) :
    kind_count (parse_flags_function f info) ≤ 1 := by
  unfold parse_flags_function
  split
  · exact kind_count_function_alt f info h
  · exact kind_count_function_std f info h

theorem kind_count_vahz (info : es519xx_info) (h : kind_count info ≤ 1) :
    kind_count (parse_flags_vahz info) ≤ 1 := by
  unfold parse_flags_vahz
  split
  · rename_i hc
    rw [kind_count_freq]
    · unfold kind_count at h
      simp only [kind_count, Bool.toNat_false]
      simp only [Bool.and_eq_true, Bool.or_eq_true] at hc
      rcases hc.2 with hv | hv <;> rw [hv] at h <;> simp only [Bool.toNat_true] at h <;> omega
    · unfold kind_count at h
      simp only [Bool.and_eq_true, Bool.or_eq_true] at hc
      show info.is_duty_cycle.toNat + info.is_frequency.toNat + info.is_rpm.toNat = 0
      rcases hc.2 with hv | hv <;> rw [hv] at h <;> simp only [Bool.toNat_true] at h <;> omega
  · exact h

theorem kind_count_vasel (info : es519xx_info) (h : kind_count info ≤ 1) :
    kind_count (parse_flags_vasel info) ≤ 1 := by
  unfold parse_flags_vasel
  split
  · rename_i hc
    unfold kind_count at h
    simp only [Bool.and_eq_true] at hc
    rw [hc.1.1] at h
    simp only [kind_count, Bool.toNat_true, Bool.toNat_false] at h ⊢
    omega
  · exact h

theorem kind_count_2400 (info : es519xx_info) :
    kind_count (parse_flags_2400 info) = kind_count info := by
  unfold parse_flags_2400
  split_ifs <;> rfl

/-- After `parse_flags` on a record whose kind flags are clear, at most one
measurement-kind flag is set. -/
theorem kind_count_parse_flags (buf : Buffer) (info : es519xx_info) (h : kind_count info = 0) :
    kind_count (parse_flags buf info) ≤ 1 := by
  unfold parse_flags
  simp only []
  rw [kind_count_2400]
  apply kind_count_vasel
  apply kind_count_vahz
  apply kind_count_function
  rw [kind_count_options, kind_count_status, h]

theorem kind_count_init (v : es519xx_variant) : kind_count v.init = 0 := by
  cases v <;> rfl

/-- What `flags_valid` does reject: two multipliers, two of the nine flags it
counts (every measurement-kind flag but duty cycle), or AC together with DC. -/
theorem flags_valid_rejects (info : es519xx_info)
    (h : (info.is_micro = true ∧ info.is_milli = true)
      ∨ (info.is_ac = true ∧ info.is_dc = true)
      ∨ 2 ≤ kind_count info - info.is_duty_cycle.toNat) :
    flags_valid info = false := by
  revert h
  unfold flags_valid kind_count
  generalize info.is_micro = a1
  generalize info.is_milli = a2
  generalize info.is_ac = a3
  generalize info.is_dc = a4
  generalize info.is_voltage = b1
  generalize info.is_current = b2
  generalize info.is_resistance = b3
  generalize info.is_frequency = b4
  generalize info.is_capacitance = b5
  generalize info.is_temperature = b6
  generalize info.is_continuity = b7
  generalize info.is_diode = b8
  generalize info.is_rpm = b9
  generalize info.is_duty_cycle = b10
  revert a1 a2 a3 a4 b1 b2 b3 b4 b5 b6 b7 b8 b9 b10
  decide

/-! ## Theorems: ES519XX parser structure -/

theorem SR_ERR_ne_OK : SR_ERR ≠ SR_OK := by decide

theorem parse_value_eq (buf : Buffer) (info : es519xx_info) (fv : FloatVal) :
    parse_value buf info fv =
      match value_decision buf info with
      | none => (SR_ERR, fv)
      | some x => (SR_OK, x) := by
  unfold value_decision parse_value
  simp only []
  split_ifs <;> simp_all [SR_ERR_ne_OK]

theorem parse_range_eq (b : Byte) (fv : FloatVal) (info : es519xx_info) :
    parse_range b fv info =
      match range_decision b info with
      | none => none
      | some none => some (SR_ERR, fv, info)
      | some (some e) => some (SR_OK, fv.scale e, { info with digits := -e }) := by
  unfold range_decision parse_range
  simp only []
  split_ifs
  · rfl
  · cases parse_range_mode info with
    | none => rfl
    | some mode =>
      simp only []
      cases parse_range_exponent info mode ((b.val : Int) - 48).toNat <;> rfl

theorem packet_valid_snd (buf : Buffer) (info : es519xx_info)
    (h : (sr_es519xx_packet_valid buf info).1 = true) :
    (sr_es519xx_packet_valid buf info).2 = parse_flags buf info := by
  unfold sr_es519xx_packet_valid at h ⊢
  simp only [] at h ⊢
  split_ifs at h ⊢
  all_goals simp_all

/-- Normal form of `sr_es519xx_parse`: which branch is taken depends on the
buffer and the variant record only. -/
theorem sr_es519xx_parse_eq (buf : Buffer) (fv : FloatVal) (an : sr_datafeed_analog)
    (info : es519xx_info) :
    sr_es519xx_parse buf fv an info =
      if (sr_es519xx_packet_valid buf info).1 = false then
        some (SR_ERR, fv, an, (sr_es519xx_packet_valid buf info).2)
      else
        match value_decision buf (parse_flags buf info) with
        | none => some (SR_ERR, fv, an, parse_flags buf info)
        | some x =>
          match range_decision (buf 0) (parse_flags buf info) with
          | none => none
          | some none => some (SR_ERR, x, an, parse_flags buf info)
          | some (some e) =>
            some (SR_OK,
              (handle_flags { an with digits := -e, spec_digits := -e } (x.scale e)
                { parse_flags buf info with digits := -e }).2,
              (handle_flags { an with digits := -e, spec_digits := -e } (x.scale e)
                { parse_flags buf info with digits := -e }).1,
              { parse_flags buf info with digits := -e }) := by
  unfold sr_es519xx_parse
  simp only []
  by_cases hpv : (sr_es519xx_packet_valid buf info).1 = true
  · rw [packet_valid_snd buf info hpv, parse_value_eq, parse_range_eq]
    simp only [hpv]
    cases value_decision buf (parse_flags buf info) with
    | none => simp [SR_ERR_ne_OK]
    | some x =>
      simp only []
      rcases range_decision (buf 0) (parse_flags buf info) with _ | _ | e
      · simp
      · simp [SR_ERR_ne_OK]
      · simp
  · simp only [Bool.not_eq_true] at hpv
    simp [hpv]

theorem toNat_zero_false (b : Bool) (h : b.toNat = 0) : b = false := by
  cases b
  · rfl
  · simp at h

theorem kind_count_of_mode (info : es519xx_info) (mode : Nat)
    (h : parse_range_mode info = some mode) : 1 ≤ kind_count info := by
  by_contra hc
  unfold kind_count at hc
  have h1 := toNat_zero_false info.is_voltage (by omega)
  have h2 := toNat_zero_false info.is_current (by omega)
  have h3 := toNat_zero_false info.is_resistance (by omega)
  have h4 := toNat_zero_false info.is_frequency (by omega)
  have h5 := toNat_zero_false info.is_capacitance (by omega)
  have h6 := toNat_zero_false info.is_continuity (by omega)
  have h7 := toNat_zero_false info.is_diode (by omega)
  have h8 := toNat_zero_false info.is_rpm (by omega)
  have h9 := toNat_zero_false info.is_duty_cycle (by omega)
  unfold parse_range_mode at h
  rw [h1, h2, h3, h4, h5, h6, h7, h8, h9] at h
  simp at h

theorem range_decision_mode (b : Byte) (info : es519xx_info) (e : Int)
    (h : range_decision b info = some (some e)) :
    ∃ mode, parse_range_mode info = some mode := by
  unfold range_decision at h
  simp only [] at h
  split_ifs at h
  · simp at h
  · cases hm : parse_range_mode info with
    | none => rw [hm] at h; simp at h
    | some mode => exact ⟨mode, rfl⟩

/-! ## Theorems: the three verdicts of `sr_es519xx_parse` -/

theorem sr_es519xx_parse_undefined (buf : Buffer) (fv : FloatVal) (an : sr_datafeed_analog)
    (info : es519xx_info) (h : es519xx_verdict buf info = none) :
    sr_es519xx_parse buf fv an info = none := by
  rw [sr_es519xx_parse_eq]
  unfold es519xx_verdict at h
  split_ifs at h ⊢
  cases hv : value_decision buf (parse_flags buf info) with
  | none => rw [hv] at h; simp at h
  | some x =>
    rw [hv] at h
    simp only [] at h ⊢
    rcases hr : range_decision (buf 0) (parse_flags buf info) with _ | _ | e
    · rfl
    · rw [hr] at h; simp at h
    · rw [hr] at h; simp at h

theorem value_decision_some (buf : Buffer) (info : es519xx_info) (fv x : FloatVal)
    (h : value_decision buf info = some x) : parse_value buf info fv = (SR_OK, x) := by
  rw [parse_value_eq, h]

theorem value_decision_none (buf : Buffer) (info : es519xx_info) (fv : FloatVal)
    (h : value_decision buf info = none) : parse_value buf info fv = (SR_ERR, fv) := by
  rw [parse_value_eq, h]

theorem sr_es519xx_parse_rejected (buf : Buffer) (fv : FloatVal) (an : sr_datafeed_analog)
    (info : es519xx_info) (h : es519xx_verdict buf info = some none) :
    sr_es519xx_parse buf fv an info
      = some (SR_ERR, es519xx_rejected_value buf info fv, an,
          (sr_es519xx_packet_valid buf info).2) := by
  rw [sr_es519xx_parse_eq]
  unfold es519xx_verdict at h
  unfold es519xx_rejected_value
  split_ifs at h with hpv
  · simp [hpv]
  · simp only [Bool.not_eq_false] at hpv
    simp only [hpv, Bool.true_eq_false, if_false, true_and]
    rw [packet_valid_snd buf info hpv]
    cases hv : value_decision buf (parse_flags buf info) with
    | none =>
      rw [value_decision_none _ _ _ hv]
      simp [SR_ERR_ne_OK]
    | some x =>
      rw [hv] at h
      rw [value_decision_some _ _ _ _ hv]
      simp only [] at h ⊢
      rcases hr : range_decision (buf 0) (parse_flags buf info) with _ | _ | e
      · rw [hr] at h; simp at h
      · simp
      · rw [hr] at h; simp at h

theorem sr_es519xx_parse_accepted (buf : Buffer) (fv : FloatVal) (an : sr_datafeed_analog)
    (info : es519xx_info) (x : FloatVal) (e : Int)
    (h : es519xx_verdict buf info = some (some (x, e))) :
    sr_es519xx_parse buf fv an info
      = some (SR_OK,
          (handle_flags { an with digits := -e, spec_digits := -e } (x.scale e)
            { parse_flags buf info with digits := -e }).2,
          (handle_flags { an with digits := -e, spec_digits := -e } (x.scale e)
            { parse_flags buf info with digits := -e }).1,
          { parse_flags buf info with digits := -e }) := by
  rw [sr_es519xx_parse_eq]
  unfold es519xx_verdict at h
  split_ifs at h with hpv
  · simp at h
  · simp only [hpv, if_false]
    cases hv : value_decision buf (parse_flags buf info) with
    | none => rw [hv] at h; simp at h
    | some y =>
      rw [hv] at h
      simp only [] at h ⊢
      rcases hr : range_decision (buf 0) (parse_flags buf info) with _ | _ | e'
      · rw [hr] at h; simp at h
      · rw [hr] at h; simp at h
      · rw [hr] at h
        simp only [Option.some.injEq, Prod.mk.injEq] at h
        obtain ⟨rfl, rfl⟩ := h
        simp

theorem es519xx_verdict_mode (buf : Buffer) (info : es519xx_info) (x : FloatVal) (e : Int)
    (h : es519xx_verdict buf info = some (some (x, e))) :
    ∃ mode, parse_range_mode (parse_flags buf info) = some mode := by
  unfold es519xx_verdict at h
  split_ifs at h
  · simp at h
  · cases hv : value_decision buf (parse_flags buf info) with
    | none => rw [hv] at h; simp at h
    | some y =>
      rw [hv] at h
      simp only [] at h
      rcases hr : range_decision (buf 0) (parse_flags buf info) with _ | _ | e'
      · rw [hr] at h; simp at h
      · rw [hr] at h; simp at h
      · exact range_decision_mode _ _ _ hr

/-! ## Theorems: `handle_flags` -/

theorem set_mq_if_mqflags (c : Bool) (a : sr_datafeed_analog) (x : sr_mq) (y : sr_unit) :
    (a.set_mq_if c x y).mqflags = a.mqflags := by
  cases c <;> rfl

theorem set_mq_if_digits (c : Bool) (a : sr_datafeed_analog) (x : sr_mq) (y : sr_unit) :
    (a.set_mq_if c x y).digits = a.digits := by
  cases c <;> rfl

theorem set_mq_if_spec_digits (c : Bool) (a : sr_datafeed_analog) (x : sr_mq) (y : sr_unit) :
    (a.set_mq_if c x y).spec_digits = a.spec_digits := by
  cases c <;> rfl

theorem set_mq_if_mq (c : Bool) (a : sr_datafeed_analog) (x : sr_mq) (y : sr_unit) :
    (a.set_mq_if c x y).mq = if c then x else a.mq := by
  cases c <;> rfl

theorem set_mq_if_unit (c : Bool) (a : sr_datafeed_analog) (x : sr_mq) (y : sr_unit) :
    (a.set_mq_if c x y).unit = if c then y else a.unit := by
  cases c <;> rfl

theorem handle_flags_modes_mqflags (an : sr_datafeed_analog) (fv : FloatVal)
    (info : es519xx_info) : (handle_flags_modes an fv info).1.mqflags = an.mqflags := by
  unfold handle_flags_modes
  simp only [set_mq_if_mqflags]

theorem handle_flags_modes_digits (an : sr_datafeed_analog) (fv : FloatVal)
    (info : es519xx_info) :
    (handle_flags_modes an fv info).1.digits = an.digits
      ∧ (handle_flags_modes an fv info).1.spec_digits = an.spec_digits := by
  unfold handle_flags_modes
  simp only [set_mq_if_digits, set_mq_if_spec_digits, and_self]

theorem mode_some_flag (info : es519xx_info) (mode : Nat)
    (h : parse_range_mode info = some mode) :
    info.is_voltage = true ∨ info.is_current = true ∨ info.is_resistance = true
      ∨ info.is_frequency = true ∨ info.is_capacitance = true ∨ info.is_continuity = true
      ∨ info.is_diode = true ∨ info.is_rpm = true ∨ info.is_duty_cycle = true := by
  by_contra hc
  simp only [not_or, Bool.not_eq_true] at hc
  obtain ⟨h1, h2, h3, h4, h5, h6, h7, h8, h9⟩ := hc
  unfold parse_range_mode at h
  rw [h1, h2, h3, h4, h5, h6, h7, h8, h9] at h
  simp at h

theorem handle_flags_modes_mq (an1 an2 : sr_datafeed_analog) (fv : FloatVal)
    (info : es519xx_info) (mode : Nat) (h : parse_range_mode info = some mode) :
    (handle_flags_modes an1 fv info).1.mq = (handle_flags_modes an2 fv info).1.mq
      ∧ (handle_flags_modes an1 fv info).1.unit = (handle_flags_modes an2 fv info).1.unit := by
  unfold handle_flags_modes
  simp only [set_mq_if_mq, set_mq_if_unit]
  rcases mode_some_flag info mode h with h1 | h1 | h1 | h1 | h1 | h1 | h1 | h1 | h1 <;>
    simp only [h1, if_true, and_self]

theorem or_if_lor (c : Bool) (m a k : Nat) : or_if (m ||| a) c k = m ||| or_if a c k := by
  cases c <;> simp [or_if, Nat.lor_assoc]

theorem handle_flags_mqflags_lor (m a : Nat) (info : es519xx_info) :
    handle_flags_mqflags (m ||| a) info = m ||| handle_flags_mqflags a info := by
  unfold handle_flags_mqflags
  simp only [or_if_lor]

/-- What `handle_flags` leaves in the record once a measurement mode is known:
value, mq and unit do not depend on the record handed in, the digits are kept,
and the qualifier bits are added to the `mqflags` handed in. -/
theorem handle_flags_prior (an1 an2 : sr_datafeed_analog) (fv : FloatVal)
    (info : es519xx_info) (mode : Nat) (h : parse_range_mode info = some mode) :
    (handle_flags an1 fv info).2 = (handle_flags an2 fv info).2
      ∧ (handle_flags an1 fv info).1.mq = (handle_flags an2 fv info).1.mq
      ∧ (handle_flags an1 fv info).1.unit = (handle_flags an2 fv info).1.unit
      ∧ (handle_flags an1 fv info).1.digits = an1.digits
      ∧ (handle_flags an1 fv info).1.spec_digits = an1.spec_digits
      ∧ (handle_flags an1 fv info).1.mqflags = an1.mqflags ||| handle_flags_mqflags 0 info := by
  refine ⟨rfl, (handle_flags_modes_mq an1 an2 fv info mode h).1,
    (handle_flags_modes_mq an1 an2 fv info mode h).2,
    (handle_flags_modes_digits an1 fv info).1, (handle_flags_modes_digits an1 fv info).2, ?_⟩
  show handle_flags_mqflags (handle_flags_modes an1 fv info).1.mqflags info = _
  rw [handle_flags_modes_mqflags, ← handle_flags_mqflags_lor, Nat.or_zero]

/-! ## Theorems: bytes read by the ES519XX entry points -/

theorem memcmp_congr (b1 b2 : Buffer) : ∀ (n a b : Nat),
    (∀ i, i < n → b1 (a + i) = b2 (a + i)) → (∀ i, i < n → b1 (b + i) = b2 (b + i)) →
    memcmp b1 a b n = memcmp b2 a b n := by
  intro n
  induction n with
  | zero => intro a b _ _; rfl
  | succ n ih =>
    intro a b ha hb
    unfold memcmp
    have h0a := ha 0 (by omega)
    have h0b := hb 0 (by omega)
    simp only [Nat.add_zero] at h0a h0b
    rw [h0a, h0b]
    rw [ih (a + 1) (b + 1)
      (fun i hi => by have := ha (i + 1) (by omega); rwa [Nat.add_assoc, Nat.add_comm 1 i])
      (fun i hi => by have := hb (i + 1) (by omega); rwa [Nat.add_assoc, Nat.add_comm 1 i])]

theorem memcmp_ne_zero (buf : Buffer) : ∀ (n a b : Nat),
    (∃ i, i < n ∧ buf (a + i) ≠ buf (b + i)) → memcmp buf a b n ≠ 0 := by
  intro n
  induction n with
  | zero => intro a b ⟨i, hi, _⟩; omega
  | succ n ih =>
    intro a b ⟨i, hi, hne⟩
    unfold memcmp
    split_ifs with h0
    · apply ih
      cases i with
      | zero => exact absurd h0 hne
      | succ j =>
        refine ⟨j, by omega, ?_⟩
        rwa [Nat.add_assoc, Nat.add_comm 1 j, Nat.add_assoc, Nat.add_comm 1 j]
    · intro hz
      apply h0
      apply Fin.ext
      omega

theorem parse_flags_congr (b1 b2 : Buffer) (info : es519xx_info)
    (h : ∀ i, i < 12 → b1 i = b2 i) : parse_flags b1 info = parse_flags b2 info := by
  unfold parse_flags parse_flags_status parse_flags_options parse_flags_option1
  by_cases hs : info.packet_size = 14
  · simp only [hs, if_true, Nat.reduceAdd, h 5 (by omega), h 6 (by omega), h 7 (by omega),
      h 8 (by omega), h 9 (by omega), h 10 (by omega), h 11 (by omega)]
  · simp only [hs, if_false, Nat.reduceAdd, Nat.add_zero, h 5 (by omega), h 6 (by omega),
      h 7 (by omega), h 8 (by omega), h 9 (by omega), h 10 (by omega), h 11 (by omega)]

theorem parse_value_congr (b1 b2 : Buffer) (info : es519xx_info) (fv : FloatVal)
    (h : ∀ i, i < 6 → b1 i = b2 i) : parse_value b1 info fv = parse_value b2 info fv := by
  unfold parse_value parse_value_digits
  by_cases hs : info.packet_size = 14
  · simp only [hs, if_true, Nat.reduceAdd, List.range, List.range.loop, List.foldl,
      h 1 (by omega), h 2 (by omega), h 3 (by omega), h 4 (by omega), h 5 (by omega)]
  · simp only [hs, if_false, Nat.reduceAdd, Nat.add_zero, List.range, List.range.loop,
      List.foldl, h 1 (by omega), h 2 (by omega), h 3 (by omega), h 4 (by omega), h 5 (by omega)]

theorem packet_valid_congr (v : es519xx_variant) (b1 b2 : Buffer)
    (h : ∀ i, i < v.reads → b1 i = b2 i) :
    sr_es519xx_packet_valid b1 v.init = sr_es519xx_packet_valid b2 v.init := by
  have h14 : ∀ i, i < 14 → b1 i = b2 i := fun i hi =>
    h i (by cases v <;> simp [es519xx_variant.reads, es519xx_variant.size,
      es519xx_variant.init, es519xx_info.zero] <;> omega)
  have hpf := parse_flags_congr b1 b2 v.init (fun i hi => h14 i (by omega))
  unfold sr_es519xx_packet_valid
  rw [hpf]
  by_cases hs : v.init.packet_size = 11
  · have h22 : ∀ i, i < 22 → b1 i = b2 i := fun i hi =>
      h i (by simp [es519xx_variant.reads, es519xx_variant.size, hs]; exact hi)
    have hm := memcmp_congr b1 b2 11 0 11 (fun i hi => h22 _ (by omega))
      (fun i hi => h22 _ (by omega))
    simp only [hs, hm, Nat.reduceSub, h14 9 (by omega), h14 10 (by omega)]
  · have hs14 : v.init.packet_size = 14 := by
      cases v <;> simp [es519xx_variant.init, es519xx_info.zero] at hs ⊢
    simp only [hs14, Nat.reduceSub, h14 12 (by omega), h14 13 (by omega),
      (by decide : ¬ (14 : Nat) = 11), false_and, if_false]

/-! ## Theorems: array reads of `parse_range` -/

theorem ite_some_le (c : Prop) [Decidable c] (k : Nat) (o : Option Nat) (mode : Nat)
    (hk : k ≤ 8) (ho : o = some mode → mode ≤ 8) :
    (if c then some k else o) = some mode → mode ≤ 8 := by
  split_ifs
  · intro h
    simp only [Option.some.injEq] at h
    omega
  · exact ho

theorem parse_range_mode_le (info : es519xx_info) (mode : Nat)
    (h : parse_range_mode info = some mode) : mode ≤ 8 := by
  revert h
  unfold parse_range_mode
  iterate 11 refine ite_some_le _ _ _ _ (by omega) ?_
  intro h
  cases h

theorem lookup2_defined (mode idx : Nat) (hm : mode ≤ 8) (hi : idx ≤ 7) :
    (lookup2 exponents_2400_11b mode idx).isSome = true
      ∧ (lookup2 exponents_19200_11b_5digits mode idx).isSome = true
      ∧ (lookup2 exponents_19200_11b_clampmeter mode idx).isSome = true
      ∧ (lookup2 exponents_19200_11b mode idx).isSome = true
      ∧ (lookup2 exponents_19200_14b mode idx).isSome = true := by
  interval_cases mode <;> interval_cases idx <;> decide

/-- Without the VBAR flag every array read of `parse_range` is inside its
array: the exponent tables are read with a row in 0..8 and a column in 0..7. -/
theorem range_decision_defined (b : Byte) (info : es519xx_info) (h : info.is_vbar = false) :
    range_decision b info ≠ none := by
  unfold range_decision
  simp only []
  split_ifs with hidx
  · simp
  · cases hm : parse_range_mode info with
    | none => simp
    | some mode =>
      have hle := parse_range_mode_le info mode hm
      have hi : ((b.val : Int) - 48).toNat ≤ 7 := by omega
      have ht := lookup2_defined mode ((b.val : Int) - 48).toNat hle hi
      simp only [ne_eq, Option.map_eq_none']
      unfold parse_range_exponent
      rw [h]
      simp only [Bool.false_eq_true, if_false]
      split_ifs
      · simp
      · exact Option.isSome_iff_ne_none.mp ht.1
      · exact Option.isSome_iff_ne_none.mp ht.2.1
      · exact Option.isSome_iff_ne_none.mp ht.2.2.1
      · exact Option.isSome_iff_ne_none.mp ht.2.2.2.1
      · exact Option.isSome_iff_ne_none.mp ht.2.2.2.2
      · simp

/-! ## Theorems: Brymen BM25x -/

theorem bm25x_nibbles_valid_iff (buf : Buffer) : ∀ (n i : Nat),
    bm25x_nibbles_valid buf i n = true ↔ ∀ k, i ≤ k → k < i + n → (buf k).val >>> 4 = k := by
  intro n
  induction n with
  | zero =>
    intro i
    simp only [bm25x_nibbles_valid, true_iff]
    intro k h1 h2
    omega
  | succ n ih =>
    intro i
    unfold bm25x_nibbles_valid
    split_ifs with h
    · simp only [Bool.false_eq_true, false_iff, not_forall]
      exact ⟨i, Nat.le_refl i, by omega, h⟩
    · rw [ih (i + 1)]
      simp only [ne_eq, not_not] at h
      constructor
      · intro hk k h1 h2
        by_cases hki : k = i
        · rw [hki]; exact h
        · exact hk k (by omega) (by omega)
      · intro hk k h1 h2
        exact hk k (by omega) (by omega)

theorem set_mq_mqflags (a : sr_datafeed_analog) (x : sr_mq) (y : sr_unit) :
    (a.set_mq x y).mqflags = a.mqflags := rfl

theorem bm25x_modes_mqflags (buf : Buffer) (a : sr_datafeed_analog) :
    (bm25x_modes buf a).mqflags = a.mqflags := by
  unfold bm25x_modes
  simp only [set_mq_if_mqflags]

theorem bm25x_volt_mqflags (buf : Buffer) (a : sr_datafeed_analog) :
    (bm25x_volt buf a).mqflags =
      if maskSet (buf 14) 4 then
        (if a.mqflags &&& (SR_MQFLAG_DC ||| SR_MQFLAG_AC) = 0 then
          a.mqflags ||| (SR_MQFLAG_DIODE ||| SR_MQFLAG_DC)
        else a.mqflags)
      else a.mqflags := by
  unfold bm25x_volt
  simp only [set_mq_mqflags]
  split_ifs <;> rfl

theorem bm25x_parse_mqflags (buf : Buffer) (fv : FloatVal) (an : sr_datafeed_analog) :
    (sr_brymen_bm25x_parse buf fv an).2.2.mqflags =
      if maskSet (buf 14) 4 then
        (if bm25x_mqflags buf 0 &&& (SR_MQFLAG_DC ||| SR_MQFLAG_AC) = 0 then
          bm25x_mqflags buf 0 ||| (SR_MQFLAG_DIODE ||| SR_MQFLAG_DC)
        else bm25x_mqflags buf 0)
      else bm25x_mqflags buf 0 := by
  show (bm25x_modes buf _).mqflags = _
  rw [bm25x_modes_mqflags, bm25x_volt_mqflags]

/-! ## Theorems: values, exponents and digits -/

/-- The segment value formed by `decode_digit` fits in 8 bits. -/
theorem segment_lt (a b : Nat) : (a &&& 0xe) ||| ((b <<< 4) &&& 0xf0) < 256 := by
  have h1 : a &&& 0xe < 2 ^ 8 := lt_of_le_of_lt Nat.and_le_right (by decide)
  have h2 : (b <<< 4) &&& 0xf0 < 2 ^ 8 := lt_of_le_of_lt Nat.and_le_right (by decide)
  exact Nat.or_lt_two_pow h1 h2

/-- The function `decode_point` returns the index of the decimal-point bit when at
most one of the three bits is set, and -1 otherwise. -/
theorem decode_point_eq (buf : Buffer) :
    decode_point buf =
      if bm25x_point_bits buf ≤ 1 then (bm25x_point_index buf : Int) else -1 := by
  unfold decode_point bm25x_point_bits bm25x_point_index
  simp only [MAX_DIGITS, decode_point_loop, Nat.reduceSub, Nat.reduceMul, Nat.reduceAdd]
  generalize maskSet (buf 9) 1 = b9
  generalize maskSet (buf 7) 1 = b7
  generalize maskSet (buf 5) 1 = b5
  revert b9 b7 b5
  decide

/-- One round of the digit loop at an index other than 3: a decimal digit is
added to the value, anything else jumps to `special`. -/
theorem decode_value_loop_step (buf : Buffer) (i n val : Nat) (hi : i ≠ 3) :
    decode_value_loop buf i (n + 1) val =
      if is_decimal (decode_digit i buf) then
        decode_value_loop buf (i + 1) n (10 * val + (decode_digit i buf).toNat)
      else none := by
  rw [decode_value_loop]
  simp only [hi, false_and, if_false, is_decimal]
  split_ifs with h1 h2 h2
  · simp only [Bool.and_eq_true, decide_eq_true_eq] at h2
    omega
  · rfl
  · rfl
  · simp only [Bool.and_eq_true, decide_eq_true_eq] at h2
    omega

/-- The last round of the digit loop, at index 3: `C` or `F` leaves the loop with
three digits, a decimal digit is added, anything else jumps to `special`. -/
theorem decode_value_loop_last (buf : Buffer) (val : Nat) :
    decode_value_loop buf 3 1 val =
      if decode_digit 3 buf = 67 ∨ decode_digit 3 buf = 70 then some (val, 3)
      else if is_decimal (decode_digit 3 buf) then
        some (10 * val + (decode_digit 3 buf).toNat, 4)
      else none := by
  rw [decode_value_loop]
  simp only [true_and, is_decimal, decode_value_loop]
  split_ifs with h1 h2 h3 h3
  · rfl
  · simp only [Bool.and_eq_true, decide_eq_true_eq] at h3
    omega
  · rfl
  · rfl
  · simp only [Bool.and_eq_true, decide_eq_true_eq] at h3
    omega

/-- The digit loop of `decode_value` in closed form. -/
theorem decode_value_loop_eq (buf : Buffer) :
    decode_value_loop buf 0 MAX_DIGITS 0 =
      if is_decimal (decode_digit 0 buf) && is_decimal (decode_digit 1 buf)
          && is_decimal (decode_digit 2 buf) then
        if decode_digit 3 buf = 67 ∨ decode_digit 3 buf = 70 then
          some (100 * (decode_digit 0 buf).toNat + 10 * (decode_digit 1 buf).toNat
            + (decode_digit 2 buf).toNat, 3)
        else if is_decimal (decode_digit 3 buf) then
          some (1000 * (decode_digit 0 buf).toNat + 100 * (decode_digit 1 buf).toNat
            + 10 * (decode_digit 2 buf).toNat + (decode_digit 3 buf).toNat, 4)
        else none
      else none := by
  show decode_value_loop buf 0 (3 + 1) 0 = _
  rw [decode_value_loop_step buf 0 3 0 (by decide)]
  cases h0 : is_decimal (decode_digit 0 buf)
  · rfl
  · show decode_value_loop buf 1 (2 + 1) _ = _
    rw [decode_value_loop_step buf 1 2 _ (by decide)]
    cases h1 : is_decimal (decode_digit 1 buf)
    · rfl
    · show decode_value_loop buf 2 (1 + 1) _ = _
      rw [decode_value_loop_step buf 2 1 _ (by decide)]
      cases h2 : is_decimal (decode_digit 2 buf)
      · rfl
      · show decode_value_loop buf 3 1 _ = _
        rw [decode_value_loop_last]
        simp only [Bool.and_self, if_true]
        split_ifs
        · simp only [Option.some.injEq, Prod.mk.injEq, and_true]
          omega
        · simp only [Option.some.injEq, Prod.mk.injEq, and_true]
          omega
        · rfl

/-- With four decimal digits `decode_value` returns their base-10 number and the
scale of the decimal point for four digits. -/
theorem decode_value_digits (buf : Buffer) (d0 d1 d2 d3 : Nat)
    (h0 : decode_digit 0 buf = d0) (h1 : decode_digit 1 buf = d1)
    (h2 : decode_digit 2 buf = d2) (h3 : decode_digit 3 buf = d3)
    (hd : d0 ≤ 9 ∧ d1 ≤ 9 ∧ d2 ≤ 9 ∧ d3 ≤ 9) (e : Int) :
    decode_value buf e
      = (FloatVal.num false (1000 * d0 + 100 * d1 + 10 * d2 + d3) 0,
          decode_scale (decode_point buf) 4) := by
  unfold decode_value
  rw [decode_value_loop_eq, h0, h1, h2, h3]
  have k0 : is_decimal (d0 : Int) = true := by simp [is_decimal]; omega
  have k1 : is_decimal (d1 : Int) = true := by simp [is_decimal]; omega
  have k2 : is_decimal (d2 : Int) = true := by simp [is_decimal]; omega
  have k3 : is_decimal (d3 : Int) = true := by simp [is_decimal]; omega
  have n3 : ¬ ((d3 : Int) = 67 ∨ (d3 : Int) = 70) := by omega
  simp only [k0, k1, k2, k3, Bool.and_self, if_true, if_neg n3, Int.toNat_ofNat, Nat.cast_ofNat]

/-- When the digit loop jumps to `special`, `decode_value` returns infinity for
the display ` 0L ` and NaN otherwise, and leaves `*exponent` alone. -/
theorem decode_value_special (buf : Buffer) (e : Int)
    (h : decode_value_loop buf 0 MAX_DIGITS 0 = none) :
    decode_value buf e
      = (if decode_digit 1 buf = 0 ∧ decode_digit 2 buf = 76 then FloatVal.inf false
          else FloatVal.nan, e) := by
  unfold decode_value
  rw [h]
  simp only []
  split_ifs <;> rfl

/-- The digits and spec_digits `sr_brymen_bm25x_parse` writes are the negated sum
of the scale exponent and the prefix exponent. -/
theorem bm25x_parse_digits (buf : Buffer) (fv : FloatVal) (an : sr_datafeed_analog) :
    (sr_brymen_bm25x_parse buf fv an).2.2.digits = -((decode_value buf 0).2 + decode_prefix buf)
      ∧ (sr_brymen_bm25x_parse buf fv an).2.2.spec_digits
          = -((decode_value buf 0).2 + decode_prefix buf) :=
  ⟨rfl, rfl⟩

/-- The value `sr_brymen_bm25x_parse` writes: the decoded value scaled by the sum
of the two exponents, negated when bit 0 of `buf[3]` is set. -/
theorem bm25x_parse_floatval (buf : Buffer) (fv : FloatVal) (an : sr_datafeed_analog) :
    (sr_brymen_bm25x_parse buf fv an).2.1 =
      if maskSet (buf 3) 1 then
        ((decode_value buf 0).1.scale ((decode_value buf 0).2 + decode_prefix buf)).neg
      else (decode_value buf 0).1.scale ((decode_value buf 0).2 + decode_prefix buf) :=
  rfl

/-- Two buffers with the same decimal-point bits have the same `decode_point`. -/
theorem decode_point_congr (b1 b2 : Buffer)
    (h5 : maskSet (b1 5) 1 = maskSet (b2 5) 1) (h7 : maskSet (b1 7) 1 = maskSet (b2 7) 1)
    (h9 : maskSet (b1 9) 1 = maskSet (b2 9) 1) : decode_point b1 = decode_point b2 := by
  rw [decode_point_eq, decode_point_eq]
  unfold bm25x_point_bits bm25x_point_index
  rw [h5, h7, h9]

/-- Two bytes that agree under a mask agree on every test inside that mask. -/
theorem maskSet_of_and_eq (a b : Byte) (m k : Nat) (hk : k &&& m = k)
    (h : a.val &&& m = b.val &&& m) : maskSet a k = maskSet b k := by
  unfold maskSet
  have ha : a.val &&& k = (a.val &&& m) &&& k := by
    rw [Nat.and_assoc, Nat.and_comm m k, hk]
  have hb : b.val &&& k = (b.val &&& m) &&& k := by
    rw [Nat.and_assoc, Nat.and_comm m k, hk]
  rw [ha, hb, h]

/-- The status byte stage of `parse_flags` leaves the configuration alone. -/
theorem config_status (buf : Buffer) (status : Nat) (info : es519xx_info) :
    (parse_flags_status buf status info).config = info.config := by
  unfold parse_flags_status
  split <;> rfl

/-- The option bytes stage of `parse_flags` leaves the configuration alone. -/
theorem config_options (buf : Buffer) (info : es519xx_info) :
    (parse_flags_options buf info).config = info.config := by
  unfold parse_flags_options parse_flags_option1
  simp only []
  split_ifs <;> rfl

/-- The frequency stage of `parse_flags` leaves the configuration alone. -/
theorem config_freq (info : es519xx_info) : (parse_flags_freq info).config = info.config := by
  unfold parse_flags_freq
  split_ifs <;> rfl

/-- The function byte stage of `parse_flags` leaves the configuration alone. -/
theorem config_function (f : Nat) (info : es519xx_info) :
    (parse_flags_function f info).config = info.config := by
  unfold parse_flags_function
  split
  · unfold parse_flags_function_alt
    split <;> rfl
  · unfold parse_flags_function_std
    split
    case h_9 => exact config_freq info
    case h_11 => split <;> rfl
    all_goals rfl

/-- The VAHZ stage of `parse_flags` leaves the configuration alone. -/
theorem config_vahz (info : es519xx_info) : (parse_flags_vahz info).config = info.config := by
  unfold parse_flags_vahz
  split
  · rw [config_freq]; rfl
  · rfl

/-- The VASEL stage of `parse_flags` leaves the configuration alone. -/
theorem config_vasel (info : es519xx_info) : (parse_flags_vasel info).config = info.config := by
  unfold parse_flags_vasel
  split <;> rfl

/-- The 2400 baud stage of `parse_flags` leaves the configuration alone. -/
theorem config_2400 (info : es519xx_info) : (parse_flags_2400 info).config = info.config := by
  unfold parse_flags_2400
  split_ifs <;> rfl

/-- The function `parse_flags` leaves the configuration alone. -/
theorem config_parse_flags (buf : Buffer) (info : es519xx_info) :
    (parse_flags buf info).config = info.config := by
  unfold parse_flags
  simp only []
  rw [config_2400, config_vasel, config_vahz, config_function, config_options, config_status]

/-- On a record set up by the entry point of variant `v`, the exponent
`parse_range` selects is the one of `es519xx_exponent`. -/
theorem parse_range_exponent_eq (v : es519xx_variant) (info : es519xx_info) (mode idx : Nat)
    (h : info.config = v.init.config) :
    parse_range_exponent info mode idx = es519xx_exponent v info mode idx := by
  unfold es519xx_info.config at h
  simp only [Prod.mk.injEq] at h
  obtain ⟨h1, h2, -, h4, h5, -⟩ := h
  unfold parse_range_exponent es519xx_exponent
  rw [h1, h2, h4, h5]
  cases v <;> simp [es519xx_variant.init, es519xx_info.zero, es519xx_variant.table]

/-- An accepted parse has an accepting verdict, whose exponent is stored negated
in the `digits` field of the returned record. -/
theorem es519xx_parse_ok_inv (v : es519xx_variant) (buf : Buffer) (fv : FloatVal)
    (an : sr_datafeed_analog) (info : es519xx_info) (fv' : FloatVal)
    (an' : sr_datafeed_analog) (info' : es519xx_info)
    (h : es519xx_parse v buf fv an info = some (SR_OK, fv', an', info')) :
    ∃ x e, es519xx_verdict buf v.init = some (some (x, e))
      ∧ info' = { parse_flags buf v.init with digits := -e }
      ∧ fv' = (handle_flags { an with digits := -e, spec_digits := -e } (x.scale e) info').2
      ∧ an' = (handle_flags { an with digits := -e, spec_digits := -e } (x.scale e) info').1 := by
  unfold es519xx_parse at h
  rcases hv : es519xx_verdict buf v.init with _ | _ | ⟨x, e⟩
  · rw [sr_es519xx_parse_undefined _ _ _ _ hv] at h
    simp at h
  · rw [sr_es519xx_parse_rejected _ _ _ _ hv] at h
    simp only [Option.some.injEq, Prod.mk.injEq] at h
    exact absurd h.1 SR_ERR_ne_OK
  · rw [sr_es519xx_parse_accepted _ _ _ _ _ _ hv] at h
    simp only [Option.some.injEq, Prod.mk.injEq, true_and] at h
    obtain ⟨h1, h2, h3⟩ := h
    refine ⟨x, e, rfl, h3.symm, ?_, ?_⟩
    · rw [← h3, h1]
    · rw [← h3, h2]

/-- An accepting verdict means a valid packet, a value from `parse_value` and an
exponent from `parse_range`. -/
theorem es519xx_verdict_inv (buf : Buffer) (info : es519xx_info) (x : FloatVal) (e : Int)
    (h : es519xx_verdict buf info = some (some (x, e))) :
    (sr_es519xx_packet_valid buf info).1 = true
      ∧ value_decision buf (parse_flags buf info) = some x
      ∧ range_decision (buf 0) (parse_flags buf info) = some (some e) := by
  unfold es519xx_verdict at h
  split_ifs at h with hpv
  · simp at h
  · simp only [Bool.not_eq_false] at hpv
    cases hv : value_decision buf (parse_flags buf info) with
    | none => rw [hv] at h; simp at h
    | some y =>
      rw [hv] at h
      simp only [] at h
      rcases hr : range_decision (buf 0) (parse_flags buf info) with _ | _ | e'
      · rw [hr] at h; simp at h
      · rw [hr] at h; simp at h
      · rw [hr] at h
        simp only [Option.some.injEq, Prod.mk.injEq] at h
        rw [h.1, h.2]
        exact ⟨hpv, rfl, rfl⟩

/-- An exponent from `parse_range` means a range byte in `0..7`, a measurement
mode and a table entry. -/
theorem range_decision_inv (b : Byte) (info : es519xx_info) (e : Int)
    (h : range_decision b info = some (some e)) :
    48 ≤ b.val ∧ b.val ≤ 55
      ∧ ∃ mode, parse_range_mode info = some mode
        ∧ parse_range_exponent info mode (b.val - 48) = some e := by
  unfold range_decision at h
  simp only [] at h
  split_ifs at h with hidx
  · simp at h
  · have hb : 48 ≤ b.val ∧ b.val ≤ 55 := by omega
    refine ⟨hb.1, hb.2, ?_⟩
    cases hm : parse_range_mode info with
    | none => rw [hm] at h; simp at h
    | some mode =>
      rw [hm] at h
      simp only [Option.map_eq_some'] at h
      obtain ⟨a, ha, hae⟩ := h
      have hn : ((b.val : Int) - 48).toNat = b.val - 48 := by omega
      rw [hn] at ha
      simp only [Option.some.injEq] at hae
      exact ⟨mode, rfl, by rw [ha, hae]⟩

/-- The value after `handle_flags`: the continuity test in continuity mode, and
the value as it was otherwise. -/
theorem handle_flags_snd (an : sr_datafeed_analog) (x : FloatVal) (info : es519xx_info) :
    (handle_flags an x info).2 =
      if info.is_continuity then
        (if x.ltZero || x.gtNat 25 then FloatVal.num false 0 0 else FloatVal.num false 1 0)
      else x := rfl

/-- A value from `parse_value` comes with the return code SR_OK. -/
theorem value_decision_some_inv (buf : Buffer) (info : es519xx_info) (x : FloatVal)
    (h : value_decision buf info = some x) :
    (parse_value buf info FloatVal.nan).1 = SR_OK ∧ x = (parse_value buf info FloatVal.nan).2 := by
  unfold value_decision at h
  by_cases hok : (parse_value buf info FloatVal.nan).1 = SR_OK
  · rw [if_pos hok] at h
    simp only [Option.some.injEq] at h
    exact ⟨hok, h.symm⟩
  · rw [if_neg hok] at h
    simp at h

/-- With the overflow or the underflow flag the value of `parse_value` is plus
infinity. -/
theorem value_decision_inf (buf : Buffer) (info : es519xx_info) (x : FloatVal)
    (h : value_decision buf info = some x) (hol : info.is_ol = true ∨ info.is_ul = true) :
    x = FloatVal.inf false := by
  rw [(value_decision_some_inv buf info x h).2]
  unfold parse_value
  rcases hol with hol | hol
  · simp only [hol, if_true]
  · cases ho : info.is_ol
    · simp only [hol, Bool.false_eq_true, if_true, if_false]
    · simp only [if_true]

/-- Without overflow and underflow the value of `parse_value` is the signed
number of its digit loop. -/
theorem value_decision_num (buf : Buffer) (info : es519xx_info) (x : FloatVal)
    (h : value_decision buf info = some x) (hol : info.is_ol = false)
    (hul : info.is_ul = false) :
    x = FloatVal.ofInt
      (parse_value_digits buf (4 + if info.packet_size = 14 then 1 else 0)
        (if info.is_digit4 then 1 else 0) * (if info.is_sign then -1 else 1)) := by
  obtain ⟨hok, hx⟩ := value_decision_some_inv buf info x h
  have key : parse_value buf info FloatVal.nan =
      if (!isdigit (buf 1) || !isdigit (buf 2) || !isdigit (buf 3) || !isdigit (buf 4)
          || (decide ((4 + if info.packet_size = 14 then 1 else 0) = 5) && !isdigit (buf 5)))
          = true then
        (SR_ERR, FloatVal.nan)
      else
        (SR_OK, FloatVal.ofInt
          (parse_value_digits buf (4 + if info.packet_size = 14 then 1 else 0)
            (if info.is_digit4 then 1 else 0) * (if info.is_sign then -1 else 1))) := by
    unfold parse_value
    simp only [hol, hul, Bool.false_eq_true, if_false]
  generalize (!isdigit (buf 1) || !isdigit (buf 2) || !isdigit (buf 3) || !isdigit (buf 4)
    || (decide ((4 + if info.packet_size = 14 then 1 else 0) = 5) && !isdigit (buf 5)))
    = bad at key
  rw [key] at hok hx
  cases bad
  · simp only [Bool.false_eq_true, if_false] at hx
    exact hx
  · simp only [if_true] at hok
    exact absurd hok SR_ERR_ne_OK

/-- The digit loop of `parse_value` over four bytes. -/
theorem parse_value_digits_four (buf : Buffer) (i0 : Int) :
    parse_value_digits buf 4 i0
      = 10000 * i0 + 1000 * (((buf 1).val : Int) - 48) + 100 * (((buf 2).val : Int) - 48)
        + 10 * (((buf 3).val : Int) - 48) + (((buf 4).val : Int) - 48) := by
  simp only [parse_value_digits, List.range, List.range.loop, List.foldl, Nat.reduceAdd]
  ring

/-- The digit loop of `parse_value` over five bytes. -/
theorem parse_value_digits_five (buf : Buffer) (i0 : Int) :
    parse_value_digits buf 5 i0
      = 100000 * i0 + 10000 * (((buf 1).val : Int) - 48) + 1000 * (((buf 2).val : Int) - 48)
        + 100 * (((buf 3).val : Int) - 48) + 10 * (((buf 4).val : Int) - 48)
        + (((buf 5).val : Int) - 48) := by
  simp only [parse_value_digits, List.range, List.range.loop, List.foldl, Nat.reduceAdd]
  ring

/-- The digit loop of `parse_value` yields the magnitude `es519xx_magnitude`. -/
theorem parse_value_digits_magnitude (v : es519xx_variant) (buf : Buffer) (digit4 : Bool) :
    parse_value_digits buf (4 + if v.init.packet_size = 14 then 1 else 0)
        (if digit4 then 1 else 0)
      = es519xx_magnitude v buf digit4 := by
  unfold es519xx_magnitude es519xx_variant.size
  split_ifs
  · rw [parse_value_digits_five]; ring
  · rw [parse_value_digits_five]; ring
  · rw [parse_value_digits_four]; ring
  · rw [parse_value_digits_four]; ring

/-- Decimal number, before rounding, of a converted integer scaled by a power
of ten. -/
theorem toRat_ofInt_scale (i e : Int) :
    ((FloatVal.ofInt i).scale e).toRat = some ((i : ℚ) * (10 : ℚ) ^ e) := by
  unfold FloatVal.ofInt FloatVal.scale FloatVal.toRat
  simp only [zero_add, Option.some.injEq]
  congr 1
  by_cases hi : i < 0
  · simp only [hi, decide_True, if_true]
    rw [Nat.cast_natAbs, abs_of_neg hi]
    push_cast
    ring
  · simp only [hi, decide_False, Bool.false_eq_true, if_false, one_mul]
    rw [Nat.cast_natAbs, abs_of_nonneg (not_lt.mp hi)]

/-- The function `handle_flags` leaves digits and spec_digits alone. -/
theorem handle_flags_digits (an : sr_datafeed_analog) (x : FloatVal) (info : es519xx_info) :
    (handle_flags an x info).1.digits = an.digits
      ∧ (handle_flags an x info).1.spec_digits = an.spec_digits :=
  handle_flags_modes_digits an x info

/-- What an accepted packet leaves behind: the decoded flags with the digits,
the table row and the exponent of the variant, the raw value and the record. -/
theorem es519xx_parse_ok_parts (v : es519xx_variant) (buf : Buffer) (fv : FloatVal)
    (an : sr_datafeed_analog) (info : es519xx_info) (fv' : FloatVal)
    (an' : sr_datafeed_analog) (info' : es519xx_info)
    (h : es519xx_parse v buf fv an info = some (SR_OK, fv', an', info')) :
    ∃ x mode e, info' = { parse_flags buf v.init with digits := -e }
      ∧ value_decision buf (parse_flags buf v.init) = some x
      ∧ parse_range_mode info' = some mode
      ∧ es519xx_exponent v info' mode ((buf 0).val - 48) = some e
      ∧ fv' = (handle_flags { an with digits := -e, spec_digits := -e } (x.scale e) info').2
      ∧ an' = (handle_flags { an with digits := -e, spec_digits := -e } (x.scale e) info').1
      ∧ an'.digits = -e ∧ an'.spec_digits = -e := by
  obtain ⟨x, e, hv, hi, hf, ha⟩ := es519xx_parse_ok_inv v buf fv an info fv' an' info' h
  obtain ⟨-, hval, hr⟩ := es519xx_verdict_inv _ _ _ _ hv
  obtain ⟨-, -, mode, hm, he⟩ := range_decision_inv _ _ _ hr
  rw [parse_range_exponent_eq v _ _ _ (config_parse_flags buf v.init)] at he
  refine ⟨x, mode, e, hi, hval, ?_, ?_, hf, ha, ?_, ?_⟩
  · rw [hi]; exact hm
  · rw [hi]; exact he
  · rw [ha]; exact (handle_flags_digits _ _ _).1
  · rw [ha]; exact (handle_flags_digits _ _ _).2

/-- For a non-negative number, being above 25 is the same as being outside the
interval from 0 to 25. -/
theorem continuity_test_num_pos (m : Nat) (e : Int) :
    (if 0 ≤ e then decide (25 < m * 10 ^ e.toNat) else decide (25 * 10 ^ (-e).toNat < m))
      = !decide ((0 : ℚ) ≤ (m : ℚ) * (10 : ℚ) ^ e ∧ (m : ℚ) * (10 : ℚ) ^ e ≤ 25) := by
  have hpos : (0 : ℚ) ≤ (m : ℚ) * (10 : ℚ) ^ e := by positivity
  rw [Bool.eq_iff_iff]
  simp only [hpos, true_and, Bool.not_eq_true', decide_eq_false_iff_not, not_le]
  cases e with
  | ofNat k =>
    simp only [Int.ofNat_eq_coe, Int.natCast_nonneg, if_true, Int.toNat_ofNat, decide_eq_true_eq,
      zpow_natCast]
    constructor
    · intro h
      exact_mod_cast h
    · intro h
      exact_mod_cast h
  | negSucc k =>
    have hneg : ¬ (0 ≤ Int.negSucc k) := by simp [Int.negSucc_lt_zero]
    have htn : (-Int.negSucc k).toNat = k + 1 := by simp [Int.neg_negSucc]
    simp only [hneg, if_false, htn, decide_eq_true_eq, zpow_negSucc]
    have h10 : (0 : ℚ) < (10 : ℚ) ^ (k + 1) := by positivity
    rw [← div_eq_mul_inv, lt_div_iff₀ h10]
    constructor
    · intro h
      exact_mod_cast h
    · intro h
      exact_mod_cast h

/-- For a value that is not NaN, the test `< 0.0 || > 25.0` of `handle_flags` is
the negation of lying between 0 and 25. -/
theorem continuity_test (r : FloatVal) (hr : r ≠ FloatVal.nan) :
    (r.ltZero || r.gtNat 25) = !r.in_range 0 25 := by
  cases r with
  | nan => exact absurd rfl hr
  | inf s => cases s <;> rfl
  | num s m e =>
    cases s
    · unfold FloatVal.ltZero FloatVal.gtNat FloatVal.in_range FloatVal.toRat
      simp only [Bool.false_and, Bool.false_or, Bool.not_false, Bool.true_and, Bool.false_eq_true,
        if_false, one_mul]
      exact continuity_test_num_pos m e
    · unfold FloatVal.ltZero FloatVal.gtNat FloatVal.in_range FloatVal.toRat
      simp only [Bool.true_and, Bool.not_true, Bool.false_and, Bool.or_false, if_true]
      have h10 : (0 : ℚ) < (10 : ℚ) ^ e := by positivity
      rw [Bool.eq_iff_iff]
      simp only [decide_eq_true_eq, Bool.not_eq_true', decide_eq_false_iff_not, not_and, not_le]
      constructor
      · intro hm h0
        exfalso
        have hmq : (0 : ℚ) < (m : ℚ) := by exact_mod_cast Nat.pos_of_ne_zero hm
        have : -1 * (m : ℚ) * (10 : ℚ) ^ e < 0 := by
          have := mul_pos hmq h10
          linarith
        linarith
      · intro h hm
        rw [hm] at h
        simp at h
        linarith

/-- What at most one measurement kind means for a record in continuity mode, in
voltage mode and in current mode. -/
theorem kind_count_one_flags (info : es519xx_info) (h : kind_count info ≤ 1) :
    (info.is_continuity = true →
      info.is_voltage = false ∧ info.is_current = false ∧ info.is_resistance = false
        ∧ info.is_frequency = false ∧ info.is_capacitance = false
        ∧ info.is_temperature = false ∧ info.is_diode = false ∧ info.is_rpm = false
        ∧ info.is_duty_cycle = false)
      ∧ (info.is_voltage = true →
        info.is_current = false ∧ info.is_resistance = false ∧ info.is_frequency = false
          ∧ info.is_capacitance = false ∧ info.is_temperature = false
          ∧ info.is_continuity = false ∧ info.is_diode = false ∧ info.is_rpm = false
          ∧ info.is_duty_cycle = false)
      ∧ (info.is_current = true → info.is_voltage = false) := by
  unfold kind_count at h
  refine ⟨fun hc => ?_, fun hv => ?_, fun hc => ?_⟩
  · rw [hc] at h
    simp only [Bool.toNat_true] at h
    refine ⟨?_, ?_, ?_, ?_, ?_, ?_, ?_, ?_, ?_⟩ <;> exact toNat_zero_false _ (by omega)
  · rw [hv] at h
    simp only [Bool.toNat_true] at h
    refine ⟨?_, ?_, ?_, ?_, ?_, ?_, ?_, ?_, ?_⟩ <;> exact toNat_zero_false _ (by omega)
  · rw [hc] at h
    simp only [Bool.toNat_true] at h
    exact toNat_zero_false _ (by omega)

/-- The mq and unit written by `handle_flags` are those of its measurement mode
part. -/
theorem handle_flags_mq (an : sr_datafeed_analog) (x : FloatVal) (info : es519xx_info) :
    (handle_flags an x info).1.mq = (handle_flags_modes an x info).1.mq
      ∧ (handle_flags an x info).1.unit = (handle_flags_modes an x info).1.unit :=
  ⟨rfl, rfl⟩

/-- For a record with one measurement kind, continuity, `handle_flags` writes mq
CONTINUITY and unit BOOLEAN. -/
theorem handle_flags_continuity (an : sr_datafeed_analog) (x : FloatVal) (info : es519xx_info)
    (h : kind_count info ≤ 1) (hc : info.is_continuity = true) :
    (handle_flags an x info).1.mq = SR_MQ_CONTINUITY
      ∧ (handle_flags an x info).1.unit = SR_UNIT_BOOLEAN := by
  obtain ⟨-, -, -, -, -, -, h7, h8, h9⟩ := (kind_count_one_flags info h).1 hc
  rw [(handle_flags_mq an x info).1, (handle_flags_mq an x info).2]
  unfold handle_flags_modes
  simp only [set_mq_if_mq, set_mq_if_unit, hc, h7, h8, h9, if_true, Bool.false_eq_true, if_false,
    and_self]

/-- For a record with one measurement kind, voltage, `handle_flags` writes mq
VOLTAGE and unit VOLT. -/
theorem handle_flags_voltage (an : sr_datafeed_analog) (x : FloatVal) (info : es519xx_info)
    (h : kind_count info ≤ 1) (hv : info.is_voltage = true) :
    (handle_flags an x info).1.mq = SR_MQ_VOLTAGE
      ∧ (handle_flags an x info).1.unit = SR_UNIT_VOLT := by
  obtain ⟨h1, h2, h3, h4, h5, h6, h7, h8, h9⟩ := (kind_count_one_flags info h).2.1 hv
  rw [(handle_flags_mq an x info).1, (handle_flags_mq an x info).2]
  unfold handle_flags_modes
  simp only [set_mq_if_mq, set_mq_if_unit, hv, h1, h2, h3, h4, h5, h6, h7, h8, h9, if_true,
    Bool.false_eq_true, if_false, and_self, Bool.false_and]

/-- The record returned by an accepted parse has at most one measurement kind. -/
theorem kind_count_accepted (v : es519xx_variant) (buf : Buffer) (e : Int) :
    kind_count { parse_flags buf v.init with digits := e } ≤ 1 :=
  kind_count_parse_flags buf v.init (kind_count_init v)

/-- The function `memcmp` returns 0 on two ranges with the same bytes. -/
theorem memcmp_eq_zero (buf : Buffer) : ∀ (n a b : Nat),
    (∀ i, i < n → buf (a + i) = buf (b + i)) → memcmp buf a b n = 0 := by
  intro n
  induction n with
  | zero => intro a b _; rfl
  | succ n ih =>
    intro a b h
    unfold memcmp
    have h0 := h 0 (by omega)
    simp only [Nat.add_zero] at h0
    rw [if_pos h0]
    apply ih
    intro i hi
    have := h (i + 1) (by omega)
    rwa [Nat.add_assoc, Nat.add_comm 1 i, Nat.add_assoc, Nat.add_comm 1 i]

/-- The function `parse_flags` reads only the bytes from the function byte up to
`buf[11]`. -/
theorem parse_flags_congr_from (b1 b2 : Buffer) (info : es519xx_info)
    (h : ∀ i, (if info.packet_size = 14 then 6 else 5) ≤ i → i < 12 → b1 i = b2 i) :
    parse_flags b1 info = parse_flags b2 info := by
  unfold parse_flags parse_flags_status parse_flags_options parse_flags_option1
  by_cases hs : info.packet_size = 14
  · simp only [hs, if_true] at h
    simp only [hs, if_true, Nat.reduceAdd, h 6 (by omega) (by omega), h 7 (by omega) (by omega),
      h 8 (by omega) (by omega), h 9 (by omega) (by omega), h 10 (by omega) (by omega),
      h 11 (by omega) (by omega)]
  · simp only [hs, if_false] at h
    simp only [hs, if_false, Nat.reduceAdd, Nat.add_zero, h 5 (by omega) (by omega),
      h 6 (by omega) (by omega), h 7 (by omega) (by omega), h 8 (by omega) (by omega),
      h 9 (by omega) (by omega), h 10 (by omega) (by omega), h 11 (by omega) (by omega)]

/-- With the overflow or the underflow flag `parse_value` returns plus infinity
whatever the value bytes hold. -/
theorem value_decision_overflow (buf : Buffer) (info : es519xx_info)
    (hol : info.is_ol = true ∨ info.is_ul = true) :
    value_decision buf info = some (FloatVal.inf false) := by
  have hp : parse_value buf info FloatVal.nan = (SR_OK, FloatVal.inf false) := by
    unfold parse_value
    rcases hol with hol | hol
    · simp only [hol, if_true]
    · cases ho : info.is_ol
      · simp only [hol, Bool.false_eq_true, if_true, if_false]
      · simp only [if_true]
  unfold value_decision
  rw [hp]
  simp

/-- Every variant has packets of 11 or of 14 bytes. -/
theorem variant_size (v : es519xx_variant) : v.size = 11 ∨ v.size = 14 := by
  cases v <;> decide

/-- With the overflow or underflow flag set, the verdict on a packet does not
depend on its value bytes. -/
theorem es519xx_verdict_overflow (v : es519xx_variant) (buf buf2 : Buffer) (x : FloatVal)
    (e : Int) (h : es519xx_verdict buf v.init = some (some (x, e)))
    (hol : (parse_flags buf v.init).is_ol = true ∨ (parse_flags buf v.init).is_ul = true)
    (h2 : ∀ i, i < v.reads → es519xx_value_byte v i = false → buf2 i = buf i)
    (hrep : v.size = 11 → ∀ i, i < 11 → buf2 i = buf2 (11 + i)) :
    parse_flags buf2 v.init = parse_flags buf v.init
      ∧ es519xx_verdict buf2 v.init = some (some (x, e)) := by
  obtain ⟨hpv, hval, hr⟩ := es519xx_verdict_inv _ _ _ _ h
  have hsz : v.init.packet_size = v.size := rfl
  have hpf : parse_flags buf2 v.init = parse_flags buf v.init := by
    apply parse_flags_congr_from
    intro i h5 h12
    rw [hsz] at h5
    apply h2
    · unfold es519xx_variant.reads
      split_ifs <;> omega
    · unfold es519xx_value_byte
      rcases variant_size v with hs | hs <;> simp [hs] at h5 ⊢ <;> omega
  have hrd : 14 ≤ v.reads := by
    unfold es519xx_variant.reads
    split_ifs <;> omega
  have h0 : buf2 0 = buf 0 :=
    h2 0 (by omega) (by unfold es519xx_value_byte; split_ifs <;> simp)
  have hx : x = FloatVal.inf false := value_decision_inf _ _ _ hval hol
  have hpv2 : (sr_es519xx_packet_valid buf2 v.init).1 = true := by
    unfold sr_es519xx_packet_valid at hpv ⊢
    rw [hpf]
    rw [hsz] at hpv ⊢
    rcases variant_size v with hs | hs
    · have hm := memcmp_eq_zero buf2 11 0 11
        (fun i hi => by rw [Nat.zero_add]; exact hrep hs i hi)
      have h9 : buf2 9 = buf 9 := h2 9 (by omega)
        (by unfold es519xx_value_byte; simp [hs])
      have h10 : buf2 10 = buf 10 := h2 10 (by omega)
        (by unfold es519xx_value_byte; simp [hs])
      simp only [hs, hm, Nat.reduceSub, h9, h10, ne_eq, not_true_eq_false, and_false,
        if_false] at hpv ⊢
      split_ifs at hpv ⊢
      all_goals simp_all
    · have h12 : buf2 12 = buf 12 := h2 12 (by omega)
        (by unfold es519xx_value_byte; simp [hs])
      have h13 : buf2 13 = buf 13 := h2 13 (by omega)
        (by unfold es519xx_value_byte; simp [hs])
      simp only [hs, Nat.reduceSub, h12, h13, (by decide : ¬ (14 : Nat) = 11), false_and,
        if_false] at hpv ⊢
      exact hpv
  refine ⟨hpf, ?_⟩
  unfold es519xx_verdict
  rw [hpf, hpv2, value_decision_overflow buf2 _ hol, h0, hr, hx]
  simp

/-- After the 2400 baud stage of `parse_flags` a current record has `is_auto`. -/
theorem parse_flags_2400_auto (s : es519xx_info) (hb : s.baudrate = 2400)
    (hcur : (parse_flags_2400 s).is_current = true) : (parse_flags_2400 s).is_auto = true := by
  unfold parse_flags_2400 at hcur ⊢
  rw [if_pos hb] at hcur ⊢
  by_cases hc : (s.is_current && (s.is_milli || !s.is_auto)) = true
  · rw [if_pos hc]
  · rw [if_neg hc] at hcur ⊢
    cases ha : s.is_auto
    · rw [hcur, ha] at hc
      simp at hc
    · rfl

/-- On both 2400 baud variants a record that `parse_flags` leaves in current mode
has `is_auto`. -/
theorem parse_flags_auto_2400 (v : es519xx_variant)
    (hv : v = .v2400_11b ∨ v = .v2400_11b_altfn) (buf : Buffer)
    (hcur : (parse_flags buf v.init).is_current = true) :
    (parse_flags buf v.init).is_auto = true := by
  unfold parse_flags at hcur ⊢
  simp only [] at hcur ⊢
  apply parse_flags_2400_auto _ _ hcur
  have hb : ∀ s : es519xx_info, s.config = v.init.config → s.baudrate = 2400 := by
    intro s hs
    unfold es519xx_info.config at hs
    simp only [Prod.mk.injEq] at hs
    rw [hs.1]
    rcases hv with rfl | rfl <;> rfl
  apply hb
  rw [config_vasel, config_vahz, config_function, config_options, config_status]

/-- The table row of a current record with `is_auto`: 1 for micro, 2 for milli,
3 otherwise; never row 4. -/
theorem current_mode_auto (info : es519xx_info) (hcur : info.is_current = true)
    (hvolt : info.is_voltage = false) (hauto : info.is_auto = true) :
    parse_range_mode info
      = some (if info.is_micro then 1 else if info.is_milli then 2 else 3) := by
  unfold parse_range_mode
  rw [hvolt, hcur, hauto]
  cases info.is_micro <;> cases info.is_milli <;> rfl

/-- A record with at most one measurement kind that has the current flag has
none of the kinds `handle_flags` tests after it. -/
theorem kind_count_current_flags (info : es519xx_info) (h : kind_count info ≤ 1)
    (hc : info.is_current = true) :
    info.is_resistance = false ∧ info.is_frequency = false ∧ info.is_capacitance = false
      ∧ info.is_temperature = false ∧ info.is_continuity = false ∧ info.is_diode = false
      ∧ info.is_rpm = false ∧ info.is_duty_cycle = false := by
  unfold kind_count at h
  rw [hc] at h
  simp only [Bool.toNat_true] at h
  refine ⟨?_, ?_, ?_, ?_, ?_, ?_, ?_, ?_⟩ <;> exact toNat_zero_false _ (by omega)

/-- For a record with one measurement kind, the current flag, `handle_flags`
writes mq CURRENT and unit AMPERE. -/
theorem handle_flags_current (an : sr_datafeed_analog) (x : FloatVal) (info : es519xx_info)
    (h : kind_count info ≤ 1) (hc : info.is_current = true) :
    (handle_flags an x info).1.mq = SR_MQ_CURRENT
      ∧ (handle_flags an x info).1.unit = SR_UNIT_AMPERE := by
  obtain ⟨h2, h3, h4, h5, h6, h7, h8, h9⟩ := kind_count_current_flags info h hc
  rw [(handle_flags_mq an x info).1, (handle_flags_mq an x info).2]
  unfold handle_flags_modes
  simp only [set_mq_if_mq, set_mq_if_unit, hc, h2, h3, h4, h5, h6, h7, h8, h9, if_true,
    Bool.false_eq_true, if_false, and_self, Bool.false_and]

/-! ## Theorems: flag decoding and rejected packets -/

/-- When some value byte is no ASCII digit and neither the overflow nor the
underflow flag is set, `parse_value` returns `SR_ERR`. -/
theorem value_decision_non_digit (v : es519xx_variant) (buf : Buffer) (info : es519xx_info)
    (hc : info.config = v.init.config)
    (hol : info.is_ol = false) (hul : info.is_ul = false)
    (hd : ∃ i, 1 ≤ i ∧ i ≤ (if v.size = 14 then 5 else 4) ∧ isdigit (buf i) = false) :
    value_decision buf info = none := by
  have hs : info.packet_size = v.size := by
    have := congrArg (fun c => c.2.1) hc
    exact this
  obtain ⟨i, h1, h2, h3⟩ := hd
  unfold value_decision parse_value
  simp only [hol, hul, hs, Bool.false_eq_true, if_false]
  have hbad : (!isdigit (buf 1) || !isdigit (buf 2) || !isdigit (buf 3) || !isdigit (buf 4)
      || (decide (4 + (if v.size = 14 then 1 else 0) = 5) && !isdigit (buf 5))) = true := by
    by_cases h14 : v.size = 14
    · simp only [h14, if_true] at h2 ⊢
      interval_cases i <;> simp [h3]
    · simp only [h14, if_false] at h2 ⊢
      interval_cases i <;> simp [h3]
  rw [if_pos hbad]
  simp [SR_ERR_ne_OK]

/-- The function byte switch leaves the AC and DC flags alone. -/
theorem acdc_function (f : Nat) (info : es519xx_info) :
    (parse_flags_function f info).is_ac = info.is_ac
      ∧ (parse_flags_function f info).is_dc = info.is_dc := by
  have hfreq : ∀ s : es519xx_info, (parse_flags_freq s).is_ac = s.is_ac
      ∧ (parse_flags_freq s).is_dc = s.is_dc := by
    intro s; unfold parse_flags_freq; split_ifs <;> exact ⟨rfl, rfl⟩
  unfold parse_flags_function parse_flags_function_alt parse_flags_function_std
  split
  · split <;> exact ⟨rfl, rfl⟩
  · split <;> first | exact ⟨rfl, rfl⟩ | exact hfreq _ | (split_ifs <;> exact ⟨rfl, rfl⟩)

/-- The VAHZ, VASEL and 2400 baud rules leave the AC and DC flags alone. -/
theorem acdc_rules (info : es519xx_info) :
    (parse_flags_2400 (parse_flags_vasel (parse_flags_vahz info))).is_ac = info.is_ac
      ∧ (parse_flags_2400 (parse_flags_vasel (parse_flags_vahz info))).is_dc = info.is_dc := by
  have h1 : ∀ s : es519xx_info, (parse_flags_2400 s).is_ac = s.is_ac
      ∧ (parse_flags_2400 s).is_dc = s.is_dc := by
    intro s; unfold parse_flags_2400; split_ifs <;> exact ⟨rfl, rfl⟩
  have h2 : ∀ s : es519xx_info, (parse_flags_vasel s).is_ac = s.is_ac
      ∧ (parse_flags_vasel s).is_dc = s.is_dc := by
    intro s; unfold parse_flags_vasel; split_ifs <;> exact ⟨rfl, rfl⟩
  have h3 : ∀ s : es519xx_info, (parse_flags_vahz s).is_ac = s.is_ac
      ∧ (parse_flags_vahz s).is_dc = s.is_dc := by
    intro s; unfold parse_flags_vahz parse_flags_freq; split_ifs <;> exact ⟨rfl, rfl⟩
  exact ⟨by rw [(h1 _).1, (h2 _).1, (h3 _).1], by rw [(h1 _).2, (h2 _).2, (h3 _).2]⟩

/-- The AC and DC flags after `parse_flags`, for each variant: the option bits
of `buf[8]` (11-byte packets) or `buf[10]` (14-byte packets), and with
alternate functions AC as the negation of DC. -/
theorem parse_flags_ac_dc (v : es519xx_variant) (buf : Buffer) :
    (parse_flags buf v.init).is_dc = bitSet (buf (if v.size = 14 then 10 else 8)) 3
      ∧ (parse_flags buf v.init).is_ac
          = (if v = .v2400_11b_altfn then !bitSet (buf 8) 3
              else bitSet (buf (if v.size = 14 then 10 else 8)) 2) := by
  unfold parse_flags
  simp only []
  rw [(acdc_rules _).1, (acdc_rules _).2, (acdc_function _ _).1, (acdc_function _ _).2]
  cases v <;>
    simp [parse_flags_status, parse_flags_options, parse_flags_option1, es519xx_variant.init,
      es519xx_variant.size, es519xx_info.zero]

/-- The status and option bytes leave the multiplier, current and auto flags
such that no multiplier is set. -/
theorem multiplier_options (buf : Buffer) (st : Nat) (info : es519xx_info)
    (h : info.is_micro = false ∧ info.is_milli = false) :
    (parse_flags_options buf (parse_flags_status buf st info)).is_micro = false
      ∧ (parse_flags_options buf (parse_flags_status buf st info)).is_milli = false := by
  unfold parse_flags_options parse_flags_option1 parse_flags_status
  simp only []
  split_ifs <;> exact h

/-- After the function byte switch on a record without multiplier: micro
excludes milli, and a micro current record has `is_auto`. -/
theorem multiplier_function (f : Nat) (info : es519xx_info)
    (h : info.is_micro = false ∧ info.is_milli = false) :
    (!(parse_flags_function f info).is_micro
      || (!(parse_flags_function f info).is_milli
        && (!(parse_flags_function f info).is_current
          || (parse_flags_function f info).is_auto))) = true := by
  have hfreq : ∀ s : es519xx_info, (parse_flags_freq s).is_micro = s.is_micro := by
    intro s; unfold parse_flags_freq; split_ifs <;> rfl
  unfold parse_flags_function parse_flags_function_alt parse_flags_function_std
  split
  · split <;> simp [h.1, h.2]
  · split <;> first
      | (simp [h.1, h.2]; done)
      | (rw [show (parse_flags_freq info).is_micro = false from (hfreq _).trans h.1]; rfl)
      | (split_ifs <;> simp [h.1, h.2])

/-- The VAHZ rule keeps: micro excludes milli, and a micro current record has
`is_auto`. -/
theorem multiplier_vahz (info : es519xx_info)
    (h : (!info.is_micro || (!info.is_milli && (!info.is_current || info.is_auto))) = true) :
    (!(parse_flags_vahz info).is_micro
      || (!(parse_flags_vahz info).is_milli
        && (!(parse_flags_vahz info).is_current || (parse_flags_vahz info).is_auto))) = true := by
  have hfreq : ∀ s : es519xx_info, (parse_flags_freq s).is_micro = s.is_micro := by
    intro s; unfold parse_flags_freq; split_ifs <;> rfl
  unfold parse_flags_vahz
  split
  · rw [hfreq]; rfl
  · exact h

/-- The VASEL rule keeps: micro excludes milli, and a micro current record has
`is_auto`. -/
theorem multiplier_vasel (info : es519xx_info)
    (h : (!info.is_micro || (!info.is_milli && (!info.is_current || info.is_auto))) = true) :
    (!(parse_flags_vasel info).is_micro
      || (!(parse_flags_vasel info).is_milli
        && (!(parse_flags_vasel info).is_current || (parse_flags_vasel info).is_auto)))
      = true := by
  unfold parse_flags_vasel
  split
  · revert h
    show (!info.is_micro || (!info.is_milli && (!info.is_current || info.is_auto))) = true →
      (!info.is_micro || (!info.is_milli && (!false || false))) = true
    cases info.is_micro <;> cases info.is_milli <;> cases info.is_current <;>
      cases info.is_auto <;> decide
  · exact h

/-- The 2400 baud rule never leaves both multipliers set. -/
theorem multiplier_2400 (info : es519xx_info)
    (h : (!info.is_micro || (!info.is_milli && (!info.is_current || info.is_auto))) = true) :
    ((parse_flags_2400 info).is_micro && (parse_flags_2400 info).is_milli) = false := by
  unfold parse_flags_2400
  split_ifs with h1 h2
  · revert h h2
    show _ → _ → (info.is_micro && !info.is_milli) = false
    cases info.is_micro <;> cases info.is_milli <;> cases info.is_current <;>
      cases info.is_auto <;> decide
  · revert h
    cases info.is_micro <;> cases info.is_milli <;> cases info.is_current <;>
      cases info.is_auto <;> decide
  · revert h
    cases info.is_micro <;> cases info.is_milli <;> cases info.is_current <;>
      cases info.is_auto <;> decide

/-- After `parse_flags` on the record of an entry point the micro and the milli
flag are never both set. -/
theorem multiplier_parse_flags (v : es519xx_variant) (buf : Buffer) :
    ((parse_flags buf v.init).is_micro && (parse_flags buf v.init).is_milli) = false := by
  unfold parse_flags
  simp only []
  apply multiplier_2400
  apply multiplier_vasel
  apply multiplier_vahz
  apply multiplier_function
  apply multiplier_options
  cases v <;> exact ⟨rfl, rfl⟩

/-- The function `flags_valid` on a record without two multipliers and with at
most one of the nine kinds it counts: only AC together with DC is rejected. -/
theorem flags_valid_ac_dc (info : es519xx_info)
    (hm : (info.is_micro && info.is_milli) = false)
    (hk : kind_count info - info.is_duty_cycle.toNat ≤ 1) :
    flags_valid info = !(info.is_ac && info.is_dc) := by
  revert hm hk
  unfold flags_valid kind_count
  generalize info.is_micro = a1
  generalize info.is_milli = a2
  generalize info.is_ac = a3
  generalize info.is_dc = a4
  generalize info.is_voltage = b1
  generalize info.is_current = b2
  generalize info.is_resistance = b3
  generalize info.is_frequency = b4
  generalize info.is_capacitance = b5
  generalize info.is_temperature = b6
  generalize info.is_continuity = b7
  generalize info.is_diode = b8
  generalize info.is_rpm = b9
  generalize info.is_duty_cycle = b10
  revert a1 a2 a3 a4 b1 b2 b3 b4 b5 b6 b7 b8 b9 b10
  decide

/-- The function `memcmp` is zero exactly when the two ranges hold the same
bytes. -/
theorem memcmp_eq_zero_iff (buf : Buffer) (n a b : Nat) :
    memcmp buf a b n = 0 ↔ ∀ i, i < n → buf (a + i) = buf (b + i) := by
  constructor
  · intro h
    by_contra hc
    push_neg at hc
    obtain ⟨i, hi, hne⟩ := hc
    exact memcmp_ne_zero buf n a b ⟨i, hi, hne⟩ h
  · exact memcmp_eq_zero buf n a b

/-- Both the AC and the DC flag are set after `parse_flags` exactly when the
variant has no alternate functions and both option bits are set. -/
theorem parse_flags_ac_and_dc (v : es519xx_variant) (buf : Buffer) :
    ((parse_flags buf v.init).is_ac && (parse_flags buf v.init).is_dc) = true
      ↔ (v ≠ .v2400_11b_altfn ∧ bitSet (buf (if v.size = 14 then 10 else 8)) 2 = true
          ∧ bitSet (buf (if v.size = 14 then 10 else 8)) 3 = true) := by
  obtain ⟨hdc, hac⟩ := parse_flags_ac_dc v buf
  rw [hdc, hac]
  cases v <;> simp [es519xx_variant.size, es519xx_variant.init]

/-- A record with at most one measurement kind has no kind or exactly one of
the ten. -/
theorem kind_count_le_one_cases (info : es519xx_info) (h : kind_count info ≤ 1) :
    (info.is_voltage, info.is_current, info.is_resistance, info.is_frequency,
      info.is_capacitance, info.is_temperature, info.is_continuity, info.is_diode,
      info.is_rpm, info.is_duty_cycle) ∈
    [(false, false, false, false, false, false, false, false, false, false),
      (true, false, false, false, false, false, false, false, false, false),
      (false, true, false, false, false, false, false, false, false, false),
      (false, false, true, false, false, false, false, false, false, false),
      (false, false, false, true, false, false, false, false, false, false),
      (false, false, false, false, true, false, false, false, false, false),
      (false, false, false, false, false, true, false, false, false, false),
      (false, false, false, false, false, false, true, false, false, false),
      (false, false, false, false, false, false, false, true, false, false),
      (false, false, false, false, false, false, false, false, true, false),
      (false, false, false, false, false, false, false, false, false, true)] := by
  revert h
  unfold kind_count
  generalize info.is_voltage = b1
  generalize info.is_current = b2
  generalize info.is_resistance = b3
  generalize info.is_frequency = b4
  generalize info.is_capacitance = b5
  generalize info.is_temperature = b6
  generalize info.is_continuity = b7
  generalize info.is_diode = b8
  generalize info.is_rpm = b9
  generalize info.is_duty_cycle = b10
  revert b1 b2 b3 b4 b5 b6 b7 b8 b9 b10
  decide

/-- A record with at most one measurement kind that has a row in `parse_range`
is no temperature record, and `handle_flags` never writes mq TEMPERATURE for
it. -/
theorem handle_flags_no_temperature (an : sr_datafeed_analog) (x : FloatVal)
    (info : es519xx_info) (mode : Nat) (hk : kind_count info ≤ 1)
    (hm : parse_range_mode info = some mode) :
    info.is_temperature = false ∧ (handle_flags an x info).1.mq ≠ SR_MQ_TEMPERATURE := by
  have hc := kind_count_le_one_cases info hk
  simp only [List.mem_cons, Prod.mk.injEq, List.mem_singleton, List.not_mem_nil, or_false] at hc
  rw [(handle_flags_mq an x info).1]
  unfold handle_flags_modes
  unfold parse_range_mode at hm
  simp only [set_mq_if_mq]
  rcases hc with hc | hc | hc | hc | hc | hc | hc | hc | hc | hc | hc
  all_goals
    obtain ⟨h1, h2, h3, h4, h5, h6, h7, h8, h9, h10⟩ := hc
    simp [h1, h2, h3, h4, h5, h6, h7, h8, h9, h10] at hm ⊢

/-- A temperature record with at most one measurement kind has no row in
`parse_range`. -/
theorem temperature_no_mode (info : es519xx_info) (hk : kind_count info ≤ 1)
    (ht : info.is_temperature = true) : parse_range_mode info = none := by
  cases hm : parse_range_mode info with
  | none => rfl
  | some mode =>
    have := (handle_flags_no_temperature analog0 FloatVal.nan info mode hk hm).1
    rw [ht] at this
    exact absurd this (by decide)

/-- A record without measurement kind has no row in `parse_range`. -/
theorem kind_zero_no_mode (info : es519xx_info) (hk : kind_count info = 0) :
    parse_range_mode info = none := by
  cases hm : parse_range_mode info with
  | none => rfl
  | some mode =>
    have := kind_count_of_mode info mode hm
    omega

/-- A packet whose decoded flags have no row in `parse_range` is rejected, and
the analog record is left as it was. -/
theorem es519xx_parse_no_mode (v : es519xx_variant) (buf : Buffer) (fv : FloatVal)
    (an : sr_datafeed_analog) (info : es519xx_info)
    (hm : parse_range_mode (parse_flags buf v.init) = none) :
    ∃ fv' info', es519xx_parse v buf fv an info = some (SR_ERR, fv', an, info') := by
  have hr : range_decision (buf 0) (parse_flags buf v.init) = some none := by
    unfold range_decision
    simp only [hm]
    split_ifs <;> rfl
  unfold es519xx_parse
  rw [sr_es519xx_parse_eq]
  split_ifs
  · exact ⟨_, _, rfl⟩
  · cases hv : value_decision buf (parse_flags buf v.init) with
    | none => exact ⟨_, _, rfl⟩
    | some x =>
      simp only [hr]
      exact ⟨_, _, rfl⟩

/-- The VAHZ, VASEL and 2400 baud rules leave a record without voltage and
current flag as it is. -/
theorem rules_no_voltage_current (s : es519xx_info) (hv : s.is_voltage = false)
    (hc : s.is_current = false) :
    parse_flags_2400 (parse_flags_vasel (parse_flags_vahz s)) = s := by
  have h1 : parse_flags_vahz s = s := by
    unfold parse_flags_vahz
    rw [hv, hc]
    simp
  have h2 : parse_flags_vasel s = s := by
    unfold parse_flags_vasel
    rw [hc]
    simp
  have h3 : parse_flags_2400 s = s := by
    unfold parse_flags_2400
    rw [hc]
    simp
  rw [h1, h2, h3]

/-- The VAHZ, VASEL and 2400 baud rules leave the four ADP flags alone. -/
theorem adp_rules (s : es519xx_info) :
    (parse_flags_2400 (parse_flags_vasel (parse_flags_vahz s))).is_adp0 = s.is_adp0
      ∧ (parse_flags_2400 (parse_flags_vasel (parse_flags_vahz s))).is_adp1 = s.is_adp1
      ∧ (parse_flags_2400 (parse_flags_vasel (parse_flags_vahz s))).is_adp2 = s.is_adp2
      ∧ (parse_flags_2400 (parse_flags_vasel (parse_flags_vahz s))).is_adp3 = s.is_adp3 := by
  have h1 : ∀ t : es519xx_info, (parse_flags_2400 t).is_adp0 = t.is_adp0
      ∧ (parse_flags_2400 t).is_adp1 = t.is_adp1 ∧ (parse_flags_2400 t).is_adp2 = t.is_adp2
      ∧ (parse_flags_2400 t).is_adp3 = t.is_adp3 := by
    intro t; unfold parse_flags_2400; split_ifs <;> exact ⟨rfl, rfl, rfl, rfl⟩
  have h2 : ∀ t : es519xx_info, (parse_flags_vasel t).is_adp0 = t.is_adp0
      ∧ (parse_flags_vasel t).is_adp1 = t.is_adp1 ∧ (parse_flags_vasel t).is_adp2 = t.is_adp2
      ∧ (parse_flags_vasel t).is_adp3 = t.is_adp3 := by
    intro t; unfold parse_flags_vasel; split_ifs <;> exact ⟨rfl, rfl, rfl, rfl⟩
  have h3 : ∀ t : es519xx_info, (parse_flags_vahz t).is_adp0 = t.is_adp0
      ∧ (parse_flags_vahz t).is_adp1 = t.is_adp1 ∧ (parse_flags_vahz t).is_adp2 = t.is_adp2
      ∧ (parse_flags_vahz t).is_adp3 = t.is_adp3 := by
    intro t; unfold parse_flags_vahz parse_flags_freq; split_ifs <;> exact ⟨rfl, rfl, rfl, rfl⟩
  refine ⟨?_, ?_, ?_, ?_⟩
  · rw [(h1 _).1, (h2 _).1, (h3 _).1]
  · rw [(h1 _).2.1, (h2 _).2.1, (h3 _).2.1]
  · rw [(h1 _).2.2.1, (h2 _).2.2.1, (h3 _).2.2.1]
  · rw [(h1 _).2.2.2, (h2 _).2.2.2, (h3 _).2.2.2]

/-- The record before the function byte switch has no measurement kind and no
ADP flag. -/
theorem options_no_kind (v : es519xx_variant) (buf : Buffer) (st : Nat) :
    kind_count (parse_flags_options buf (parse_flags_status buf st v.init)) = 0
      ∧ (parse_flags_options buf (parse_flags_status buf st v.init)).is_adp0 = false
      ∧ (parse_flags_options buf (parse_flags_status buf st v.init)).is_adp1 = false
      ∧ (parse_flags_options buf (parse_flags_status buf st v.init)).is_adp2 = false
      ∧ (parse_flags_options buf (parse_flags_status buf st v.init)).is_adp3 = false
      ∧ (parse_flags_options buf (parse_flags_status buf st v.init)).alt_functions
          = decide (v = .v2400_11b_altfn) := by
  refine ⟨by rw [kind_count_options, kind_count_status, kind_count_init], ?_⟩
  cases v <;>
    simp [parse_flags_options, parse_flags_option1, parse_flags_status, es519xx_variant.init,
      es519xx_info.zero]

/-- After the function byte switch on a record without kind and ADP flag, a
record with an ADP flag has no measurement kind. -/
theorem adp_function (f : Nat) (s : es519xx_info) (hk : kind_count s = 0)
    (h0 : s.is_adp0 = false) (h1 : s.is_adp1 = false) (h2 : s.is_adp2 = false)
    (h3 : s.is_adp3 = false)
    (h : (parse_flags_function f s).is_adp0 = true ∨ (parse_flags_function f s).is_adp1 = true
      ∨ (parse_flags_function f s).is_adp2 = true ∨ (parse_flags_function f s).is_adp3 = true) :
    kind_count (parse_flags_function f s) = 0 := by
  have hfreq : ∀ t : es519xx_info, (parse_flags_freq t).is_adp0 = t.is_adp0
      ∧ (parse_flags_freq t).is_adp1 = t.is_adp1 ∧ (parse_flags_freq t).is_adp2 = t.is_adp2
      ∧ (parse_flags_freq t).is_adp3 = t.is_adp3 := by
    intro t; unfold parse_flags_freq; split_ifs <;> exact ⟨rfl, rfl, rfl, rfl⟩
  revert h
  unfold parse_flags_function parse_flags_function_alt parse_flags_function_std
  split
  · split <;> first
      | (intro _; exact hk)
      | (intro h; exfalso; simp [h0, h1, h2, h3] at h)
  · split <;> first
      | (intro _; exact hk)
      | (intro h; exfalso; simp [h0, h1, h2, h3] at h; done)
      | (intro h; exfalso; rw [(hfreq _).1, (hfreq _).2.1, (hfreq _).2.2.1, (hfreq _).2.2.2] at h
         simp [h0, h1, h2, h3] at h)
      | (intro h; exfalso; split_ifs at h <;> simp [h0, h1, h2, h3] at h)

/-- A function byte outside the switch of `parse_flags` leaves the record as
it is. -/
theorem unknown_function (f : Nat) (s : es519xx_info)
    (h : if s.alt_functions then f < 0x30 ∨ 0x3f < f
      else f < 0x30 ∨ 0x3f < f ∨ f = 0x37) :
    parse_flags_function f s = s := by
  unfold parse_flags_function parse_flags_function_alt parse_flags_function_std
  split
  · rename_i ha
    rw [if_pos ha] at h
    split <;> first | rfl | (exfalso; omega)
  · rename_i ha
    rw [if_neg ha] at h
    split <;> first | rfl | (exfalso; omega)

/-- Without alternate functions the function byte `0x34` sets the temperature
flag. -/
theorem parse_flags_temperature (v : es519xx_variant) (hv : v ≠ .v2400_11b_altfn)
    (buf : Buffer) (hf : (buf (5 + if v.size = 14 then 1 else 0)).val = 0x34) :
    (parse_flags buf v.init).is_temperature = true := by
  cases v
  case v2400_11b_altfn => exact absurd rfl hv
  all_goals
    simp only [es519xx_variant.size, es519xx_variant.init] at hf ⊢
    simp only [Nat.reduceEqDiff, if_true, if_false, Nat.reduceAdd] at hf ⊢
    cases hj : bitSet (buf 6) 3 <;> cases hk : bitSet (buf 7) 3 <;>
      simp [parse_flags, parse_flags_status, parse_flags_options, parse_flags_option1,
        parse_flags_function, parse_flags_function_std, parse_flags_freq,
        parse_flags_vahz, parse_flags_vasel, parse_flags_2400,
        es519xx_info.zero, hf, hj, hk]

/-- A packet whose decoded flags include an ADP flag has no measurement kind. -/
theorem parse_flags_adp (v : es519xx_variant) (buf : Buffer)
    (h : (parse_flags buf v.init).is_adp0 = true ∨ (parse_flags buf v.init).is_adp1 = true
      ∨ (parse_flags buf v.init).is_adp2 = true ∨ (parse_flags buf v.init).is_adp3 = true) :
    kind_count (parse_flags buf v.init) = 0 := by
  unfold parse_flags at h ⊢
  simp only [] at h ⊢
  obtain ⟨hk, h0, h1, h2, h3, -⟩ :=
    options_no_kind v buf (5 + (if v.init.packet_size = 14 then 1 else 0) + 1)
  generalize parse_flags_options buf
    (parse_flags_status buf (5 + (if v.init.packet_size = 14 then 1 else 0) + 1) v.init) = s2
    at hk h0 h1 h2 h3 h ⊢
  generalize (buf (5 + if v.init.packet_size = 14 then 1 else 0)).val = f at h ⊢
  obtain ⟨a0, a1, a2, a3⟩ := adp_rules (parse_flags_function f s2)
  rw [a0, a1, a2, a3] at h
  have hz := adp_function f s2 hk h0 h1 h2 h3 h
  have hvc : (parse_flags_function f s2).is_voltage = false
      ∧ (parse_flags_function f s2).is_current = false := by
    unfold kind_count at hz
    exact ⟨toNat_zero_false _ (by omega), toNat_zero_false _ (by omega)⟩
  rw [rules_no_voltage_current _ hvc.1 hvc.2]
  exact hz

/-- A packet with a function byte outside the switch of `parse_flags` has no
measurement kind. -/
theorem parse_flags_unknown (v : es519xx_variant) (buf : Buffer)
    (h : if v = .v2400_11b_altfn then
        (buf (5 + if v.size = 14 then 1 else 0)).val < 0x30
          ∨ 0x3f < (buf (5 + if v.size = 14 then 1 else 0)).val
      else (buf (5 + if v.size = 14 then 1 else 0)).val < 0x30
          ∨ 0x3f < (buf (5 + if v.size = 14 then 1 else 0)).val
          ∨ (buf (5 + if v.size = 14 then 1 else 0)).val = 0x37) :
    kind_count (parse_flags buf v.init) = 0 := by
  unfold parse_flags
  simp only []
  obtain ⟨hk, -, -, -, -, halt⟩ :=
    options_no_kind v buf (5 + (if v.init.packet_size = 14 then 1 else 0) + 1)
  generalize parse_flags_options buf
    (parse_flags_status buf (5 + (if v.init.packet_size = 14 then 1 else 0) + 1) v.init) = s2
    at hk halt ⊢
  have hsz : v.init.packet_size = v.size := rfl
  rw [hsz]
  generalize (buf (5 + if v.size = 14 then 1 else 0)).val = f at h ⊢
  have hu : parse_flags_function f s2 = s2 := by
    apply unknown_function
    rw [halt]
    by_cases hv : v = .v2400_11b_altfn
    · simp only [hv, if_true, decide_True] at h ⊢
      exact h
    · simp only [hv, if_false, decide_False, Bool.false_eq_true] at h ⊢
      exact h
  rw [hu]
  have hvc : s2.is_voltage = false ∧ s2.is_current = false := by
    unfold kind_count at hk
    exact ⟨toNat_zero_false _ (by omega), toNat_zero_false _ (by omega)⟩
  rw [rules_no_voltage_current _ hvc.1 hvc.2]
  exact hk

/-! ## Theorems: string utilities -/

/-- The loop over leading white space stops at a character that is none. -/
theorem skip_isspace_append (sp r : List Char) (hsp : ∀ c ∈ sp, isspace c.toNat = true)
    (hr : isspace (peek r) = false) : skip_isspace (sp ++ r) = r := by
  induction sp with
  | nil =>
    cases r with
    | nil => rfl
    | cons c cs =>
      show skip_isspace (c :: cs) = c :: cs
      unfold skip_isspace
      have : isspace c.toNat = false := hr
      rw [this]
      rfl
  | cons c cs ih =>
    show skip_isspace (c :: (cs ++ r)) = r
    unfold skip_isspace
    rw [hsp c (List.mem_cons_self _ _)]
    simp only [if_true]
    exact ih (fun d hd => hsp d (List.mem_cons_of_mem _ hd))

/-- The leading digits of a digit string followed by a string that starts with
no digit. -/
theorem span_digits_append (ds r : List Char) (hds : ∀ c ∈ ds, is_digit_code c.toNat = true)
    (hr : is_digit_code (peek r) = false) : span_digits (ds ++ r) = (ds, r) := by
  induction ds with
  | nil =>
    cases r with
    | nil => rfl
    | cons c cs =>
      show span_digits (c :: cs) = ([], c :: cs)
      unfold span_digits
      have : is_digit_code c.toNat = false := hr
      rw [this]
      rfl
  | cons c cs ih =>
    show span_digits (c :: (cs ++ r)) = (c :: cs, r)
    unfold span_digits
    rw [hds c (List.mem_cons_self _ _)]
    simp only [if_true]
    rw [ih (fun d hd => hds d (List.mem_cons_of_mem _ hd))]

/-- A digit is no white space and no sign. -/
theorem digit_code_facts (c : Nat) (h : is_digit_code c = true) :
    isspace c = false ∧ c ≠ 45 ∧ c ≠ 43 ∧ c ≠ 46 ∧ c ≠ 0 ∧ c ≠ 69 ∧ c ≠ 101 := by
  unfold is_digit_code at h
  unfold isspace
  simp only [Bool.and_eq_true, decide_eq_true_eq] at h
  refine ⟨?_, by omega, by omega, by omega, by omega, by omega, by omega⟩
  simp only [Bool.or_eq_false_iff, Bool.and_eq_false_iff, decide_eq_false_iff_not]
  omega

/-- The loop over leading white space stops at once at a character that is
none. -/
theorem skip_isspace_cons (c : Char) (cs : List Char) (h : isspace c.toNat = false) :
    skip_isspace (c :: cs) = c :: cs := by
  unfold skip_isspace
  rw [h]
  rfl

/-- The function `g_ascii_strtoll` on a non-empty digit string below `2 ^ 63`
and a rest that starts with no digit. -/
theorem g_ascii_strtoll_unsigned (ds r : List Char)
    (hds : ∀ c ∈ ds, is_digit_code c.toNat = true) (hne : ds ≠ [])
    (hr : is_digit_code (peek r) = false) (hlt : digits_value ds < 2 ^ 63) :
    g_ascii_strtoll (ds ++ r) = ((digits_value ds : Int), r, false) := by
  obtain ⟨d, ds', rfl⟩ := List.exists_cons_of_ne_nil hne
  have hd := digit_code_facts d.toNat (hds d (List.mem_cons_self _ _))
  have hspan := span_digits_append (d :: ds') r hds hr
  rw [List.cons_append] at hspan ⊢
  unfold g_ascii_strtoll
  simp only []
  rw [skip_isspace_cons _ _ hd.1]
  have hp : peek (d :: (ds' ++ r)) = d.toNat := rfl
  have e : (if d.toNat = 45 ∨ d.toNat = 43 then (d :: (ds' ++ r)).tail else d :: (ds' ++ r))
      = d :: (ds' ++ r) := if_neg (by simp [hd.2.1, hd.2.2.1])
  simp only [hp, e, hspan]
  rw [if_neg hne, if_neg (by simp [hd.2.1]), if_neg (by omega)]

/-- The function `g_ascii_strtoll` on a sign character, a non-empty digit
string below `2 ^ 63` and a rest that starts with no digit. -/
theorem g_ascii_strtoll_signed (c : Char) (ds r : List Char)
    (hc : c.toNat = 43 ∨ c.toNat = 45)
    (hds : ∀ c ∈ ds, is_digit_code c.toNat = true) (hne : ds ≠ [])
    (hr : is_digit_code (peek r) = false) (hlt : digits_value ds < 2 ^ 63) :
    g_ascii_strtoll (c :: (ds ++ r))
      = ((if c.toNat = 45 then -(digits_value ds : Int) else (digits_value ds : Int)),
          r, false) := by
  have hspan := span_digits_append ds r hds hr
  have hsp : isspace c.toNat = false := by
    rcases hc with h | h <;> rw [h] <;> decide
  unfold g_ascii_strtoll
  simp only []
  rw [skip_isspace_cons _ _ hsp]
  have hp : peek (c :: (ds ++ r)) = c.toNat := rfl
  have ht : (c :: (ds ++ r)).tail = ds ++ r := rfl
  have e : (if c.toNat = 45 ∨ c.toNat = 43 then (c :: (ds ++ r)).tail else c :: (ds ++ r))
      = ds ++ r := by rw [if_pos (by tauto), ht]
  simp only [hp, e, hspan]
  rw [if_neg hne]
  rcases hc with h | h
  · rw [h]
    simp only [Nat.reduceEqDiff, decide_False, Bool.false_eq_true, if_false]
    rw [if_neg (by omega)]
  · rw [h]
    simp only [decide_True, if_true]
    rw [if_neg (by omega)]

/-- The function `g_ascii_strtoll` on a string that starts with no white
space, no sign and no digit: nothing is converted. -/
theorem g_ascii_strtoll_none (r : List Char) (hr : is_digit_code (peek r) = false)
    (h1 : isspace (peek r) = false) (h2 : peek r ≠ 45) (h3 : peek r ≠ 43) :
    g_ascii_strtoll r = (0, r, false) := by
  have hspan := span_digits_append [] r (by simp) hr
  rw [List.nil_append] at hspan
  have hs : skip_isspace r = r := by
    cases r with
    | nil => rfl
    | cons c cs => exact skip_isspace_cons c cs h1
  unfold g_ascii_strtoll
  simp only []
  have e : (if peek r = 45 ∨ peek r = 43 then r.tail else r) = r := if_neg (by tauto)
  simp only [hs, e, hspan, if_true]

/-- The function `g_ascii_strtoll` on a sign character followed by no digit:
nothing is converted. -/
theorem g_ascii_strtoll_sign_none (c : Char) (r : List Char)
    (hc : c.toNat = 43 ∨ c.toNat = 45) (hr : is_digit_code (peek r) = false) :
    g_ascii_strtoll (c :: r) = (0, c :: r, false) := by
  have hspan := span_digits_append [] r (by simp) hr
  rw [List.nil_append] at hspan
  have hsp : isspace c.toNat = false := by
    rcases hc with h | h <;> rw [h] <;> decide
  unfold g_ascii_strtoll
  simp only []
  rw [skip_isspace_cons _ _ hsp]
  have hp : peek (c :: r) = c.toNat := rfl
  have ht : (c :: r).tail = r := rfl
  have e : (if c.toNat = 45 ∨ c.toNat = 43 then (c :: r).tail else c :: r) = r := by
    rw [if_pos (by tauto), ht]
  simp only [hp, e, hspan, if_true]

/-- The loop `x *= 10` yields `x * 10 ^ n` when that product is an `int64_t`. -/
theorem mul10_loop_eq : ∀ (n : Nat) (x : Int),
    -(2 ^ 63 : Int) ≤ x * 10 ^ n → x * 10 ^ n < 2 ^ 63 →
    mul10_loop n x = some (x * 10 ^ n) := by
  intro n
  induction n with
  | zero => intro x _ _; simp [mul10_loop]
  | succ k ih =>
    intro x h1 h2
    have e : x * 10 ^ (k + 1) = x * 10 * 10 ^ k := by ring
    rw [e] at h1 h2
    have hp : (1 : Int) ≤ 10 ^ k := one_le_pow₀ (by norm_num)
    have hb1 : -(2 ^ 63 : Int) ≤ x * 10 := by
      by_contra hc
      push_neg at hc
      have : x * 10 * 10 ^ k ≤ x * 10 * 1 :=
        mul_le_mul_of_nonpos_left hp (by linarith)
      linarith
    have hb2 : x * 10 < 2 ^ 63 := by
      by_contra hc
      push_neg at hc
      have : x * 10 * 1 ≤ x * 10 * 10 ^ k :=
        mul_le_mul_of_nonneg_left hp (by linarith)
      linarith
    unfold mul10_loop
    unfold int64_checked
    rw [if_pos ⟨hb1, hb2⟩]
    simp only []
    rw [ih (x * 10) h1 h2, e]

/-- A value in the range of `int32_t` is left as it is by the conversion. -/
theorem to_int32_eq (x : Int) (h1 : -(2 ^ 31 : Int) ≤ x) (h2 : x < 2 ^ 31) : to_int32 x = x := by
  unfold to_int32
  norm_num at h1 h2 ⊢
  omega

/-- The exponent part of a well-formed decimal number text starts with the
exponent letter or is empty. -/
theorem exp_text_peek (t : decimal_text) (hwf : t.wf) :
    peek t.exp_text = 0 ∨ peek t.exp_text = 69 ∨ peek t.exp_text = 101 := by
  obtain ⟨-, -, -, -, -, -, hexp, -⟩ := hwf
  unfold decimal_text.exp_text
  cases he : t.has_exp with
  | false => left; rfl
  | true =>
    obtain ⟨hc, -⟩ := hexp he
    simp only [if_true]
    rcases hc with h | h <;> rw [h]
    · right; right; rfl
    · right; left; rfl

/-- The fraction and exponent parts of a well-formed decimal number text start
with the point, with the exponent letter, or are empty. -/
theorem rest_peek (t : decimal_text) (hwf : t.wf) :
    peek (t.frac_text ++ t.exp_text) = 46 ∧ t.has_point = true
      ∨ (t.has_point = false ∧ t.frac_text = []
        ∧ (peek (t.frac_text ++ t.exp_text) = 0 ∨ peek (t.frac_text ++ t.exp_text) = 69
          ∨ peek (t.frac_text ++ t.exp_text) = 101)) := by
  have he := exp_text_peek t hwf
  unfold decimal_text.frac_text
  cases hp : t.has_point with
  | true => left; exact ⟨rfl, rfl⟩
  | false =>
    right
    simp only [Bool.false_eq_true, if_false, List.nil_append]
    exact ⟨trivial, trivial, he⟩

/-- Exponent part of `sr_parse_rational` on the exponent part of a well-formed
decimal number text. -/
theorem parse_rational_exponent_text (t : decimal_text) (hwf : t.wf)
    (hX : digits_value t.exp_digits < 2 ^ 31) :
    parse_rational_exponent t.exp_text = some (t.exponent, []) := by
  obtain ⟨-, -, -, -, -, -, hexp, hnoexp⟩ := hwf
  unfold parse_rational_exponent
  cases he : t.has_exp with
  | false =>
    obtain ⟨h1, h2⟩ := hnoexp he
    have e : t.exp_text = [] := by unfold decimal_text.exp_text; rw [he]; rfl
    rw [e]
    have hx : t.exponent = 0 := by
      unfold decimal_text.exponent
      rw [h1, h2]
      rfl
    rw [hx]
    rfl
  | true =>
    obtain ⟨hc, hs, hne, hd⟩ := hexp he
    have e : t.exp_text = t.exp_char :: (t.exp_sign ++ t.exp_digits) := by
      unfold decimal_text.exp_text; rw [he]; rfl
    rw [e]
    have hp : peek (t.exp_char :: (t.exp_sign ++ t.exp_digits)) = 69
        ∨ peek (t.exp_char :: (t.exp_sign ++ t.exp_digits)) = 101 := by
      rcases hc with h | h <;> rw [h]
      · right; rfl
      · left; rfl
    rw [if_pos hp]
    have ht : (t.exp_char :: (t.exp_sign ++ t.exp_digits)).tail = t.exp_sign ++ t.exp_digits :=
      rfl
    have hlt : digits_value t.exp_digits < 2 ^ 63 := lt_trans hX (by norm_num)
    have hx1 : -(2 ^ 31 : Int) ≤ (digits_value t.exp_digits : Int) := by
      have : (0 : Int) ≤ (digits_value t.exp_digits : Int) := Int.natCast_nonneg _
      have h31 : (0 : Int) ≤ 2 ^ 31 := by norm_num
      linarith
    have hx2 : (digits_value t.exp_digits : Int) < 2 ^ 31 := by exact_mod_cast hX
    have hx3 : -(2 ^ 31 : Int) ≤ -(digits_value t.exp_digits : Int) := by linarith
    have hx4 : -(digits_value t.exp_digits : Int) < 2 ^ 31 := by
      have : (0 : Int) ≤ (digits_value t.exp_digits : Int) := Int.natCast_nonneg _
      have h31 : (0 : Int) < 2 ^ 31 := by norm_num
      linarith
    have key : g_ascii_strtoll (t.exp_sign ++ t.exp_digits) = (t.exponent, [], false) := by
      unfold decimal_text.exponent
      rcases hs with h | h | h
      · rw [h]
        have := g_ascii_strtoll_unsigned t.exp_digits [] hd hne (by decide) hlt
        rw [List.append_nil] at this
        rw [List.nil_append, this]
        simp
      · rw [h]
        have := g_ascii_strtoll_signed '+' t.exp_digits [] (Or.inl (by decide)) hd hne
          (by decide) hlt
        rw [List.append_nil] at this
        rw [List.singleton_append, this]
        simp
      · rw [h]
        have := g_ascii_strtoll_signed '-' t.exp_digits [] (Or.inr (by decide)) hd hne
          (by decide) hlt
        rw [List.append_nil] at this
        rw [List.singleton_append, this]
        simp
    simp only [ht, key, Bool.false_eq_true, if_false]
    have hrange : -(2 ^ 31 : Int) ≤ t.exponent ∧ t.exponent < 2 ^ 31 := by
      unfold decimal_text.exponent
      split_ifs
      · exact ⟨hx3, hx4⟩
      · exact ⟨hx1, hx2⟩
    rw [to_int32_eq _ hrange.1 hrange.2]

/-- Fraction part of `sr_parse_rational` on the fraction and exponent parts of
a well-formed decimal number text. -/
theorem parse_rational_fraction_text (t : decimal_text) (hwf : t.wf)
    (hF : t.frac_digits.length < 2 ^ 31) (hlt : digits_value t.frac_digits < 2 ^ 63) :
    parse_rational_fraction (t.frac_text ++ t.exp_text) (decide (t.int_digits = []))
      = some ((digits_value t.frac_digits : Int), (t.frac_digits.length : Int), t.exp_text) := by
  have hpe := exp_text_peek t hwf
  obtain ⟨-, -, -, hfd, hnp, hsome, -, -⟩ := hwf
  have hed : is_digit_code (peek t.exp_text) = false := by
    rcases hpe with h | h | h <;> rw [h] <;> decide
  unfold parse_rational_fraction
  cases hp : t.has_point with
  | false =>
    have e : t.frac_text = [] := by unfold decimal_text.frac_text; rw [hp]; rfl
    have hf := hnp hp
    have h46 : peek t.exp_text ≠ 46 := by
      rcases hpe with h | h | h <;> rw [h] <;> decide
    rw [e, List.nil_append, if_neg h46, hf]
    rfl
  | true =>
    have e : t.frac_text = '.' :: t.frac_digits := by
      unfold decimal_text.frac_text; rw [hp]; rfl
    rw [e, List.cons_append]
    have h46 : peek ('.' :: (t.frac_digits ++ t.exp_text)) = 46 := rfl
    have ht : ('.' :: (t.frac_digits ++ t.exp_text)).tail = t.frac_digits ++ t.exp_text := rfl
    rw [if_pos h46]
    simp only [ht]
    by_cases hne : t.frac_digits = []
    · have hint : t.int_digits ≠ [] := by
        rcases hsome with h | h
        · exact h
        · exact absurd hne h
      have key : g_ascii_strtoll t.exp_text = (0, t.exp_text, false) := by
        apply g_ascii_strtoll_none _ hed
        · rcases hpe with h | h | h <;> rw [h] <;> decide
        · rcases hpe with h | h | h <;> rw [h] <;> decide
        · rcases hpe with h | h | h <;> rw [h] <;> decide
      rw [hne, List.nil_append, key]
      have hexp : (decide (peek t.exp_text = 69) || decide (peek t.exp_text = 101)
          || decide (peek t.exp_text = 0)) = true := by
        rcases hpe with h | h | h <;> rw [h] <;> decide
      simp only [decide_True, Bool.true_and, hexp, if_true, Bool.false_eq_true, if_false,
        hint, decide_False, Bool.false_and, sub_self, List.length_nil, Nat.cast_zero]
      rfl
    · have key := g_ascii_strtoll_unsigned t.frac_digits t.exp_text hfd hne hed hlt
      rw [key]
      have hlen : ¬ (t.exp_text.length = (t.frac_digits ++ t.exp_text).length) := by
        rw [List.length_append]
        have := List.length_pos.mpr hne
        omega
      simp only [hlen, decide_False, Bool.false_and, Bool.false_eq_true, if_false,
        Bool.and_false]
      have hsub : (((t.frac_digits ++ t.exp_text).length : Int) - (t.exp_text.length : Int))
          = (t.frac_digits.length : Int) := by
        rw [List.length_append]
        push_cast
        ring
      rw [hsub, to_int32_eq]
      · have : (0 : Int) ≤ (t.frac_digits.length : Int) := Int.natCast_nonneg _
        have h31 : (0 : Int) ≤ 2 ^ 31 := by norm_num
        linarith
      · exact_mod_cast hF

/-- Integer part of `sr_parse_rational` on a well-formed decimal number text
without its leading white space, and the sign test that follows it. -/
theorem parse_rational_integral_text (t : decimal_text) (hwf : t.wf)
    (hlt : digits_value t.int_digits < 2 ^ 63) :
    parse_rational_integral (t.sign ++ (t.int_digits ++ (t.frac_text ++ t.exp_text)))
        = some ((if t.sign = ['-'] then -(digits_value t.int_digits : Int)
            else (digits_value t.int_digits : Int)),
          t.frac_text ++ t.exp_text, decide (t.int_digits = []))
      ∧ (decide ((if t.sign = ['-'] then -(digits_value t.int_digits : Int)
            else (digits_value t.int_digits : Int)) < 0)
          || decide (peek (t.sign ++ (t.int_digits ++ (t.frac_text ++ t.exp_text))) = 45))
        = decide (t.sign = ['-'])
      ∧ isspace (peek (t.sign ++ (t.int_digits ++ (t.frac_text ++ t.exp_text)))) = false := by
  have hrp := rest_peek t hwf
  obtain ⟨-, hsg, hid, -, hnp, hsome, -, -⟩ := hwf
  generalize hrest : t.frac_text ++ t.exp_text = rest at hrp ⊢
  have hrd : is_digit_code (peek rest) = false := by
    rcases hrp with ⟨h, -⟩ | ⟨-, -, h | h | h⟩ <;> rw [h] <;> decide
  by_cases hne : t.int_digits = []
  · have hpt : peek rest = 46 := by
      rcases hrp with ⟨h, -⟩ | ⟨h, -, -⟩
      · exact h
      · exfalso
        rcases hsome with h' | h'
        · exact h' hne
        · exact h' (hnp h)
    rw [hne, List.nil_append]
    simp only [digits_value, List.foldl_nil, Nat.cast_zero, neg_zero, ite_self, lt_self_iff_false,
      decide_False, Bool.false_or, decide_True]
    unfold parse_rational_integral
    rcases hsg with h | h | h
    · rw [h, List.nil_append]
      have key : g_ascii_strtoll rest = (0, rest, false) :=
        g_ascii_strtoll_none rest hrd (by rw [hpt]; decide) (by rw [hpt]; decide)
          (by rw [hpt]; decide)
      simp only [key, hpt]
      simp
      decide
    · rw [h, List.singleton_append]
      have key : g_ascii_strtoll ('+' :: rest) = (0, '+' :: rest, false) :=
        g_ascii_strtoll_sign_none '+' rest (Or.inl (by decide)) hrd
      have hp : peek ('+' :: rest) = 43 := rfl
      have ht : ('+' :: rest).tail = rest := rfl
      simp only [key, hp, ht, hpt]
      simp
      decide
    · rw [h, List.singleton_append]
      have key : g_ascii_strtoll ('-' :: rest) = (0, '-' :: rest, false) :=
        g_ascii_strtoll_sign_none '-' rest (Or.inr (by decide)) hrd
      have hp : peek ('-' :: rest) = 45 := rfl
      have ht : ('-' :: rest).tail = rest := rfl
      simp only [key, hp, ht, hpt]
      simp
      decide
  · obtain ⟨d, ds', hd⟩ := List.exists_cons_of_ne_nil hne
    have hdf := digit_code_facts d.toNat (hid d (by rw [hd]; exact List.mem_cons_self _ _))
    have hpos : 0 < t.int_digits.length := List.length_pos.mpr hne
    have hnn : (0 : Int) ≤ (digits_value t.int_digits : Int) := Int.natCast_nonneg _
    unfold parse_rational_integral
    rcases hsg with h | h | h
    · rw [h, List.nil_append]
      have key := g_ascii_strtoll_unsigned t.int_digits rest hid hne hrd hlt
      have hlen : ¬ (rest.length = (t.int_digits ++ rest).length) := by
        rw [List.length_append]; omega
      have hp : peek (t.int_digits ++ rest) = d.toNat := by rw [hd]; rfl
      simp only [key, hlen, false_and, if_false, Bool.false_eq_true, hp, hne, decide_False]
      refine ⟨by simp, ?_, hdf.1⟩
      simp [hdf.2.1]
    · rw [h, List.singleton_append]
      have key := g_ascii_strtoll_signed '+' t.int_digits rest (Or.inl (by decide)) hid hne
        hrd hlt
      have hlen : ¬ (rest.length = ('+' :: (t.int_digits ++ rest)).length) := by
        rw [List.length_cons, List.length_append]; omega
      have hp : peek ('+' :: (t.int_digits ++ rest)) = 43 := rfl
      simp only [key, hlen, false_and, if_false, Bool.false_eq_true, hp, hne, decide_False]
      refine ⟨by simp, ?_, by decide⟩
      simp
    · rw [h, List.singleton_append]
      have key := g_ascii_strtoll_signed '-' t.int_digits rest (Or.inr (by decide)) hid hne
        hrd hlt
      have hlen : ¬ (rest.length = ('-' :: (t.int_digits ++ rest)).length) := by
        rw [List.length_cons, List.length_append]; omega
      have hp : peek ('-' :: (t.int_digits ++ rest)) = 45 := rfl
      simp only [key, hlen, false_and, if_false, Bool.false_eq_true, hp, hne, decide_False]
      refine ⟨by simp, ?_, by decide⟩
      simp

/-- A value in the range of `int64_t` passes the overflow check. -/
theorem int64_checked_eq (x : Int) (h1 : -(2 ^ 63 : Int) ≤ x) (h2 : x < 2 ^ 63) :
    int64_checked x = some x := by
  unfold int64_checked
  rw [if_pos ⟨h1, h2⟩]

/-- Arithmetic at the end of `sr_parse_rational` without overflow: the sign
`s`, the integer digits `d`, the fraction digits `f` of length `l` and the
exponent `x` give `s * (d * 10 ^ l + f) * 10 ^ max(0, x - l)` over
`10 ^ max(0, l - x)`. -/
theorem parse_rational_result_eq (neg : Bool) (d f l : Nat) (x : Int)
    (hx1 : -(2 ^ 31 : Int) ≤ x - l) (hx2 : x - l < 2 ^ 31)
    (hp : (d * 10 ^ l + f) * 10 ^ (x - l).toNat < 2 ^ 63)
    (hq : 10 ^ ((l : Int) - x).toNat < 2 ^ 63) :
    parse_rational_result (if neg then -(d : Int) else (d : Int)) (f : Int) (l : Int) x neg
      = some ((if neg then -(((d * 10 ^ l + f) * 10 ^ (x - l).toNat : Nat) : Int)
            else (((d * 10 ^ l + f) * 10 ^ (x - l).toNat : Nat) : Int)),
          ((10 ^ ((l : Int) - x).toNat : Nat) : Int)) := by
  have hk : 1 ≤ 10 ^ (x - l).toNat := Nat.one_le_pow _ _ (by norm_num)
  have ha : d * 10 ^ l + f < 2 ^ 63 :=
    lt_of_le_of_lt (Nat.le_mul_of_pos_right _ hk) hp
  have hd : d * 10 ^ l < 2 ^ 63 := lt_of_le_of_lt (Nat.le_add_right _ _) ha
  have haZ : (((d * 10 ^ l + f : Nat) : Int)) < 2 ^ 63 := by exact_mod_cast ha
  have hdZ : (((d * 10 ^ l : Nat) : Int)) < 2 ^ 63 := by exact_mod_cast hd
  have hpZ : ((((d * 10 ^ l + f) * 10 ^ (x - l).toNat : Nat) : Int)) < 2 ^ 63 := by
    exact_mod_cast hp
  have hqZ : (((10 ^ ((l : Int) - x).toNat : Nat) : Int)) < 2 ^ 63 := by exact_mod_cast hq
  have h0a : (0 : Int) ≤ ((d * 10 ^ l + f : Nat) : Int) := Int.natCast_nonneg _
  have h0d : (0 : Int) ≤ ((d * 10 ^ l : Nat) : Int) := Int.natCast_nonneg _
  have h0p : (0 : Int) ≤ (((d * 10 ^ l + f) * 10 ^ (x - l).toNat : Nat) : Int) :=
    Int.natCast_nonneg _
  have h0q : (0 : Int) ≤ ((10 ^ ((l : Int) - x).toNat : Nat) : Int) := Int.natCast_nonneg _
  have h63 : (0 : Int) < 2 ^ 63 := by norm_num
  unfold parse_rational_result
  have hl : ((l : Int)).toNat = l := Int.toNat_natCast l
  have hneg : (-(x - (l : Int))).toNat = ((l : Int) - x).toNat := by
    congr 1
    ring
  cases neg with
  | false =>
    simp only [Bool.false_eq_true, if_false, hl, Bool.not_false, if_true]
    rw [mul10_loop_eq l (d : Int) (by push_cast at h0d; linarith) (by push_cast at hdZ; exact hdZ)]
    simp only []
    rw [if_neg (by push_neg; exact ⟨hx1, hx2⟩)]
    have e1 : (d : Int) * 10 ^ l + (f : Int) = ((d * 10 ^ l + f : Nat) : Int) := by push_cast; ring
    rw [e1]
    rw [int64_checked_eq _ (by linarith) haZ]
    simp only []
    have e2 : ((d * 10 ^ l + f : Nat) : Int) * 10 ^ (x - l).toNat
        = (((d * 10 ^ l + f) * 10 ^ (x - l).toNat : Nat) : Int) := by push_cast; ring
    rw [mul10_loop_eq _ _ (by rw [e2]; linarith) (by rw [e2]; exact hpZ), e2]
    simp only []
    have e3 : (1 : Int) * 10 ^ ((l : Int) - x).toNat
        = ((10 ^ ((l : Int) - x).toNat : Nat) : Int) := by push_cast; ring
    rw [hneg, mul10_loop_eq _ _ (by rw [e3]; linarith) (by rw [e3]; exact hqZ), e3]
  | true =>
    simp only [if_true, hl, Bool.not_true, Bool.false_eq_true, if_false]
    rw [mul10_loop_eq l (-(d : Int)) (by push_cast at hdZ; linarith)
      (by push_cast at h0d; linarith)]
    simp only []
    rw [if_neg (by push_neg; exact ⟨hx1, hx2⟩)]
    have e1 : -(d : Int) * 10 ^ l - (f : Int) = -((d * 10 ^ l + f : Nat) : Int) := by
      push_cast; ring
    rw [e1]
    rw [int64_checked_eq _ (by linarith) (by linarith)]
    simp only []
    have e2 : -((d * 10 ^ l + f : Nat) : Int) * 10 ^ (x - l).toNat
        = -(((d * 10 ^ l + f) * 10 ^ (x - l).toNat : Nat) : Int) := by push_cast; ring
    rw [mul10_loop_eq _ _ (by rw [e2]; linarith) (by rw [e2]; linarith), e2]
    simp only []
    have e3 : (1 : Int) * 10 ^ ((l : Int) - x).toNat
        = ((10 ^ ((l : Int) - x).toNat : Nat) : Int) := by push_cast; ring
    rw [hneg, mul10_loop_eq _ _ (by rw [e3]; linarith) (by rw [e3]; exact hqZ), e3]

/-- The fraction `p / q` the claim gives is the decimal value of the text. -/
theorem decimal_text_value (t : decimal_text) : (t.p : ℚ) / (t.q : ℚ) = t.value := by
  unfold decimal_text.p decimal_text.q decimal_text.value decimal_text.magnitude
  generalize digits_value t.int_digits = d
  generalize digits_value t.frac_digits = f
  generalize t.frac_digits.length = l
  generalize t.exponent = x
  have h10 : (10 : ℚ) ≠ 0 := by norm_num
  have hl : (10 : ℚ) ^ l ≠ 0 := pow_ne_zero _ h10
  have key : (((d * 10 ^ l + f) * 10 ^ (x - l).toNat : Nat) : ℚ)
      / ((10 ^ ((l : Int) - x).toNat : Nat) : ℚ)
      = ((d : ℚ) + (f : ℚ) / (10 : ℚ) ^ l) * (10 : ℚ) ^ x := by
    push_cast
    have hx : (10 : ℚ) ^ x = (10 : ℚ) ^ (x - l) * (10 : ℚ) ^ l := by
      rw [← zpow_natCast (10 : ℚ) l, ← zpow_add₀ h10]
      congr 1
      ring
    rw [hx]
    rcases le_total (l : Int) x with h | h
    · have h1 : ((l : Int) - x).toNat = 0 := Int.toNat_eq_zero.mpr (by linarith)
      have h2 : (10 : ℚ) ^ (x - l) = (10 : ℚ) ^ (x - l).toNat := by
        rw [← zpow_natCast, Int.toNat_of_nonneg (by linarith)]
      rw [h1, h2, pow_zero, div_one]
      field_simp
      ring
    · have h1 : (x - (l : Int)).toNat = 0 := Int.toNat_eq_zero.mpr (by linarith)
      have h2 : (10 : ℚ) ^ (x - l) = ((10 : ℚ) ^ ((l : Int) - x).toNat)⁻¹ := by
        rw [← zpow_natCast, Int.toNat_of_nonneg (by linarith), ← zpow_neg]
        congr 1
        ring
      rw [h1, h2, pow_zero, mul_one]
      field_simp
  split_ifs
  · push_cast at key ⊢
    rw [neg_div, key]
    ring
  · push_cast at key ⊢
    rw [key]
    ring

/-- A value below `2 ^ k` has at most `k` binary digits. -/
theorem bit_length_le : ∀ (fuel k x : Nat), x < 2 ^ k → bit_length fuel x ≤ k := by
  intro fuel
  induction fuel with
  | zero => intro k x _; exact Nat.zero_le _
  | succ f ih =>
    intro k x hx
    unfold bit_length
    split_ifs with h0
    · exact Nat.zero_le _
    · cases k with
      | zero => simp at hx; exact absurd hx h0
      | succ k' =>
        have : x / 2 < 2 ^ k' := by
          rw [Nat.div_lt_iff_lt_mul (by norm_num)]
          rw [pow_succ] at hx
          exact hx
        have := ih k' (x / 2) this
        omega

/-- A `uint64_t` below `2 ^ 53` is the same value as a `double`. -/
theorem double_of_u64_small (x : Nat) (h : x < 2 ^ 53) : double_of_u64 x = x := by
  unfold double_of_u64
  simp only []
  rw [if_pos (bit_length_le 64 53 x h)]

/-- The function `strtoull` on a non-empty digit string below `2 ^ 64` and a
rest that starts with no digit. -/
theorem strtoull_digits (ds r : List Char)
    (hds : ∀ c ∈ ds, is_digit_code c.toNat = true) (hne : ds ≠ [])
    (hr : is_digit_code (peek r) = false) (hlt : digits_value ds < 2 ^ 64) :
    strtoull (ds ++ r) = (digits_value ds, r) := by
  obtain ⟨d, ds', rfl⟩ := List.exists_cons_of_ne_nil hne
  have hd := digit_code_facts d.toNat (hds d (List.mem_cons_self _ _))
  have hspan := span_digits_append (d :: ds') r hds hr
  rw [List.cons_append] at hspan ⊢
  unfold strtoull
  simp only []
  rw [skip_isspace_cons _ _ hd.1]
  have hp : peek (d :: (ds' ++ r)) = d.toNat := rfl
  have e : (if d.toNat = 45 ∨ d.toNat = 43 then (d :: (ds' ++ r)).tail else d :: (ds' ++ r))
      = d :: (ds' ++ r) := if_neg (by simp [hd.2.1, hd.2.2.1])
  simp only [hp, e, hspan]
  rw [if_neg hne, if_neg (by omega), if_neg (by simp [hd.2.1])]

/-- The loop of `sr_parse_sizestring` on spaces followed by a suffix letter
`k`, `m` or `g`: it ends after the letter with the factor of the letter. -/
theorem sizestring_loop_suffix (c : Char) (hz : List Char) (frac : Option (List Char))
    (hc : c.toNat = 107 ∨ c.toNat = 75 ∨ c.toNat = 109 ∨ c.toNat = 77 ∨ c.toNat = 103
      ∨ c.toNat = 71) :
    ∀ (sp : List Char) (fuel : Nat), (∀ x ∈ sp, x.toNat = 32) → sp.length < fuel →
      sizestring_loop fuel (sp ++ c :: hz) frac = some (hz, suffix_factor c, frac) := by
  intro sp
  induction sp with
  | nil =>
    intro fuel _ hf
    obtain ⟨f, rfl⟩ : ∃ f, fuel = f + 1 := ⟨fuel - 1, by simp at hf; omega⟩
    rw [List.nil_append]
    unfold sizestring_loop suffix_factor SR_KHZ SR_MHZ SR_GHZ
    rcases hc with h | h | h | h | h | h <;> simp [h]
  | cons x xs ih =>
    intro fuel hsp hf
    obtain ⟨f, rfl⟩ : ∃ f, fuel = f + 1 := ⟨fuel - 1, by simp at hf; omega⟩
    rw [List.cons_append]
    unfold sizestring_loop
    simp only []
    rw [if_pos (hsp x (List.mem_cons_self _ _))]
    exact ih f (fun y hy => hsp y (List.mem_cons_of_mem _ hy)) (by simp at hf; omega)

/-- The loop of `sr_parse_sizestring` on spaces followed by nothing or by
`Hz`: it ends there without multiplier. -/
theorem sizestring_loop_plain (hz : List Char) (frac : Option (List Char))
    (hhz : hz = [] ∨ is_hz hz = true) :
    ∀ (sp : List Char) (fuel : Nat), (∀ x ∈ sp, x.toNat = 32) → sp.length < fuel →
      sizestring_loop fuel (sp ++ hz) frac = some (hz, 0, frac) := by
  intro sp
  induction sp with
  | nil =>
    intro fuel _ hf
    obtain ⟨f, rfl⟩ : ∃ f, fuel = f + 1 := ⟨fuel - 1, by simp at hf; omega⟩
    rw [List.nil_append]
    rcases hhz with h | h
    · rw [h]; rfl
    · match hz, h with
      | [a, b], h =>
        unfold is_hz at h
        simp only [Bool.and_eq_true, Bool.or_eq_true, decide_eq_true_eq] at h
        unfold sizestring_loop
        rcases h.1 with h1 | h1 <;> simp [h1]
  | cons x xs ih =>
    intro fuel hsp hf
    obtain ⟨f, rfl⟩ : ∃ f, fuel = f + 1 := ⟨fuel - 1, by simp at hf; omega⟩
    rw [List.cons_append]
    unfold sizestring_loop
    simp only []
    rw [if_pos (hsp x (List.mem_cons_self _ _))]
    exact ih f (fun y hy => hsp y (List.mem_cons_of_mem _ hy)) (by simp at hf; omega)

/-- The function `sr_parse_sizestring` on a decimal number, spaces, a suffix
letter `k`, `m` or `g` and an optional `Hz`: when the product is below
`2 ^ 64` it returns `SR_OK` and stores the product as the conversion to
`double` and back leaves it, which is the product itself below `2 ^ 53`. -/
theorem sr_parse_sizestring_suffix (ds sp hz : List Char) (c : Char)
    (hds : ∀ x ∈ ds, is_digit_code x.toNat = true) (hne : ds ≠ [])
    (hsp : ∀ x ∈ sp, x.toNat = 32)
    (hc : c.toNat = 107 ∨ c.toNat = 75 ∨ c.toNat = 109 ∨ c.toNat = 77 ∨ c.toNat = 103
      ∨ c.toNat = 71)
    (hhz : hz = [] ∨ is_hz hz = true)
    (hlt : digits_value ds * suffix_factor c < 2 ^ 64) :
    sr_parse_sizestring (ds ++ (sp ++ c :: hz))
        = (u64_of_double (double_of_u64 (digits_value ds * suffix_factor c))).map
          (fun v => (SR_OK, size_value.exact v))
      ∧ (digits_value ds * suffix_factor c < 2 ^ 53 →
        sr_parse_sizestring (ds ++ (sp ++ c :: hz))
          = some (SR_OK, size_value.exact (digits_value ds * suffix_factor c))) := by
  have hf1 : 1 ≤ suffix_factor c := by
    unfold suffix_factor
    split_ifs <;> norm_num
  have hn : digits_value ds < 2 ^ 64 := lt_of_le_of_lt (Nat.le_mul_of_pos_right _ hf1) hlt
  have hrest : is_digit_code (peek (sp ++ c :: hz)) = false := by
    cases sp with
    | nil =>
      show is_digit_code c.toNat = false
      rcases hc with h | h | h | h | h | h <;> rw [h] <;> decide
    | cons x xs =>
      show is_digit_code x.toNat = false
      rw [hsp x (List.mem_cons_self _ _)]
      decide
  have hloop := sizestring_loop_suffix c hz none hc sp ((sp ++ c :: hz).length + 1) hsp
    (by rw [List.length_append]; omega)
  have hret : (if peek hz ≠ 0 ∧ is_hz hz = false then SR_ERR else SR_OK) = SR_OK := by
    rcases hhz with h | h
    · rw [h]; rfl
    · rw [h]; simp
  have key : sr_parse_sizestring (ds ++ (sp ++ c :: hz))
      = (u64_of_double (double_of_u64 (digits_value ds * suffix_factor c))).map
        (fun v => (SR_OK, size_value.exact v)) := by
    unfold sr_parse_sizestring
    simp only []
    rw [strtoull_digits ds _ hds hne hrest hn]
    simp only []
    rw [hloop]
    simp only []
    rw [if_pos (by omega), Nat.mod_eq_of_lt hlt, hret]
    cases u64_of_double (double_of_u64 (digits_value ds * suffix_factor c)) <;> rfl
  refine ⟨key, fun h53 => ?_⟩
  rw [key, double_of_u64_small _ h53]
  unfold u64_of_double
  rw [if_pos hlt]
  rfl

/-- The function `sr_parse_sizestring` on a decimal number, spaces and an
optional `Hz`, without suffix letter: it returns `SR_OK` and stores the number
as the conversion to `double` and back leaves it, which is the number itself
below `2 ^ 53`. -/
theorem sr_parse_sizestring_plain (ds sp hz : List Char)
    (hds : ∀ x ∈ ds, is_digit_code x.toNat = true) (hne : ds ≠ [])
    (hsp : ∀ x ∈ sp, x.toNat = 32)
    (hhz : hz = [] ∨ is_hz hz = true)
    (hlt : digits_value ds < 2 ^ 64) :
    sr_parse_sizestring (ds ++ (sp ++ hz))
        = (u64_of_double (double_of_u64 (digits_value ds))).map
          (fun v => (SR_OK, size_value.exact v))
      ∧ (digits_value ds < 2 ^ 53 →
        sr_parse_sizestring (ds ++ (sp ++ hz))
          = some (SR_OK, size_value.exact (digits_value ds))) := by
  have hrest : is_digit_code (peek (sp ++ hz)) = false := by
    cases sp with
    | nil =>
      rw [List.nil_append]
      rcases hhz with h | h
      · rw [h]; rfl
      · match hz, h with
        | [a, b], h =>
          unfold is_hz at h
          simp only [Bool.and_eq_true, Bool.or_eq_true, decide_eq_true_eq] at h
          show is_digit_code a.toNat = false
          rcases h.1 with h1 | h1 <;> rw [h1] <;> decide
    | cons x xs =>
      show is_digit_code x.toNat = false
      rw [hsp x (List.mem_cons_self _ _)]
      decide
  have hloop := sizestring_loop_plain hz none hhz sp ((sp ++ hz).length + 1) hsp
    (by rw [List.length_append]; omega)
  have hret : (if peek hz ≠ 0 ∧ is_hz hz = false then SR_ERR else SR_OK) = SR_OK := by
    rcases hhz with h | h
    · rw [h]; rfl
    · rw [h]; simp
  have key : sr_parse_sizestring (ds ++ (sp ++ hz))
      = (u64_of_double (double_of_u64 (digits_value ds))).map
        (fun v => (SR_OK, size_value.exact v)) := by
    unfold sr_parse_sizestring
    simp only []
    rw [strtoull_digits ds _ hds hne hrest hlt]
    simp only []
    rw [hloop]
    simp only []
    rw [if_neg (by omega), hret]
    cases u64_of_double (double_of_u64 (digits_value ds)) <;> rfl
  refine ⟨key, fun h53 => ?_⟩
  rw [key, double_of_u64_small _ h53]
  unfold u64_of_double
  rw [if_pos hlt]
  rfl

/-- The digit characters are no point, and only the digit 0 gives the
character `0`. -/
theorem digit_char_facts (d : Nat) :
    digit_char d ≠ '.' ∧ (d ≠ 0 → d < 10 → digit_char d ≠ '0') := by
  unfold digit_char
  refine ⟨?_, ?_⟩
  · split <;> decide
  · intro h0 h10
    interval_cases d
    · exact absurd rfl h0
    all_goals decide

/-- The characters `utoa_loop` puts in front of `acc` are digit characters. -/
theorem utoa_loop_chars : ∀ (fuel n : Nat) (acc : List Char),
    (∀ c ∈ acc, c ≠ '.') → ∀ c ∈ utoa_loop fuel n acc, c ≠ '.' := by
  intro fuel
  induction fuel with
  | zero => intro n acc h; exact h
  | succ f ih =>
    intro n acc h
    unfold utoa_loop
    have hcons : ∀ c ∈ digit_char (n % 10) :: acc, c ≠ '.' := by
      intro c hc
      rcases List.mem_cons.mp hc with rfl | hc
      · exact (digit_char_facts _).1
      · exact h c hc
    split_ifs
    · exact hcons
    · exact ih _ _ hcons

/-- A number below `10 ^ k` is printed with at most `k` digits. -/
theorem utoa_loop_length : ∀ (fuel k n : Nat) (acc : List Char), 1 ≤ k → n < 10 ^ k →
    (utoa_loop fuel n acc).length ≤ k + acc.length := by
  intro fuel
  induction fuel with
  | zero => intro k n acc _ _; show acc.length ≤ _; omega
  | succ f ih =>
    intro k n acc hk hn
    unfold utoa_loop
    split_ifs with h0
    · rw [List.length_cons]; omega
    · cases k with
      | zero => omega
      | succ k' =>
        have hk' : 1 ≤ k' := by
          by_contra hc
          have : k' = 0 := by omega
          subst this
          apply h0
          simp at hn
          omega
        have hdiv : n / 10 < 10 ^ k' := by
          rw [Nat.div_lt_iff_lt_mul (by norm_num)]
          rw [pow_succ] at hn
          exact hn
        have := ih k' (n / 10) (digit_char (n % 10) :: acc) hk' hdiv
        rw [List.length_cons] at this
        omega

/-- A number that is not 0 is printed with a digit other than `0`. -/
theorem utoa_loop_nonzero : ∀ (fuel n : Nat) (acc : List Char), n ≠ 0 → n < 10 ^ fuel →
    ∃ c ∈ utoa_loop fuel n acc, c ≠ '0' := by
  intro fuel
  induction fuel with
  | zero => intro n acc h0 hn; simp at hn; exact absurd hn h0
  | succ f ih =>
    intro n acc h0 hn
    unfold utoa_loop
    split_ifs with hd
    · refine ⟨digit_char (n % 10), List.mem_cons_self _ _, ?_⟩
      have : n % 10 ≠ 0 := by omega
      exact (digit_char_facts _).2 this (Nat.mod_lt _ (by norm_num))
    · have hdiv : n / 10 < 10 ^ f := by
        rw [Nat.div_lt_iff_lt_mul (by norm_num)]
        rw [pow_succ] at hn
        exact hn
      exact ih (n / 10) _ hd hdiv

/-- Cutting from the end by a test that agrees with another test on a front
part which has a character failing it: the rest stays. -/
theorem dropWhile_append_agree (p q : Char → Bool) (t : List Char) :
    ∀ m : List Char, (∀ c ∈ m, p c = q c) → (∃ c ∈ m, q c = false) →
      (m ++ t).dropWhile p = m.dropWhile q ++ t := by
  intro m
  induction m with
  | nil => intro _ ⟨c, hc, _⟩; exact absurd hc (List.not_mem_nil _)
  | cons a as ih =>
    intro hpq hex
    have ha := hpq a (List.mem_cons_self _ _)
    rw [List.cons_append]
    cases hq : q a with
    | false =>
      rw [List.dropWhile_cons_of_neg (by rw [ha, hq]; decide),
        List.dropWhile_cons_of_neg (by rw [hq]; decide), List.cons_append]
    | true =>
      rw [List.dropWhile_cons_of_pos (by rw [ha, hq]), List.dropWhile_cons_of_pos hq]
      apply ih (fun c hc => hpq c (List.mem_cons_of_mem _ hc))
      obtain ⟨c, hc, hqc⟩ := hex
      rcases List.mem_cons.mp hc with rfl | hc
      · rw [hq] at hqc; exact absurd hqc (by decide)
      · exact ⟨c, hc, hqc⟩

/-- The stripping loop of `sr_si_string_u64` on a point followed by digits
with a digit other than `0`: the point stays and the trailing zeros go. -/
theorem si_strip_digits (l : List Char) (hl : ∀ c ∈ l, c ≠ '.') (hex : ∃ c ∈ l, c ≠ '0') :
    si_strip ('.' :: l) = '.' :: strip_trailing_zeros l := by
  unfold si_strip strip_trailing_zeros
  rw [List.reverse_cons]
  rw [dropWhile_append_agree (fun c => decide (c = '0') || decide (c = '.'))
    (fun c => decide (c = '0')) ['.'] l.reverse]
  · rw [List.reverse_append]
    rfl
  · intro c hc
    have := hl c (List.mem_reverse.mp hc)
    simp [this]
  · obtain ⟨c, hc, h0⟩ := hex
    exact ⟨c, List.mem_reverse.mpr hc, by simp [h0]⟩

/-- The stripping loop of `sr_si_string_u64` on a point followed by zeros
leaves nothing. -/
theorem si_strip_zeros (l : List Char) (hl : ∀ c ∈ l, c = '0') : si_strip ('.' :: l) = [] := by
  unfold si_strip
  rw [List.reverse_eq_nil_iff, List.dropWhile_eq_nil_iff]
  intro c hc
  rw [List.mem_reverse] at hc
  rcases List.mem_cons.mp hc with rfl | hc
  · decide
  · rw [hl c hc]; decide

/-- The text `fract` of `sr_si_string_u64` for an index up to 6 and a
remainder below `1000 ^ i`: it fits the buffer, is empty for the remainder 0
and else the point with the padded remainder without its trailing zeros. -/
theorem si_fract_eq (i r : Nat) (hi : i ≤ 6) (hr : r < 1000 ^ i) :
    si_fract i r = some (if r = 0 then []
      else '.' :: strip_trailing_zeros (format_u64_padded (3 * i) r)) := by
  unfold si_fract
  by_cases h0 : i = 0
  · subst h0
    have : r = 0 := by simpa using hr
    simp [this]
  · rw [if_pos h0]
    have h3 : i * 3 = 3 * i := Nat.mul_comm _ _
    rw [h3]
    have h1000 : (1000 : Nat) ^ i = 10 ^ (3 * i) := by
      rw [pow_mul]
      norm_num
    have hlen : (format_u64 r).length ≤ 3 * i := by
      have := utoa_loop_length 20 (3 * i) r [] (by omega) (by rw [← h1000]; exact hr)
      simpa using this
    have hplen : (format_u64_padded (3 * i) r).length = 3 * i := by
      unfold format_u64_padded
      rw [List.length_append, List.length_replicate]
      omega
    rw [if_neg (by rw [List.length_cons, hplen]; omega)]
    have hchars : ∀ c ∈ format_u64_padded (3 * i) r, c ≠ '.' := by
      intro c hc
      unfold format_u64_padded at hc
      rcases List.mem_append.mp hc with hc | hc
      · rw [(List.mem_replicate.mp hc).2]; decide
      · exact utoa_loop_chars 20 r [] (fun _ h => absurd h (List.not_mem_nil _)) c hc
    by_cases hr0 : r = 0
    · rw [if_pos hr0, hr0]
      congr 1
      apply si_strip_zeros
      intro c hc
      unfold format_u64_padded at hc
      rcases List.mem_append.mp hc with hc | hc
      · exact (List.mem_replicate.mp hc).2
      · have : format_u64 0 = ['0'] := rfl
        rw [this] at hc
        exact List.mem_singleton.mp hc
    · rw [if_neg hr0]
      congr 1
      apply si_strip_digits _ hchars
      have hlt : r < 10 ^ 20 :=
        lt_of_lt_of_le hr (by
          calc (1000 : Nat) ^ i ≤ 1000 ^ 6 := Nat.pow_le_pow_right (by norm_num) hi
            _ ≤ 10 ^ 20 := by norm_num)
      obtain ⟨c, hc, hc0⟩ := utoa_loop_nonzero 20 r [] hr0 hlt
      exact ⟨c, by unfold format_u64_padded; exact List.mem_append_right _ hc, hc0⟩

/-- The conversion `%.1s` of `prefix + i` gives the prefix letter, for an index
up to 6. -/
theorem si_prefix_text_eq (i : Nat) (hi : i ≤ 6) :
    si_prefix_text i = some (si_prefix_letter i) := by
  interval_cases i <;> rfl

/-- The entries of `divisor` are the powers of 1000. -/
theorem si_divisor_eq (i : Nat) (hi : i ≤ 6) : si_divisor.get? i = some (1000 ^ i) := by
  interval_cases i <;> rfl

/-- The index loop of `sr_si_string_u64` from an index whose predecessors have
a quotient of 1000 or more: it ends at the least index with a quotient below
1000, which is 6 at most for a `uint64_t`. -/
theorem si_index_loop_from (x : Nat) (hx : x < 2 ^ 64) :
    ∀ (fuel i : Nat), i + fuel = 8 → i ≤ 7 → (∀ j, j < i → 1000 ≤ x / 1000 ^ j) →
      ∃ k, k ≤ 6 ∧ si_index_loop x fuel i = some (k, x / 1000 ^ k) ∧ x / 1000 ^ k < 1000
        ∧ ∀ j, j < k → 1000 ≤ x / 1000 ^ j := by
  intro fuel
  induction fuel with
  | zero => intro i h8 h7 _; omega
  | succ f ih =>
    intro i h8 h7 hprev
    have hi6 : i ≤ 6 := by
      by_contra hc
      have h7' : i = 7 := by omega
      have := hprev 6 (by omega)
      norm_num at this hx
      omega
    unfold si_index_loop
    rw [si_divisor_eq i hi6]
    simp only []
    by_cases hq : x / 1000 ^ i ≥ 1000
    · rw [if_pos hq]
      apply ih (i + 1) (by omega) (by omega)
      intro j hj
      rcases Nat.lt_succ_iff_lt_or_eq.mp hj with h | h
      · exact hprev j h
      · rw [h]; exact hq
    · rw [if_neg hq]
      exact ⟨i, hi6, rfl, by omega, hprev⟩

/-! ## Theorems: single-precision values -/

/-- Zero has no binary digit. -/
theorem bit_length_zero (fuel : Nat) : bit_length fuel 0 = 0 := by
  cases fuel <;> simp [bit_length]

/-- A value below `2 ^ fuel` is below two to the number of its binary digits. -/
theorem bit_length_lt : ∀ (fuel x : Nat), x < 2 ^ fuel → x < 2 ^ bit_length fuel x := by
  intro fuel
  induction fuel with
  | zero =>
    intro x h
    simp only [bit_length]
    exact h
  | succ n ih =>
    intro x h
    unfold bit_length
    by_cases hx : x = 0
    · rw [if_pos hx, hx]
      exact Nat.one_pos
    · rw [if_neg hx]
      have h2 : x / 2 < 2 ^ n := by
        rw [pow_succ] at h
        omega
      have := ih (x / 2) h2
      rw [pow_add, pow_one]
      omega

/-- A positive value is at least two to the number of its binary digits less
one. -/
theorem bit_length_ge : ∀ (fuel x : Nat), x ≠ 0 → 2 ^ (bit_length fuel x - 1) ≤ x := by
  intro fuel
  induction fuel with
  | zero =>
    intro x h
    simp only [bit_length]
    simp
    omega
  | succ n ih =>
    intro x h
    unfold bit_length
    rw [if_neg h]
    simp only [Nat.add_sub_cancel_left]
    by_cases hx : x / 2 = 0
    · rw [hx, bit_length_zero]
      simp
      omega
    · have := ih (x / 2) hx
      by_cases hb : bit_length n (x / 2) = 0
      · rw [hb]
        simp
        omega
      · obtain ⟨c, hc⟩ : ∃ c, bit_length n (x / 2) = c + 1 := ⟨_, (Nat.succ_pred_eq_of_ne_zero hb).symm⟩
        rw [hc] at this ⊢
        simp only [Nat.add_sub_cancel] at this
        rw [pow_succ]
        omega

/-- Rounding leaves an integer below `2 ^ 24` as it is: the conversion
`(float)intval` is exact for such integers. -/
theorem binary32_round_exact (s : Bool) (a : Nat) (h : a < 2 ^ 24) :
    (binary32.round s a 1).toRat = some ((if s then -1 else 1) * (a : ℚ)) := by
  unfold binary32.round
  by_cases ha : a = 0
  · rw [if_pos ha, ha]
    simp [binary32.toRat]
  · rw [if_neg ha]
    have hb1 := bit_length_lt a a (Nat.lt_two_pow a)
    have hb2 := bit_length_ge a a ha
    have hb3 := bit_length_le a 24 a h
    have hb0 : 1 ≤ bit_length a a := by
      by_contra hc
      have h0 : bit_length a a = 0 := by omega
      rw [h0] at hb1
      omega
    have he : binary_exponent a 1 = (bit_length a a : Int) - 1 := by
      unfold binary_exponent
      have h1 : bit_length 1 1 = 1 := by decide
      have ht : ((bit_length a a : Int) - 1).toNat = bit_length a a - 1 := by omega
      have ht2 : (-((bit_length a a : Int) - 1)).toNat = 0 := by omega
      simp only [h1, Nat.cast_one, ht, ht2]
      rw [if_pos (by simpa using hb2)]
    have hk : max ((bit_length a a : Int) - 1 - 23) (-149) = (bit_length a a : Int) - 24 := by
      omega
    have hk1 : (-((bit_length a a : Int) - 24)).toNat = 24 - bit_length a a := by omega
    have hk2 : ((bit_length a a : Int) - 24).toNat = 0 := by omega
    have hr : round_half_even (a * 2 ^ (24 - bit_length a a)) (1 * 2 ^ 0)
        = a * 2 ^ (24 - bit_length a a) := by
      unfold round_half_even
      simp [Nat.mod_one]
    have hp : 2 ^ (24 - bit_length a a) ≤ 2 ^ 24 :=
      Nat.pow_le_pow_right (by norm_num) (Nat.sub_le _ _)
    have hlt : a * 2 ^ (24 - bit_length a a) < 2 ^ 24 * 2 ^ 24 :=
      Nat.mul_lt_mul_of_lt_of_le h hp (by positivity)
    simp only [he, hk, hk1, hk2, hr]
    rw [if_neg (by norm_num at hlt ⊢; omega)]
    unfold binary32.toRat
    push_cast
    have h2 : (2 : ℚ) ^ (24 - bit_length a a) * (2 : ℚ) ^ ((bit_length a a : Int) - 24) = 1 := by
      rw [← zpow_natCast, ← zpow_add₀ (by norm_num)]
      have : ((24 - bit_length a a : Nat) : Int) + ((bit_length a a : Int) - 24) = 0 := by omega
      rw [this]
      simp
    rw [mul_assoc, mul_assoc, h2, mul_one]

/-- The conversion `(float)intval` is exact for an integer below `2 ^ 24` in
magnitude. -/
theorem binary32_ofInt_exact (i : Int) (h : i.natAbs < 2 ^ 24) :
    (binary32.ofInt i).toRat = some (i : ℚ) := by
  unfold binary32.ofInt
  rw [binary32_round_exact _ _ h]
  congr 1
  by_cases hi : i < 0
  · rw [decide_eq_true hi, if_pos rfl, Nat.cast_natAbs, Int.cast_abs,
      abs_of_neg (by exact_mod_cast hi)]
    ring
  · rw [decide_eq_false hi, Nat.cast_natAbs, Int.cast_abs,
      abs_of_nonneg (by exact_mod_cast (not_lt.mp hi))]
    simp

/-- A natural number times a power of two is no fraction `a / b` whose
denominator is divisible by five and whose numerator is not. -/
theorem dyadic_ne_of_five (n : Nat) (k : Int) (a b : Nat) (hb : 0 < b) (h5b : 5 ∣ b)
    (h5a : ¬ 5 ∣ a) : (n : ℚ) * (2 : ℚ) ^ k ≠ (a : ℚ) / (b : ℚ) := by
  intro h
  have hb0 : (b : ℚ) ≠ 0 := Nat.cast_ne_zero.mpr hb.ne'
  rw [eq_div_iff hb0] at h
  cases k with
  | ofNat j =>
    have h2 : n * 2 ^ j * b = a := by
      have : ((n * 2 ^ j * b : Nat) : ℚ) = (a : ℚ) := by
        push_cast
        simpa using h
      exact_mod_cast this
    exact h5a (h2 ▸ Dvd.dvd.mul_left h5b _)
  | negSucc j =>
    have h2 : n * b = a * 2 ^ (j + 1) := by
      have : ((n * b : Nat) : ℚ) = ((a * 2 ^ (j + 1) : Nat) : ℚ) := by
        push_cast
        rw [zpow_negSucc] at h
        have hp : ((2 : ℚ) ^ (j + 1)) ≠ 0 := by positivity
        field_simp at h
        linarith
      exact_mod_cast this
    have hd : 5 ∣ a * 2 ^ (j + 1) := h2 ▸ Dvd.dvd.mul_left h5b _
    rcases (Nat.Prime.dvd_mul (by norm_num : Nat.Prime 5)).1 hd with h1 | h1
    · exact h5a h1
    · have := Nat.Prime.dvd_of_dvd_pow (by norm_num : Nat.Prime 5) h1
      omega

/-- No `float` holds a positive fraction `a / b` whose denominator is divisible
by five and whose numerator is not. -/
theorem binary32_ne_of_five (x : binary32) (a b : Nat) (ha : 0 < a) (hb : 0 < b)
    (h5b : 5 ∣ b) (h5a : ¬ 5 ∣ a) : x.toRat ≠ some ((a : ℚ) / (b : ℚ)) := by
  have hpos : (0 : ℚ) < (a : ℚ) / (b : ℚ) := by positivity
  cases x with
  | fin s n k =>
    unfold binary32.toRat
    intro h
    rw [Option.some.injEq] at h
    cases s with
    | false =>
      simp only [Bool.false_eq_true, if_false, one_mul] at h
      exact dyadic_ne_of_five n k a b hb h5b h5a h
    | true =>
      simp only [if_true] at h
      have hn : (0 : ℚ) ≤ (n : ℚ) * (2 : ℚ) ^ k := by positivity
      rw [← h] at hpos
      nlinarith
  | inf s => simp [binary32.toRat]
  | nan => simp [binary32.toRat]

/-- Negation commutes with rounding. -/
theorem binary32_round_neg (s : Bool) (a b : Nat) :
    (binary32.round s a b).neg = binary32.round (!s) a b := by
  unfold binary32.round
  simp only []
  split_ifs <;> rfl

/-- Negating the left factor negates the product. -/
theorem binary32_neg_mul (x y : binary32) : x.neg.mul y = (x.mul y).neg := by
  cases x with
  | fin s1 n1 k1 =>
    cases y with
    | fin s2 n2 k2 =>
      show binary32.round (xor (!s1) s2) _ _ = (binary32.round (xor s1 s2) _ _).neg
      rw [binary32_round_neg]
      cases s1 <;> cases s2 <;> rfl
    | inf s2 =>
      show (if n1 = 0 then binary32.nan else binary32.inf (xor (!s1) s2))
        = (if n1 = 0 then binary32.nan else binary32.inf (xor s1 s2)).neg
      split_ifs <;> cases s1 <;> cases s2 <;> rfl
    | nan => rfl
  | inf s1 =>
    cases y with
    | fin s2 n2 k2 =>
      show (if n2 = 0 then binary32.nan else binary32.inf (xor (!s1) s2))
        = (if n2 = 0 then binary32.nan else binary32.inf (xor s1 s2)).neg
      split_ifs <;> cases s1 <;> cases s2 <;> rfl
    | inf s2 => cases s1 <;> cases s2 <;> rfl
    | nan => rfl
  | nan => cases y <;> rfl

/-- The `float` of a converted integer scaled once by a power of ten is the
product of `(float)i` and `powf(10, e)`. -/
theorem float32_ofInt_scale (i e : Int) :
    ((FloatVal.ofInt i).scale e).float32 = (binary32.ofInt i).mul (powf10 e) := by
  unfold FloatVal.ofInt FloatVal.scale FloatVal.float32 binary32.ofInt
  simp only [zero_add]

/-- The `float` of a symbolic value with magnitude `m`: the product of
`(float)m` and `powf(10, e)`, negated when the sign is set. -/
theorem float32_num (s : Bool) (m : Nat) (e : Int) :
    (FloatVal.num s m e).float32
      = if s then ((binary32.ofInt m).mul (powf10 e)).neg
        else (binary32.ofInt m).mul (powf10 e) := by
  have h0 : binary32.ofInt (m : Int) = binary32.round false m 1 := by
    unfold binary32.ofInt
    rw [decide_eq_false (Int.not_lt.mpr (Int.ofNat_nonneg m))]
    simp
  cases s with
  | false => simp [FloatVal.float32, h0]
  | true =>
    simp only [if_true, FloatVal.float32, h0]
    rw [← binary32_neg_mul, binary32_round_neg]
    rfl

/-- The signed magnitude of an ES519XX packet is below `2 ^ 24` in absolute
value, whatever the value bytes. -/
theorem es519xx_magnitude_bound (v : es519xx_variant) (buf : Buffer) (digit4 s : Bool) :
    ((if s then -1 else 1) * es519xx_magnitude v buf digit4).natAbs < 2 ^ 24 := by
  have h1 := (buf 1).isLt
  have h2 := (buf 2).isLt
  have h3 := (buf 3).isLt
  have h4 := (buf 4).isLt
  have h5 := (buf 5).isLt
  unfold es519xx_magnitude
  cases s <;> cases digit4 <;> simp only [Bool.false_eq_true, if_false, if_true] <;>
    split_ifs <;> omega

/-- The result of `round_half_even` is a nearest integer: it differs from
`num / den` by at most one half, and at exactly one half it is even. -/
theorem round_half_even_nearest (num den : Nat) (h : 0 < den) :
    2 * num ≤ 2 * (round_half_even num den * den) + den
      ∧ 2 * (round_half_even num den * den) ≤ 2 * num + den
      ∧ (2 * (num % den) = den → round_half_even num den % 2 = 0) := by
  have hd := Nat.div_add_mod num den
  have hm := Nat.mod_lt num h
  unfold round_half_even
  simp only []
  generalize num / den = q at hd ⊢
  generalize num % den = r at hd hm ⊢
  have hq : q * den = den * q := Nat.mul_comm _ _
  split_ifs with hc
  · have e : (q + 1) * den = den * q + den := by ring
    rw [e]
    refine ⟨by omega, by omega, ?_⟩
    intro ht
    rcases hc with hc | hc
    · omega
    · omega
  · rw [hq]
    refine ⟨by omega, by omega, ?_⟩
    intro ht
    have : ¬ (q % 2 = 1) := fun hq1 => hc (Or.inr ⟨ht, hq1⟩)
    omega

/-- A positive value has at least one binary digit. -/
theorem bit_length_pos (x : Nat) (h : 0 < x) : 1 ≤ bit_length x x := by
  have h1 := bit_length_lt x x (Nat.lt_two_pow x)
  by_contra hc
  have h0 : bit_length x x = 0 := by omega
  rw [h0] at h1
  omega

/-- The exponent `binary_exponent a b` brackets the quotient:
`2 ^ e ≤ a / b < 2 ^ (e + 1)`. -/
theorem binary_exponent_spec (a b : Nat) (ha : 0 < a) (hb : 0 < b) :
    (2 : ℚ) ^ binary_exponent a b ≤ (a : ℚ) / (b : ℚ)
      ∧ (a : ℚ) / (b : ℚ) < (2 : ℚ) ^ (binary_exponent a b + 1) := by
  have ha1 := bit_length_lt a a (Nat.lt_two_pow a)
  have ha2 := bit_length_ge a a ha.ne'
  have hb1 := bit_length_lt b b (Nat.lt_two_pow b)
  have hb2 := bit_length_ge b b hb.ne'
  have hla := bit_length_pos a ha
  have hlb := bit_length_pos b hb
  have qa1 : (a : ℚ) < (2 : ℚ) ^ (bit_length a a : Int) := by
    rw [zpow_natCast]
    exact_mod_cast ha1
  have qa2 : (2 : ℚ) ^ ((bit_length a a : Int) - 1) ≤ (a : ℚ) := by
    have e : ((bit_length a a : Int) - 1) = ((bit_length a a - 1 : Nat) : Int) := by omega
    rw [e, zpow_natCast]
    exact_mod_cast ha2
  have qb1 : (b : ℚ) < (2 : ℚ) ^ (bit_length b b : Int) := by
    rw [zpow_natCast]
    exact_mod_cast hb1
  have qb2 : (2 : ℚ) ^ ((bit_length b b : Int) - 1) ≤ (b : ℚ) := by
    have e : ((bit_length b b : Int) - 1) = ((bit_length b b - 1 : Nat) : Int) := by omega
    rw [e, zpow_natCast]
    exact_mod_cast hb2
  have hbq : (0 : ℚ) < (b : ℚ) := by exact_mod_cast hb
  have h2 : (2 : ℚ) ≠ 0 := by norm_num
  unfold binary_exponent
  simp only []
  generalize he0 : (bit_length a a : Int) - (bit_length b b : Int) = e0
  have hz : (2 : ℚ) ^ e0 * (2 : ℚ) ^ ((-e0).toNat) = (2 : ℚ) ^ (e0.toNat) := by
    rw [← zpow_natCast, ← zpow_natCast, ← zpow_add₀ h2]
    congr 1
    omega
  split_ifs with hc
  · constructor
    · rw [le_div_iff₀ hbq]
      have hcq : (b : ℚ) * (2 : ℚ) ^ (e0.toNat) ≤ (a : ℚ) * (2 : ℚ) ^ ((-e0).toNat) := by
        exact_mod_cast hc
      have hp : (0 : ℚ) < (2 : ℚ) ^ ((-e0).toNat) := by positivity
      rw [← hz] at hcq
      have : (2 : ℚ) ^ e0 * (b : ℚ) * (2 : ℚ) ^ ((-e0).toNat)
          ≤ (a : ℚ) * (2 : ℚ) ^ ((-e0).toNat) := by linarith
      exact le_of_mul_le_mul_right this hp
    · rw [div_lt_iff₀ hbq]
      have e : (2 : ℚ) ^ (e0 + 1) * (2 : ℚ) ^ ((bit_length b b : Int) - 1)
          = (2 : ℚ) ^ (bit_length a a : Int) := by
        rw [← zpow_add₀ h2]
        congr 1
        omega
      calc (a : ℚ) < (2 : ℚ) ^ (bit_length a a : Int) := qa1
        _ = (2 : ℚ) ^ (e0 + 1) * (2 : ℚ) ^ ((bit_length b b : Int) - 1) := e.symm
        _ ≤ (2 : ℚ) ^ (e0 + 1) * (b : ℚ) := mul_le_mul_of_nonneg_left qb2 (by positivity)
  · constructor
    · rw [le_div_iff₀ hbq]
      have e : (2 : ℚ) ^ (e0 - 1) * (2 : ℚ) ^ (bit_length b b : Int)
          = (2 : ℚ) ^ ((bit_length a a : Int) - 1) := by
        rw [← zpow_add₀ h2]
        congr 1
        omega
      calc (2 : ℚ) ^ (e0 - 1) * (b : ℚ)
          ≤ (2 : ℚ) ^ (e0 - 1) * (2 : ℚ) ^ (bit_length b b : Int) :=
            mul_le_mul_of_nonneg_left qb1.le (by positivity)
        _ = (2 : ℚ) ^ ((bit_length a a : Int) - 1) := e
        _ ≤ (a : ℚ) := qa2
    · rw [div_lt_iff₀ hbq, sub_add_cancel]
      have hcq : (a : ℚ) * (2 : ℚ) ^ ((-e0).toNat) < (b : ℚ) * (2 : ℚ) ^ (e0.toNat) := by
        exact_mod_cast not_le.mp hc
      have hp : (0 : ℚ) < (2 : ℚ) ^ ((-e0).toNat) := by positivity
      rw [← hz] at hcq
      have : (a : ℚ) * (2 : ℚ) ^ ((-e0).toNat)
          < (2 : ℚ) ^ e0 * (b : ℚ) * (2 : ℚ) ^ ((-e0).toNat) := by linarith
      exact lt_of_mul_lt_mul_right this hp.le

/-- Rounding gives infinity or a nearest multiple of the unit in the last
place: the result `n * 2 ^ k`, with `k` the larger of the binary exponent of
`a / b` less 23 and -149, differs from `a / b` by at most `2 ^ k / 2`. -/
theorem binary32_round_nearest (s : Bool) (a b : Nat) (ha : 0 < a) (hb : 0 < b) :
    binary32.round s a b = binary32.inf s
      ∨ ∃ n : Nat, binary32.round s a b
            = binary32.fin s n (max (binary_exponent a b - 23) (-149))
          ∧ |(n : ℚ) * (2 : ℚ) ^ (max (binary_exponent a b - 23) (-149)) - (a : ℚ) / (b : ℚ)|
              ≤ (2 : ℚ) ^ (max (binary_exponent a b - 23) (-149)) / 2 := by
  unfold binary32.round
  rw [if_neg ha.ne']
  simp only []
  generalize max (binary_exponent a b - 23) (-149) = k
  split_ifs with ho
  · left
    rfl
  · right
    refine ⟨_, rfl, ?_⟩
    obtain ⟨h1, h2, -⟩ :=
      round_half_even_nearest (a * 2 ^ (-k).toNat) (b * 2 ^ k.toNat) (by positivity)
    generalize round_half_even (a * 2 ^ (-k).toNat) (b * 2 ^ k.toNat) = n at h1 h2
    have h20 : (2 : ℚ) ≠ 0 := by norm_num
    have hz : (2 : ℚ) ^ k * (2 : ℚ) ^ ((-k).toNat) = (2 : ℚ) ^ (k.toNat) := by
      rw [← zpow_natCast, ← zpow_natCast, ← zpow_add₀ h20]
      congr 1
      omega
    have q1 : 2 * ((a : ℚ) * (2 : ℚ) ^ ((-k).toNat))
        ≤ 2 * ((n : ℚ) * ((b : ℚ) * (2 : ℚ) ^ (k.toNat))) + (b : ℚ) * (2 : ℚ) ^ (k.toNat) := by
      exact_mod_cast h1
    have q2 : 2 * ((n : ℚ) * ((b : ℚ) * (2 : ℚ) ^ (k.toNat)))
        ≤ 2 * ((a : ℚ) * (2 : ℚ) ^ ((-k).toNat)) + (b : ℚ) * (2 : ℚ) ^ (k.toNat) := by
      exact_mod_cast h2
    generalize (2 : ℚ) ^ (k.toNat) = Q at hz q1 q2
    have hP : (0 : ℚ) < (2 : ℚ) ^ ((-k).toNat) := by positivity
    generalize (2 : ℚ) ^ ((-k).toNat) = P at hz q1 q2 hP
    have hb' : (0 : ℚ) < (b : ℚ) := by exact_mod_cast hb
    have hk : (2 : ℚ) ^ k = Q / P := by
      rw [eq_div_iff hP.ne']
      exact hz
    have hPb : (0 : ℚ) < P * (b : ℚ) := by positivity
    have e1 : (n : ℚ) * (Q / P) - (a : ℚ) / (b : ℚ)
        = ((n : ℚ) * ((b : ℚ) * Q) - (a : ℚ) * P) / (P * (b : ℚ)) := by
      field_simp
      ring
    have e2 : Q / P / 2 = ((b : ℚ) * Q / 2) / (P * (b : ℚ)) := by
      field_simp
      ring
    rw [hk, e1, e2, abs_le]
    constructor
    · rw [← neg_div]
      apply div_le_div_of_nonneg_right _ hPb.le
      linarith
    · apply div_le_div_of_nonneg_right _ hPb.le
      linarith

/-! ## Claims -/

/-- C1: for every entry point and every buffer, on the record `parse_flags`
decodes from the zeroed and configured `info` (the only records `flags_valid`
is called with), `flags_valid` returns FALSE exactly when two or more of the
ten measurement-kind flags are set, or both `is_micro` and `is_milli`, or both
`is_ac` and `is_dc`; and on any record whatever it returns FALSE when both
multipliers, both AC and DC, or two of the nine kinds it counts are set. -/
theorem flags_valid_decoded (v : es519xx_variant) (buf : Buffer) :
    (flags_valid (parse_flags buf v.init) = false
        ↔ (2 ≤ kind_count (parse_flags buf v.init)
          ∨ ((parse_flags buf v.init).is_micro = true
            ∧ (parse_flags buf v.init).is_milli = true)
          ∨ ((parse_flags buf v.init).is_ac = true ∧ (parse_flags buf v.init).is_dc = true)))
      ∧ ∀ info : es519xx_info,
          ((info.is_micro = true ∧ info.is_milli = true)
            ∨ (info.is_ac = true ∧ info.is_dc = true)
            ∨ 2 ≤ kind_count info - info.is_duty_cycle.toNat) →
          flags_valid info = false := by
  refine ⟨?_, fun info h => flags_valid_rejects info h⟩
  have hk := kind_count_parse_flags buf v.init (kind_count_init v)
  have hm := multiplier_parse_flags v buf
  have hv := flags_valid_ac_dc (parse_flags buf v.init) hm (by omega)
  rw [hv]
  constructor
  · intro h
    right
    right
    revert h
    cases (parse_flags buf v.init).is_ac <;> cases (parse_flags buf v.init).is_dc <;> simp
  · rintro (h | ⟨h1, h2⟩ | ⟨h1, h2⟩)
    · omega
    · rw [h1, h2] at hm
      simp at hm
    · rw [h1, h2]
      rfl

/-- C1 (witness): the packet `pkt_volt_ac_dc` decodes to a record with both
`is_ac` and `is_dc`; `flags_valid` returns FALSE and the packet is rejected. -/
theorem flags_valid_decoded_witness :
    ((parse_flags pkt_volt_ac_dc es519xx_variant.v19200_11b.init).is_ac = true
        ∧ (parse_flags pkt_volt_ac_dc es519xx_variant.v19200_11b.init).is_dc = true)
      ∧ flags_valid (parse_flags pkt_volt_ac_dc es519xx_variant.v19200_11b.init) = false
      ∧ es519xx_packet_valid .v19200_11b pkt_volt_ac_dc = false :=
  ⟨⟨by decide, by decide⟩,
    (flags_valid_decoded .v19200_11b pkt_volt_ac_dc).1.mpr
      (Or.inr (Or.inr ⟨by decide, by decide⟩)),
    by decide⟩

/-- C2: for every entry point and every buffer, when the parse returns SR_OK
exactly one of the ten measurement-kind flags is set in the decoded flags. -/
theorem es519xx_parse_ok_one_kind (v : es519xx_variant) (buf : Buffer) (fv : FloatVal)
    (an : sr_datafeed_analog) (info : es519xx_info) (fv' : FloatVal)
    (an' : sr_datafeed_analog) (info' : es519xx_info)
    (h : es519xx_parse v buf fv an info = some (SR_OK, fv', an', info')) :
    kind_count info' = 1 := by
  unfold es519xx_parse at h
  rw [sr_es519xx_parse_eq] at h
  have hle := kind_count_parse_flags buf v.init (kind_count_init v)
  split_ifs at h with hpv
  · simp [SR_ERR_ne_OK] at h
  · cases hv : value_decision buf (parse_flags buf v.init) with
    | none => rw [hv] at h; simp [SR_ERR_ne_OK] at h
    | some x =>
      rw [hv] at h
      simp only [] at h
      rcases hr : range_decision (buf 0) (parse_flags buf v.init) with _ | _ | e
      · rw [hr] at h; simp at h
      · rw [hr] at h; simp [SR_ERR_ne_OK] at h
      · rw [hr] at h
        simp only [Option.some.injEq, Prod.mk.injEq, true_and] at h
        obtain ⟨mode, hm⟩ := range_decision_mode _ _ _ hr
        have hge := kind_count_of_mode _ _ hm
        rw [← h.2.2]
        show kind_count (parse_flags buf v.init) = 1
        omega

/-- C2 (witness): the 19200 baud voltage packet is accepted and leaves exactly
one measurement-kind flag. -/
theorem es519xx_parse_ok_one_kind_witness :
    es519xx_parse .v19200_11b pkt_volt_dc FloatVal.nan analog0 es519xx_info.zero
        = some (SR_OK, FloatVal.num false 50 (-3),
            { mq := SR_MQ_VOLTAGE, unit := SR_UNIT_VOLT, mqflags := SR_MQFLAG_DC,
              digits := 3, spec_digits := 3 }, info_volt_dc)
      ∧ kind_count info_volt_dc = 1 :=
  have h : es519xx_parse .v19200_11b pkt_volt_dc FloatVal.nan analog0 es519xx_info.zero
      = some (SR_OK, FloatVal.num false 50 (-3),
          { mq := SR_MQ_VOLTAGE, unit := SR_UNIT_VOLT, mqflags := SR_MQFLAG_DC,
            digits := 3, spec_digits := 3 }, info_volt_dc) := by decide
  ⟨h, es519xx_parse_ok_one_kind _ _ _ _ _ _ _ _ h⟩

/-- C3 (evaluation at the failing input): the 19200 baud diode packet with the
AC bit is accepted into a record with empty mqflags, and the mqflags written
hold SR_MQFLAG_AC and SR_MQFLAG_DC together (next to SR_MQFLAG_DIODE). -/
theorem es519xx_diode_ac_dc :
    (es519xx_parse .v19200_11b pkt_diode_ac FloatVal.nan analog0 es519xx_info.zero).map
        (fun r => (r.1, r.2.2.1.mqflags))
      = some (SR_OK, SR_MQFLAG_AC ||| SR_MQFLAG_DC ||| SR_MQFLAG_DIODE) := by
  decide

/-- C4 (counterexample): for a packet with valid index nibbles whose byte 1 has
both the DC bit and the AC bit, the mqflags written by `sr_brymen_bm25x_parse`
are exactly SR_MQFLAG_AC and SR_MQFLAG_DC together. -/
theorem bm25x_ac_dc_both :
    (sr_brymen_bm25x_parse pkt_bm_ac_dc FloatVal.nan analog0).2.2.mqflags
        = SR_MQFLAG_AC ||| SR_MQFLAG_DC
      ∧ sr_brymen_bm25x_packet_valid pkt_bm_ac_dc = true := by decide

/-- C4 (amended): for every buffer, the mqflags written by
`sr_brymen_bm25x_parse` contain both SR_MQFLAG_AC and SR_MQFLAG_DC exactly when
the packet itself has both the AC bit (`buf[1] & 2`) and the DC bit
(`buf[1] & 4`) set; the diode rule never adds DC next to AC. -/
theorem bm25x_parse_ac_dc (buf : Buffer) (fv : FloatVal) (an : sr_datafeed_analog) :
    ((sr_brymen_bm25x_parse buf fv an).2.2.mqflags &&& SR_MQFLAG_AC ≠ 0
        ∧ (sr_brymen_bm25x_parse buf fv an).2.2.mqflags &&& SR_MQFLAG_DC ≠ 0)
      ↔ (maskSet (buf 1) 2 = true ∧ maskSet (buf 1) 4 = true) := by
  rw [bm25x_parse_mqflags]
  unfold bm25x_mqflags or_if
  generalize maskSet (buf 14) 4 = b14
  generalize maskSet (buf 1) 8 = c8
  generalize maskSet (buf 1) 4 = c4
  generalize maskSet (buf 1) 2 = c2
  generalize maskSet (buf 1) 1 = c1
  generalize maskSet (buf 11) 8 = c11
  generalize maskSet (buf 13) 8 = c13
  generalize maskSet (buf 14) 8 = c14
  revert b14 c8 c4 c2 c1 c11 c13 c14
  decide

/-- C5 (counterexample): the same accepted packet parsed into a record with
empty mqflags and into a record that already holds SR_MQFLAG_HOLD gives two
different outcomes. -/
theorem es519xx_outcome_depends_on_prior_mqflags :
    (es519xx_parse .v19200_11b pkt_volt_dc FloatVal.nan analog0 es519xx_info.zero).map
        es519xx_outcome
      ≠ (es519xx_parse .v19200_11b pkt_volt_dc FloatVal.nan
          { analog0 with mqflags := SR_MQFLAG_HOLD } es519xx_info.zero).map es519xx_outcome := by
  decide

/-- C5 (amended): for every entry point the return code depends on the buffer
and the variant alone, whatever the prior contents of the info struct, of the
value and of the analog record; and when the packet is accepted the value, mq,
unit and digits depend on the buffer and the variant alone, while the mqflags
are the prior mqflags with the bits `es519xx_mqflags v buf` added. -/
theorem es519xx_parse_prior (v : es519xx_variant) (buf : Buffer) (fv1 fv2 : FloatVal)
    (an1 an2 : sr_datafeed_analog) (i1 i2 : es519xx_info) :
    (es519xx_parse v buf fv1 an1 i1).map (fun r => r.1)
        = (es519xx_parse v buf fv2 an2 i2).map (fun r => r.1)
      ∧ ∀ r1 r2, es519xx_parse v buf fv1 an1 i1 = some r1 →
          es519xx_parse v buf fv2 an2 i2 = some r2 → r1.1 = SR_OK →
          r1.2.1 = r2.2.1 ∧ r1.2.2.1.mq = r2.2.2.1.mq ∧ r1.2.2.1.unit = r2.2.2.1.unit
            ∧ r1.2.2.1.digits = r2.2.2.1.digits
            ∧ r1.2.2.1.spec_digits = r2.2.2.1.spec_digits
            ∧ r1.2.2.1.mqflags = an1.mqflags ||| es519xx_mqflags v buf
            ∧ r2.2.2.1.mqflags = an2.mqflags ||| es519xx_mqflags v buf := by
  unfold es519xx_parse
  rcases hv : es519xx_verdict buf v.init with _ | _ | ⟨x, e⟩
  · rw [sr_es519xx_parse_undefined _ _ _ _ hv, sr_es519xx_parse_undefined _ _ _ _ hv]
    exact ⟨rfl, fun r1 r2 h1 => by simp at h1⟩
  · rw [sr_es519xx_parse_rejected _ _ _ _ hv, sr_es519xx_parse_rejected _ _ _ _ hv]
    refine ⟨rfl, ?_⟩
    intro r1 r2 h1 _ hok
    simp only [Option.some.injEq] at h1
    rw [← h1] at hok
    exact absurd hok SR_ERR_ne_OK
  · obtain ⟨mode, hm⟩ := es519xx_verdict_mode _ _ _ _ hv
    rw [sr_es519xx_parse_accepted _ _ _ _ _ _ hv, sr_es519xx_parse_accepted _ _ _ _ _ _ hv]
    refine ⟨rfl, ?_⟩
    intro r1 r2 h1 h2 _
    simp only [Option.some.injEq] at h1 h2
    have hm' : parse_range_mode { parse_flags buf v.init with digits := -e } = some mode := hm
    have k1 := handle_flags_prior { an1 with digits := -e, spec_digits := -e }
      { an2 with digits := -e, spec_digits := -e } (x.scale e) _ mode hm'
    have k2 := handle_flags_prior { an2 with digits := -e, spec_digits := -e }
      { an1 with digits := -e, spec_digits := -e } (x.scale e) _ mode hm'
    rw [← h1, ← h2]
    refine ⟨k1.1, k1.2.1, k1.2.2.1, ?_, ?_, k1.2.2.2.2.2, k2.2.2.2.2.2⟩
    · exact k1.2.2.2.1.trans k2.2.2.2.1.symm
    · exact k1.2.2.2.2.1.trans k2.2.2.2.2.1.symm

/-- C6 (counterexample): the temperature packet is rejected (SR_ERR) by the
19200 baud 11-byte entry point, and `*floatval`, which held not-a-number
before the call, holds the reading 25 afterwards. -/
theorem es519xx_rejected_value_written :
    (es519xx_parse .v19200_11b pkt_temperature FloatVal.nan analog0 es519xx_info.zero).map
        (fun r => (r.1, r.2.1))
      = some (SR_ERR, FloatVal.num false 25 0) := by
  decide

/-- C6 (amended): whenever an entry point returns an error, the return code is
SR_ERR and the analog record is exactly as before the call; `*floatval` is as
before the call unless the packet passed `sr_es519xx_packet_valid` and
`parse_value`, in which case it holds the unscaled value stored by
`parse_value` (`es519xx_rejected_value`). -/
theorem es519xx_parse_rejected_record (v : es519xx_variant) (buf : Buffer) (fv : FloatVal)
    (an : sr_datafeed_analog) (info : es519xx_info)
    (r : Int × FloatVal × sr_datafeed_analog × es519xx_info)
    (h : es519xx_parse v buf fv an info = some r) (herr : r.1 ≠ SR_OK) :
    r.1 = SR_ERR ∧ r.2.2.1 = an ∧ r.2.1 = es519xx_rejected_value buf v.init fv := by
  unfold es519xx_parse at h
  rcases hv : es519xx_verdict buf v.init with _ | _ | ⟨x, e⟩
  · rw [sr_es519xx_parse_undefined _ _ _ _ hv] at h
    simp at h
  · rw [sr_es519xx_parse_rejected _ _ _ _ hv] at h
    simp only [Option.some.injEq] at h
    rw [← h]
    exact ⟨rfl, rfl, rfl⟩
  · rw [sr_es519xx_parse_accepted _ _ _ _ _ _ hv] at h
    simp only [Option.some.injEq] at h
    rw [← h] at herr
    exact absurd rfl herr

/-- C6 (witness): the amended statement at the rejected temperature packet. -/
theorem es519xx_parse_rejected_record_witness :
    es519xx_parse .v19200_11b pkt_temperature FloatVal.nan analog0 es519xx_info.zero
        = some (SR_ERR, FloatVal.num false 25 0, analog0,
            parse_flags pkt_temperature es519xx_variant.v19200_11b.init)
      ∧ SR_ERR ≠ SR_OK
      ∧ (SR_ERR = SR_ERR ∧ analog0 = analog0
        ∧ FloatVal.num false 25 0
          = es519xx_rejected_value pkt_temperature es519xx_variant.v19200_11b.init FloatVal.nan) :=
  have h : es519xx_parse .v19200_11b pkt_temperature FloatVal.nan analog0 es519xx_info.zero
      = some (SR_ERR, FloatVal.num false 25 0, analog0,
          parse_flags pkt_temperature es519xx_variant.v19200_11b.init) := by decide
  ⟨h, by decide, es519xx_parse_rejected_record _ _ _ _ _ _ h (by decide)⟩

/-- C7 (counterexample): two buffers that agree on their first 11 bytes, one
accepted and one rejected by the 19200 baud 11-byte `packet_valid`. -/
theorem es519xx_packet_valid_reads_past_size :
    (∀ i, i < 11 → pkt_volt_dc i = pkt_volt_dc_once i)
      ∧ es519xx_packet_valid .v19200_11b pkt_volt_dc = true
      ∧ es519xx_packet_valid .v19200_11b pkt_volt_dc_once = false := by
  decide

/-- C7 (amended): for every entry point, `packet_valid` and `parse` are
determined by the first 22 bytes of the buffer for the 11-byte variants (the
packet and its repetition) and by the first 14 bytes for the 14-byte variants:
two buffers that agree on those bytes get the same verdict and, from the same
prior state, the same result. -/
theorem es519xx_parse_reads (v : es519xx_variant) (b1 b2 : Buffer)
    (h : ∀ i, i < v.reads → b1 i = b2 i) :
    es519xx_packet_valid v b1 = es519xx_packet_valid v b2
      ∧ ∀ (fv : FloatVal) (an : sr_datafeed_analog) (info : es519xx_info),
          es519xx_parse v b1 fv an info = es519xx_parse v b2 fv an info := by
  have h14 : ∀ i, i < 14 → b1 i = b2 i := fun i hi =>
    h i (by cases v <;> simp [es519xx_variant.reads, es519xx_variant.size,
      es519xx_variant.init, es519xx_info.zero] <;> omega)
  have hpv := packet_valid_congr v b1 b2 h
  refine ⟨by unfold es519xx_packet_valid; rw [hpv], ?_⟩
  intro fv an info
  have hval : ∀ i : es519xx_info, parse_value b1 i fv = parse_value b2 i fv :=
    fun i => parse_value_congr b1 b2 i fv (fun k hk => h14 k (by omega))
  unfold es519xx_parse sr_es519xx_parse
  simp only [hpv, hval, h14 0 (by omega)]

/-- C7 (witness): the amended statement at a 22-byte packet and the same
packet followed by a further byte. -/
theorem es519xx_parse_reads_witness :
    (∀ i, i < es519xx_variant.v19200_11b.reads → pkt_volt_dc i = pkt_volt_dc_tail i)
      ∧ (es519xx_packet_valid .v19200_11b pkt_volt_dc
          = es519xx_packet_valid .v19200_11b pkt_volt_dc_tail
        ∧ ∀ (fv : FloatVal) (an : sr_datafeed_analog) (info : es519xx_info),
            es519xx_parse .v19200_11b pkt_volt_dc fv an info
              = es519xx_parse .v19200_11b pkt_volt_dc_tail fv an info) :=
  ⟨by decide, es519xx_parse_reads .v19200_11b pkt_volt_dc pkt_volt_dc_tail (by decide)⟩

/-- C8 (evaluation at the failing input): for the clamp meter packet with the
VBAR bit, the uA function code and range byte `2` (index 2, inside 0..7),
`parse_range` reads index 2 of the two-entry VBAR array: the read is outside
the array and the parse has no defined outcome. -/
theorem es519xx_clamp_vbar_out_of_bounds :
    es519xx_parse .v19200_11b_clamp pkt_clamp_vbar FloatVal.nan analog0 es519xx_info.zero = none
      ∧ range_decision (pkt_clamp_vbar 0)
          (parse_flags pkt_clamp_vbar es519xx_variant.v19200_11b_clamp.init) = none
      ∧ (parse_flags pkt_clamp_vbar es519xx_variant.v19200_11b_clamp.init).is_vbar = true
      ∧ (parse_flags pkt_clamp_vbar es519xx_variant.v19200_11b_clamp.init).is_micro = true
      ∧ ((pkt_clamp_vbar 0).val : Int) - 48 = 2 := by
  decide

/-- C9: `sr_brymen_bm25x_packet_valid` returns TRUE exactly when `buf[0]` is 2
and the high nibble of `buf[i]` equals `i` for every `i` from 1 to
`BRYMEN_BM25X_PACKET_SIZE - 1`; a buffer with the same byte 0 and the same
high nibbles in the bytes from 1 on gets the same result, whatever its low
nibbles. -/
theorem bm25x_packet_valid_iff (buf : Buffer) :
    (sr_brymen_bm25x_packet_valid buf = true ↔
        ((buf 0).val = 2
          ∧ ∀ i, 1 ≤ i → i < BRYMEN_BM25X_PACKET_SIZE → (buf i).val >>> 4 = i))
      ∧ ∀ buf2 : Buffer, buf2 0 = buf 0 →
          (∀ i, 1 ≤ i → (buf2 i).val >>> 4 = (buf i).val >>> 4) →
          sr_brymen_bm25x_packet_valid buf2 = sr_brymen_bm25x_packet_valid buf := by
  have key : ∀ b : Buffer, sr_brymen_bm25x_packet_valid b = true ↔
      ((b 0).val = 2 ∧ ∀ i, 1 ≤ i → i < BRYMEN_BM25X_PACKET_SIZE → (b i).val >>> 4 = i) := by
    intro b
    unfold sr_brymen_bm25x_packet_valid
    split_ifs with h0
    · simp only [Bool.false_eq_true, false_iff, not_and]
      intro h
      exact absurd h h0
    · simp only [ne_eq, not_not] at h0
      rw [bm25x_nibbles_valid_iff]
      simp only [h0, true_and]
      constructor
      · intro hk i h1 h2
        exact hk i h1 (by unfold BRYMEN_BM25X_PACKET_SIZE at h2 ⊢; omega)
      · intro hk i h1 h2
        exact hk i h1 (by unfold BRYMEN_BM25X_PACKET_SIZE at h2 ⊢; omega)
  refine ⟨key buf, ?_⟩
  intro buf2 h0 hn
  rw [Bool.eq_iff_iff, key buf2, key buf, h0]
  constructor
  · rintro ⟨h2, hk⟩
    exact ⟨h2, fun i h1 hi => by rw [← hn i h1]; exact hk i h1 hi⟩
  · rintro ⟨h2, hk⟩
    exact ⟨h2, fun i h1 hi => by rw [hn i h1]; exact hk i h1 hi⟩

/-- C10: for every variant with packet size `s`, `packet_valid` returns FALSE
when `buf[s-2]` is not CR (13) or `buf[s-1]` is not LF (10), and for the two
2400 baud 11-byte variants also when some byte of `buf[0..10]` differs from
the byte 11 places further on. -/
theorem es519xx_packet_valid_framing (v : es519xx_variant) (buf : Buffer)
    (h : (buf (v.size - 2)).val ≠ 13 ∨ (buf (v.size - 1)).val ≠ 10
      ∨ ((v = .v2400_11b ∨ v = .v2400_11b_altfn) ∧ ∃ i, i < 11 ∧ buf i ≠ buf (11 + i))) :
    es519xx_packet_valid v buf = false := by
  unfold es519xx_packet_valid sr_es519xx_packet_valid
  simp only []
  rcases h with h | h | ⟨hv, i, hi, hne⟩
  · split_ifs <;> first | rfl | (exfalso; unfold es519xx_variant.size at h; tauto)
  · split_ifs <;> first | rfl | (exfalso; unfold es519xx_variant.size at h; tauto)
  · have hm : memcmp buf 0 11 11 ≠ 0 :=
      memcmp_ne_zero buf 11 0 11 ⟨i, hi, by rwa [Nat.zero_add]⟩
    have hs : v.init.packet_size = 11 := by
      rcases hv with rfl | rfl <;> rfl
    rw [hs]
    simp [hm]

/-- C10 (witness): the 11-byte voltage packet sent once, without its
repetition, is rejected by the 2400 baud entry point. -/
theorem es519xx_packet_valid_framing_witness :
    ((pkt_volt_dc_once (es519xx_variant.v2400_11b.size - 2)).val ≠ 13
        ∨ (pkt_volt_dc_once (es519xx_variant.v2400_11b.size - 1)).val ≠ 10
        ∨ ((es519xx_variant.v2400_11b = .v2400_11b
            ∨ es519xx_variant.v2400_11b = .v2400_11b_altfn)
          ∧ ∃ i, i < 11 ∧ pkt_volt_dc_once i ≠ pkt_volt_dc_once (11 + i)))
      ∧ es519xx_packet_valid .v2400_11b pkt_volt_dc_once = false :=
  have h : (pkt_volt_dc_once (es519xx_variant.v2400_11b.size - 2)).val ≠ 13
      ∨ (pkt_volt_dc_once (es519xx_variant.v2400_11b.size - 1)).val ≠ 10
      ∨ ((es519xx_variant.v2400_11b = .v2400_11b
          ∨ es519xx_variant.v2400_11b = .v2400_11b_altfn)
        ∧ ∃ i, i < 11 ∧ pkt_volt_dc_once i ≠ pkt_volt_dc_once (11 + i)) :=
    Or.inr (Or.inr ⟨Or.inl rfl, 0, by decide, by decide⟩)
  ⟨h, es519xx_packet_valid_framing _ _ h⟩

/-- C11: for every digit index `n` and every buffer, the segment value
`(buf[3+2n] & 0x0e) | ((buf[4+2n] << 4) & 0xf0)` formed by `decode_digit` fits
in 8 bits; `decode_digit` returns -1 exactly when that value is none of the 18
patterns of `segment_table`; and it returns the digit or glyph code of a table
entry exactly when the value is that entry's pattern. -/
theorem decode_digit_table (n : Nat) (buf : Buffer) :
    ((buf (3 + 2 * n)).val &&& 0x0e) ||| (((buf (4 + 2 * n)).val <<< 4) &&& 0xf0) < 256
      ∧ (decode_digit n buf = -1 ↔
          ∀ p ∈ segment_table,
            p.1 ≠ ((buf (3 + 2 * n)).val &&& 0x0e) ||| (((buf (4 + 2 * n)).val <<< 4) &&& 0xf0))
      ∧ ∀ p ∈ segment_table,
          (decode_digit n buf = p.2 ↔
            ((buf (3 + 2 * n)).val &&& 0x0e) ||| (((buf (4 + 2 * n)).val <<< 4) &&& 0xf0) = p.1) := by
  refine ⟨segment_lt _ _, ?_⟩
  unfold decode_digit
  simp only []
  generalize ((buf (3 + 2 * n)).val &&& 0x0e) ||| (((buf (4 + 2 * n)).val <<< 4) &&& 0xf0) = v
  split
  all_goals first
    | decide
    | (simp only [segment_table, List.mem_cons, List.mem_singleton, List.not_mem_nil, or_false,
        forall_eq_or_imp, forall_eq]
       simp_all [eq_comm])

/-- C12 (counterexample): the packet `pkt_bm_1234` shows the digits 1, 2, 3, 4
with point index 2, no prefix and the sign bit clear; the float the parser
stores is `12939428 * 2 ^ (-20)` (12.340000152587890625), not 12.34, and no
float holds 12.34. -/
theorem bm25x_value_rounded :
    (decode_digit 0 pkt_bm_1234 = (1 : Nat) ∧ decode_digit 1 pkt_bm_1234 = (2 : Nat)
        ∧ decode_digit 2 pkt_bm_1234 = (3 : Nat) ∧ decode_digit 3 pkt_bm_1234 = (4 : Nat)
        ∧ bm25x_point_bits pkt_bm_1234 ≤ 1 ∧ bm25x_point_index pkt_bm_1234 = 2
        ∧ decode_prefix pkt_bm_1234 = 0 ∧ maskSet (pkt_bm_1234 3) 1 = false)
      ∧ (sr_brymen_bm25x_parse pkt_bm_1234 FloatVal.nan analog0).2.1.float32
          = binary32.fin false 12939428 (-20)
      ∧ (sr_brymen_bm25x_parse pkt_bm_1234 FloatVal.nan analog0).2.1.float32.toRat
          ≠ some (1234 / 100)
      ∧ ∀ x : binary32, x.toRat ≠ some (1234 / 100) := by
  have h : ∀ x : binary32, x.toRat ≠ some (1234 / 100) := by
    intro x
    have := binary32_ne_of_five x 617 50 (by norm_num) (by norm_num) (by norm_num) (by norm_num)
    norm_num at this ⊢
    exact this
  exact ⟨by decide, by decide, h _, h⟩

/-- C12 (amended): for a Brymen buffer whose four digit positions decode to the
decimal digits `d0 d1 d2 d3` and that has at most one decimal-point bit set
(point index `p`), the prefix exponent is the first match of `buf[11]&2` (6),
`buf[11]&1` (3), `buf[13]&1` (-3), `buf[13]&2` (-6), `buf[12]&1` (-9), else 0;
`sr_brymen_bm25x_parse` returns SR_OK with the float product of
`1000 d0 + 100 d1 + 10 d2 + d3`, converted exactly, and
`powf(10, -p + prefix exponent)`, negated exactly when bit 0 of `buf[3]` is
set, and sets digits and spec_digits to `p - prefix exponent`. -/
theorem bm25x_parse_float (buf : Buffer) (d0 d1 d2 d3 : Nat)
    (h0 : decode_digit 0 buf = d0) (h1 : decode_digit 1 buf = d1)
    (h2 : decode_digit 2 buf = d2) (h3 : decode_digit 3 buf = d3)
    (hd : d0 ≤ 9 ∧ d1 ≤ 9 ∧ d2 ≤ 9 ∧ d3 ≤ 9) (hp : bm25x_point_bits buf ≤ 1)
    (fv : FloatVal) (an : sr_datafeed_analog) :
    decode_prefix buf
        = (if maskSet (buf 11) 2 then 6 else if maskSet (buf 11) 1 then 3
          else if maskSet (buf 13) 1 then -3 else if maskSet (buf 13) 2 then -6
          else if maskSet (buf 12) 1 then -9 else 0)
      ∧ (sr_brymen_bm25x_parse buf fv an).1 = SR_OK
      ∧ (sr_brymen_bm25x_parse buf fv an).2.1
          = FloatVal.num (maskSet (buf 3) 1) (1000 * d0 + 100 * d1 + 10 * d2 + d3)
              (-(bm25x_point_index buf : Int) + decode_prefix buf)
      ∧ (sr_brymen_bm25x_parse buf fv an).2.1.float32
          = (if maskSet (buf 3) 1 then
              ((binary32.ofInt ((1000 * d0 + 100 * d1 + 10 * d2 + d3 : Nat) : Int)).mul
                (powf10 (-(bm25x_point_index buf : Int) + decode_prefix buf))).neg
            else
              (binary32.ofInt ((1000 * d0 + 100 * d1 + 10 * d2 + d3 : Nat) : Int)).mul
                (powf10 (-(bm25x_point_index buf : Int) + decode_prefix buf)))
      ∧ (binary32.ofInt ((1000 * d0 + 100 * d1 + 10 * d2 + d3 : Nat) : Int)).toRat
          = some ((1000 * d0 + 100 * d1 + 10 * d2 + d3 : Nat) : ℚ)
      ∧ (sr_brymen_bm25x_parse buf fv an).2.2.digits
          = (bm25x_point_index buf : Int) - decode_prefix buf
      ∧ (sr_brymen_bm25x_parse buf fv an).2.2.spec_digits
          = (bm25x_point_index buf : Int) - decode_prefix buf := by
  have hdv := decode_value_digits buf d0 d1 d2 d3 h0 h1 h2 h3 hd 0
  have hpi : bm25x_point_index buf ≤ 3 := by
    unfold bm25x_point_index
    split_ifs <;> omega
  have hsc : decode_scale (decode_point buf) 4 = -(bm25x_point_index buf : Int) := by
    rw [decode_point_eq, if_pos hp]
    unfold decode_scale
    simp only [MAX_DIGITS, Nat.cast_ofNat]
    split_ifs <;> omega
  have hval : (sr_brymen_bm25x_parse buf fv an).2.1
      = FloatVal.num (maskSet (buf 3) 1) (1000 * d0 + 100 * d1 + 10 * d2 + d3)
          (-(bm25x_point_index buf : Int) + decode_prefix buf) := by
    rw [bm25x_parse_floatval, hdv, hsc]
    cases maskSet (buf 3) 1 <;> simp [FloatVal.scale, FloatVal.neg]
  refine ⟨rfl, rfl, hval, ?_, ?_, ?_, ?_⟩
  · rw [hval, float32_num]
  · have hx := binary32_ofInt_exact ((1000 * d0 + 100 * d1 + 10 * d2 + d3 : Nat) : Int)
      (by rw [Int.natAbs_ofNat]; omega)
    rw [hx]
    simp
  · rw [(bm25x_parse_digits buf fv an).1, hdv, hsc]
    omega
  · rw [(bm25x_parse_digits buf fv an).2, hdv, hsc]
    omega

/-- C12 (witness): the packet `pkt_bm_1234`, digits 1, 2, 3, 4 with point index
2 and no prefix, gives the float product of 1234 and `powf(10, -2)`, which is
`12939428 * 2 ^ (-20)`, and two decimal digits. -/
theorem bm25x_parse_float_witness :
    (decode_digit 0 pkt_bm_1234 = (1 : Nat) ∧ decode_digit 1 pkt_bm_1234 = (2 : Nat)
        ∧ decode_digit 2 pkt_bm_1234 = (3 : Nat) ∧ decode_digit 3 pkt_bm_1234 = (4 : Nat)
        ∧ bm25x_point_bits pkt_bm_1234 ≤ 1)
      ∧ (sr_brymen_bm25x_parse pkt_bm_1234 FloatVal.nan analog0).2.1
          = FloatVal.num false 1234 (-2)
      ∧ (sr_brymen_bm25x_parse pkt_bm_1234 FloatVal.nan analog0).2.1.float32
          = (binary32.ofInt 1234).mul (powf10 (-2))
      ∧ (binary32.ofInt 1234).mul (powf10 (-2)) = binary32.fin false 12939428 (-20)
      ∧ (sr_brymen_bm25x_parse pkt_bm_1234 FloatVal.nan analog0).2.2.digits = 2 :=
  have h := bm25x_parse_float pkt_bm_1234 1 2 3 4 (by decide) (by decide) (by decide)
    (by decide) (by decide) (by decide) FloatVal.nan analog0
  ⟨by decide, h.2.2.1.trans (by decide), h.2.2.2.1.trans (by decide), by decide,
    h.2.2.2.2.2.1.trans (by decide)⟩

/-- C13: for a Brymen buffer in which some digit position does not decode to a
decimal digit, the case of three decimal digits followed by `C` or `F` apart,
`decode_value` returns infinity when position 1 decodes to 0 and position 2 to
`L`, and NaN otherwise, and leaves the exponent as it was passed in (0 in the
parser), so that digits and spec_digits hold the negated prefix exponent
alone. -/
theorem decode_value_not_decimal (buf : Buffer)
    (hsome : ∃ i, i < 4 ∧ is_decimal (decode_digit i buf) = false)
    (hnot : ¬ ((decode_digit 3 buf = 67 ∨ decode_digit 3 buf = 70)
      ∧ ∀ i, i < 3 → is_decimal (decode_digit i buf) = true)) :
    (∀ e : Int, decode_value buf e
        = (if decode_digit 1 buf = 0 ∧ decode_digit 2 buf = 76 then FloatVal.inf false
            else FloatVal.nan, e))
      ∧ ∀ (fv : FloatVal) (an : sr_datafeed_analog),
          (sr_brymen_bm25x_parse buf fv an).2.2.digits = - decode_prefix buf
            ∧ (sr_brymen_bm25x_parse buf fv an).2.2.spec_digits = - decode_prefix buf := by
  have hloop : decode_value_loop buf 0 MAX_DIGITS 0 = none := by
    rw [decode_value_loop_eq]
    split_ifs with ha hc hd
    · exfalso
      apply hnot
      simp only [Bool.and_eq_true] at ha
      refine ⟨hc, fun i hi => ?_⟩
      interval_cases i
      · exact ha.1.1
      · exact ha.1.2
      · exact ha.2
    · exfalso
      simp only [Bool.and_eq_true] at ha
      obtain ⟨i, hi, hf⟩ := hsome
      interval_cases i
      · rw [ha.1.1] at hf; exact absurd hf (by decide)
      · rw [ha.1.2] at hf; exact absurd hf (by decide)
      · rw [ha.2] at hf; exact absurd hf (by decide)
      · rw [hd] at hf; exact absurd hf (by decide)
    · rfl
    · rfl
  refine ⟨fun e => decode_value_special buf e hloop, fun fv an => ?_⟩
  have h0 := decode_value_special buf 0 hloop
  rw [(bm25x_parse_digits buf fv an).1, (bm25x_parse_digits buf fv an).2, h0]
  simp

/-- C13 (witness): the packet `pkt_bm_0L`, showing ` 0L `, decodes to infinity
with scale exponent 0. -/
theorem decode_value_not_decimal_witness :
    ((∃ i, i < 4 ∧ is_decimal (decode_digit i pkt_bm_0L) = false)
        ∧ ¬ ((decode_digit 3 pkt_bm_0L = 67 ∨ decode_digit 3 pkt_bm_0L = 70)
          ∧ ∀ i, i < 3 → is_decimal (decode_digit i pkt_bm_0L) = true))
      ∧ decode_value pkt_bm_0L 0 = (FloatVal.inf false, 0) :=
  have h := decode_value_not_decimal pkt_bm_0L ⟨0, by decide, by decide⟩ (by decide)
  ⟨⟨⟨0, by decide, by decide⟩, by decide⟩, (h.1 0).trans (by decide)⟩

/-- C14 (counterexample): on the 2400 baud variant the packet `pkt_volt_5`,
digits `0005`, voltage mode, range 0, no overflow, underflow or continuity, is
accepted with the exponent -4; the float the parser stores is
`8589934 * 2 ^ (-34)` (0.000499999965541064739227294921875), not `5 * 10 ^ (-4)`,
and no float holds `5 * 10 ^ (-4)`. -/
theorem es519xx_value_rounded :
    (es519xx_parse .v2400_11b pkt_volt_5 FloatVal.nan analog0 es519xx_info.zero).map
        (fun r => (r.1, r.2.1, r.2.2.1.mq, r.2.2.1.digits))
        = some (SR_OK, FloatVal.num false 5 (-4), SR_MQ_VOLTAGE, 4)
      ∧ (es519xx_parse .v2400_11b pkt_volt_5 FloatVal.nan analog0 es519xx_info.zero).map
        (fun r => (r.2.2.2.is_ol, r.2.2.2.is_ul, r.2.2.2.is_continuity, r.2.2.2.is_sign))
        = some (false, false, false, false)
      ∧ es519xx_magnitude .v2400_11b pkt_volt_5 false = 5
      ∧ es519xx_exponent .v2400_11b (parse_flags pkt_volt_5 es519xx_variant.v2400_11b.init) 0
          ((pkt_volt_5 0).val - 48) = some (-4)
      ∧ (FloatVal.num false 5 (-4)).float32 = binary32.fin false 8589934 (-34)
      ∧ (FloatVal.num false 5 (-4)).float32.toRat ≠ some (5 * (10 : ℚ) ^ (-4 : Int))
      ∧ ∀ x : binary32, x.toRat ≠ some (5 * (10 : ℚ) ^ (-4 : Int)) := by
  have h : ∀ x : binary32, x.toRat ≠ some (5 * (10 : ℚ) ^ (-4 : Int)) := by
    intro x
    have := binary32_ne_of_five x 1 2000 (by norm_num) (by norm_num) (by norm_num) (by norm_num)
    norm_num at this ⊢
    exact this
  exact ⟨by decide, by decide, by decide, by decide, by decide, h _, h⟩

/-- C14 (amended): for every packet accepted by an ES519XX entry point with
neither overflow nor underflow flagged and not in continuity mode, the value
is the float product of `s * M`, converted exactly, and `powf(10, e)`, where
`M` is the decimal integer of the value bytes with a leading 1 when
`is_digit4` is set, `s` is -1 exactly when the sign flag is set, and `e` is
the exponent of `es519xx_exponent` (the VBAR pairs, -1 for duty cycle, or the
entry of the variant's table at the mode row and the range index); digits and
spec_digits are `-e`. -/
theorem es519xx_parse_float (v : es519xx_variant) (buf : Buffer) (fv : FloatVal)
    (an : sr_datafeed_analog) (info : es519xx_info) (fv' : FloatVal)
    (an' : sr_datafeed_analog) (info' : es519xx_info)
    (h : es519xx_parse v buf fv an info = some (SR_OK, fv', an', info'))
    (hol : info'.is_ol = false) (hul : info'.is_ul = false)
    (hc : info'.is_continuity = false) :
    ∃ mode e, parse_range_mode info' = some mode
      ∧ es519xx_exponent v info' mode ((buf 0).val - 48) = some e
      ∧ fv' = (FloatVal.ofInt ((if info'.is_sign then -1 else 1)
          * es519xx_magnitude v buf info'.is_digit4)).scale e
      ∧ fv'.float32 = (binary32.ofInt ((if info'.is_sign then -1 else 1)
          * es519xx_magnitude v buf info'.is_digit4)).mul (powf10 e)
      ∧ (binary32.ofInt ((if info'.is_sign then -1 else 1)
          * es519xx_magnitude v buf info'.is_digit4)).toRat
          = some ((((if info'.is_sign then -1 else 1)
              * es519xx_magnitude v buf info'.is_digit4 : Int) : ℚ))
      ∧ an'.digits = -e ∧ an'.spec_digits = -e := by
  obtain ⟨x, mode, e, hi, hval, hm, he, hf, -, hd, hs⟩ :=
    es519xx_parse_ok_parts v buf fv an info fv' an' info' h
  have hol' : (parse_flags buf v.init).is_ol = false := by rw [hi] at hol; exact hol
  have hul' : (parse_flags buf v.init).is_ul = false := by rw [hi] at hul; exact hul
  have hx := value_decision_num _ _ _ hval hol' hul'
  have hps : (parse_flags buf v.init).packet_size = v.init.packet_size := by
    have := config_parse_flags buf v.init
    unfold es519xx_info.config at this
    simp only [Prod.mk.injEq] at this
    exact this.2.1
  rw [hps, parse_value_digits_magnitude, mul_comm] at hx
  have hfv : fv' = (FloatVal.ofInt ((if info'.is_sign then -1 else 1)
      * es519xx_magnitude v buf info'.is_digit4)).scale e := by
    rw [hf, handle_flags_snd, hc]
    simp only [Bool.false_eq_true, if_false]
    rw [hx, hi]
  refine ⟨mode, e, hm, he, hfv, ?_, ?_, hd, hs⟩
  · rw [hfv, float32_ofInt_scale]
  · exact binary32_ofInt_exact _ (es519xx_magnitude_bound v buf _ _)

/-- C14 (witness): on the 2400 baud variant the packet `pkt_res_neg`, sign set,
digits `0050`, resistance mode, range 0, is accepted with the float product of
-50 and `powf(10, -1)`, which is -5, and one decimal digit. -/
theorem es519xx_parse_float_witness :
    (es519xx_parse .v2400_11b pkt_res_neg FloatVal.nan analog0 es519xx_info.zero
        = some (SR_OK, FloatVal.num true 50 (-1),
            { mq := SR_MQ_RESISTANCE, unit := SR_UNIT_OHM, mqflags := 0, digits := 1,
              spec_digits := 1 },
            { parse_flags pkt_res_neg es519xx_variant.v2400_11b.init with digits := 1 }))
      ∧ (FloatVal.num true 50 (-1)).float32 = binary32.fin true 10485760 (-21)
      ∧ ∃ mode e, parse_range_mode
            { parse_flags pkt_res_neg es519xx_variant.v2400_11b.init with digits := 1 }
            = some mode
          ∧ es519xx_exponent .v2400_11b
              { parse_flags pkt_res_neg es519xx_variant.v2400_11b.init with digits := 1 }
              mode ((pkt_res_neg 0).val - 48) = some e
          ∧ FloatVal.num true 50 (-1) = (FloatVal.ofInt ((if
              ({ parse_flags pkt_res_neg es519xx_variant.v2400_11b.init with digits := 1 }
                : es519xx_info).is_sign then -1 else 1)
              * es519xx_magnitude .v2400_11b pkt_res_neg
                ({ parse_flags pkt_res_neg es519xx_variant.v2400_11b.init with digits := 1 }
                  : es519xx_info).is_digit4)).scale e
          ∧ (FloatVal.num true 50 (-1)).float32 = (binary32.ofInt ((if
              ({ parse_flags pkt_res_neg es519xx_variant.v2400_11b.init with digits := 1 }
                : es519xx_info).is_sign then -1 else 1)
              * es519xx_magnitude .v2400_11b pkt_res_neg
                ({ parse_flags pkt_res_neg es519xx_variant.v2400_11b.init with digits := 1 }
                  : es519xx_info).is_digit4)).mul (powf10 e)
          ∧ (binary32.ofInt ((if
              ({ parse_flags pkt_res_neg es519xx_variant.v2400_11b.init with digits := 1 }
                : es519xx_info).is_sign then -1 else 1)
              * es519xx_magnitude .v2400_11b pkt_res_neg
                ({ parse_flags pkt_res_neg es519xx_variant.v2400_11b.init with digits := 1 }
                  : es519xx_info).is_digit4)).toRat
              = some ((((if
              ({ parse_flags pkt_res_neg es519xx_variant.v2400_11b.init with digits := 1 }
                : es519xx_info).is_sign then -1 else 1)
              * es519xx_magnitude .v2400_11b pkt_res_neg
                ({ parse_flags pkt_res_neg es519xx_variant.v2400_11b.init with digits := 1 }
                  : es519xx_info).is_digit4 : Int) : ℚ))
          ∧ (1 : Int) = -e ∧ (1 : Int) = -e :=
  have h : es519xx_parse .v2400_11b pkt_res_neg FloatVal.nan analog0 es519xx_info.zero
      = some (SR_OK, FloatVal.num true 50 (-1),
          { mq := SR_MQ_RESISTANCE, unit := SR_UNIT_OHM, mqflags := 0, digits := 1,
            spec_digits := 1 },
          { parse_flags pkt_res_neg es519xx_variant.v2400_11b.init with digits := 1 }) := by
    decide
  ⟨h, by decide, es519xx_parse_float _ _ _ _ _ _ _ _ h (by decide) (by decide) (by decide)⟩

/-- C15 (counterexample): the continuity packet `pkt_cont_ol` with the overflow
bit set is accepted with the value 0.0, not plus infinity. -/
theorem es519xx_overflow_continuity :
    (es519xx_parse .v19200_11b pkt_cont_ol FloatVal.nan analog0 es519xx_info.zero).map
        (fun r => (r.1, r.2.1, r.2.2.2.is_ol, r.2.2.2.is_continuity))
      = some (SR_OK, FloatVal.num false 0 0, true, true) := by
  decide

/-- C15 (amended): for every packet accepted by an ES519XX entry point with the
overflow or the underflow flag set, the value is plus infinity, whatever the
sign bit, unless the packet is in continuity mode, where it is 0.0; digits and
spec_digits are the negated range exponent; and every packet that differs
only in the value bytes (and repeats itself in the 11-byte variants) is
accepted with the same value, record and flags. -/
theorem es519xx_parse_overflow (v : es519xx_variant) (buf : Buffer) (fv : FloatVal)
    (an : sr_datafeed_analog) (info : es519xx_info) (fv' : FloatVal)
    (an' : sr_datafeed_analog) (info' : es519xx_info)
    (h : es519xx_parse v buf fv an info = some (SR_OK, fv', an', info'))
    (hol : info'.is_ol = true ∨ info'.is_ul = true) :
    fv' = (if info'.is_continuity then FloatVal.num false 0 0 else FloatVal.inf false)
      ∧ (∃ mode e, parse_range_mode info' = some mode
          ∧ es519xx_exponent v info' mode ((buf 0).val - 48) = some e
          ∧ an'.digits = -e ∧ an'.spec_digits = -e)
      ∧ ∀ buf2 : Buffer, (∀ i, i < v.reads → es519xx_value_byte v i = false → buf2 i = buf i) →
          (v.size = 11 → ∀ i, i < 11 → buf2 i = buf2 (11 + i)) →
          es519xx_parse v buf2 fv an info = some (SR_OK, fv', an', info') := by
  obtain ⟨x, mode, e, hi, hval, hm, he, hf, ha, hd, hs⟩ :=
    es519xx_parse_ok_parts v buf fv an info fv' an' info' h
  obtain ⟨x', e', hv, hi', -, -⟩ := es519xx_parse_ok_inv v buf fv an info fv' an' info' h
  have hol' : (parse_flags buf v.init).is_ol = true ∨ (parse_flags buf v.init).is_ul = true := by
    rw [hi] at hol; exact hol
  have hx : x = FloatVal.inf false := value_decision_inf _ _ _ hval hol'
  refine ⟨?_, ⟨mode, e, hm, he, hd, hs⟩, ?_⟩
  · rw [hf, handle_flags_snd, hx]
    cases info'.is_continuity <;> rfl
  · intro buf2 h2 hrep
    obtain ⟨hpf, hv2⟩ := es519xx_verdict_overflow v buf buf2 x' e' hv hol' h2 hrep
    have e1 := sr_es519xx_parse_accepted buf fv an v.init x' e' hv
    have e2 := sr_es519xx_parse_accepted buf2 fv an v.init x' e' hv2
    unfold es519xx_parse at h ⊢
    rw [e2, hpf, ← e1, h]

/-- C15 (witness): the resistance packet `pkt_res_ol` with the overflow bit is
accepted with plus infinity and one decimal digit, and so is `pkt_res_ol_9999`,
which differs in the value bytes only. -/
theorem es519xx_parse_overflow_witness :
    (es519xx_parse .v19200_11b pkt_res_ol FloatVal.nan analog0 es519xx_info.zero
        = some (SR_OK, FloatVal.inf false,
            { mq := SR_MQ_RESISTANCE, unit := SR_UNIT_OHM, mqflags := 0, digits := 1,
              spec_digits := 1 }, info_res_ol)
      ∧ (info_res_ol.is_ol = true ∨ info_res_ol.is_ul = true))
      ∧ FloatVal.inf false
          = (if info_res_ol.is_continuity then FloatVal.num false 0 0 else FloatVal.inf false)
      ∧ es519xx_parse .v19200_11b pkt_res_ol_9999 FloatVal.nan analog0 es519xx_info.zero
          = some (SR_OK, FloatVal.inf false,
              { mq := SR_MQ_RESISTANCE, unit := SR_UNIT_OHM, mqflags := 0, digits := 1,
                spec_digits := 1 }, info_res_ol) :=
  have h : es519xx_parse .v19200_11b pkt_res_ol FloatVal.nan analog0 es519xx_info.zero
      = some (SR_OK, FloatVal.inf false,
          { mq := SR_MQ_RESISTANCE, unit := SR_UNIT_OHM, mqflags := 0, digits := 1,
            spec_digits := 1 }, info_res_ol) := by decide
  have k := es519xx_parse_overflow _ _ _ _ _ _ _ _ h (Or.inl rfl)
  ⟨⟨h, Or.inl rfl⟩, k.1, k.2.2 pkt_res_ol_9999 (by decide) (by decide)⟩

/-- C16: for every accepted ES519XX packet in continuity mode, mq is
CONTINUITY, unit is BOOLEAN, and the value is 1.0 when the range-scaled
reading lies between 0 and 25, bounds included, and 0.0 otherwise (below 0,
above 25, or an over-limit reading). -/
theorem es519xx_parse_continuity (v : es519xx_variant) (buf : Buffer) (fv : FloatVal)
    (an : sr_datafeed_analog) (info : es519xx_info) (fv' : FloatVal)
    (an' : sr_datafeed_analog) (info' : es519xx_info)
    (h : es519xx_parse v buf fv an info = some (SR_OK, fv', an', info'))
    (hc : info'.is_continuity = true) :
    an'.mq = SR_MQ_CONTINUITY ∧ an'.unit = SR_UNIT_BOOLEAN
      ∧ fv' = (if ((parse_value buf info' fv).2.scale (-info'.digits)).in_range 0 25 then
          FloatVal.num false 1 0 else FloatVal.num false 0 0) := by
  obtain ⟨x, mode, e, hi, hval, hm, he, hf, ha, hd, hs⟩ :=
    es519xx_parse_ok_parts v buf fv an info fv' an' info' h
  have hk : kind_count info' ≤ 1 := by rw [hi]; exact kind_count_accepted v buf (-e)
  have hmq := handle_flags_continuity { an with digits := -e, spec_digits := -e } (x.scale e)
    info' hk hc
  have hpv : (parse_value buf info' fv).2 = x := by
    have : parse_value buf info' fv = parse_value buf (parse_flags buf v.init) fv := by
      rw [hi]; rfl
    rw [this, value_decision_some _ _ _ _ hval]
  have hdig : -info'.digits = e := by rw [hi]; simp
  have hnan : x.scale e ≠ FloatVal.nan := by
    by_cases hol : (parse_flags buf v.init).is_ol = true ∨ (parse_flags buf v.init).is_ul = true
    · rw [value_decision_inf _ _ _ hval hol]
      simp [FloatVal.scale]
    · simp only [not_or, Bool.not_eq_true] at hol
      rw [value_decision_num _ _ _ hval hol.1 hol.2]
      simp [FloatVal.scale, FloatVal.ofInt]
  refine ⟨by rw [ha]; exact hmq.1, by rw [ha]; exact hmq.2, ?_⟩
  rw [hf, handle_flags_snd, hc, hpv, hdig, continuity_test _ hnan]
  cases (x.scale e).in_range 0 25 <;> rfl

/-- C16 (witness): the continuity packet `pkt_cont_30`, whose scaled reading is
30.0, is accepted with the value 0.0. -/
theorem es519xx_parse_continuity_witness :
    (es519xx_parse .v19200_11b pkt_cont_30 FloatVal.nan analog0 es519xx_info.zero
        = some (SR_OK, FloatVal.num false 0 0,
            { mq := SR_MQ_CONTINUITY, unit := SR_UNIT_BOOLEAN, mqflags := 0, digits := 1,
              spec_digits := 1 }, info_cont_30)
      ∧ info_cont_30.is_continuity = true)
      ∧ (parse_value pkt_cont_30 info_cont_30 FloatVal.nan).2.scale (-info_cont_30.digits)
          = FloatVal.num false 300 (-1)
      ∧ FloatVal.num false 0 0
          = (if ((parse_value pkt_cont_30 info_cont_30 FloatVal.nan).2.scale
              (-info_cont_30.digits)).in_range 0 25 then
            FloatVal.num false 1 0 else FloatVal.num false 0 0) :=
  have h : es519xx_parse .v19200_11b pkt_cont_30 FloatVal.nan analog0 es519xx_info.zero
      = some (SR_OK, FloatVal.num false 0 0,
          { mq := SR_MQ_CONTINUITY, unit := SR_UNIT_BOOLEAN, mqflags := 0, digits := 1,
            spec_digits := 1 }, info_cont_30) := by decide
  ⟨⟨h, rfl⟩, by decide, (es519xx_parse_continuity _ _ _ _ _ _ _ _ h rfl).2.2⟩

/-- C17 (counterexample): the packets `pkt_bm_1234` and `pkt_bm_123C` have the
same decimal-point bits and the same prefix bits, and differ in the segment
bits of the last digit position; the first gets two decimal digits, the
second one. -/
theorem bm25x_digits_depend_on_segments :
    (maskSet (pkt_bm_1234 5) 1 = maskSet (pkt_bm_123C 5) 1
        ∧ maskSet (pkt_bm_1234 7) 1 = maskSet (pkt_bm_123C 7) 1
        ∧ maskSet (pkt_bm_1234 9) 1 = maskSet (pkt_bm_123C 9) 1
        ∧ (pkt_bm_1234 11).val &&& 3 = (pkt_bm_123C 11).val &&& 3
        ∧ (pkt_bm_1234 13).val &&& 3 = (pkt_bm_123C 13).val &&& 3
        ∧ (pkt_bm_1234 12).val &&& 1 = (pkt_bm_123C 12).val &&& 1)
      ∧ (sr_brymen_bm25x_parse pkt_bm_1234 FloatVal.nan analog0).2.2.digits = 2
      ∧ (sr_brymen_bm25x_parse pkt_bm_123C FloatVal.nan analog0).2.2.digits = 1 := by
  decide

/-- C17 (amended): two Brymen buffers that agree on the decimal-point bits
(bit 0 of `buf[5]`, `buf[7]`, `buf[9]`), on the prefix bits (`buf[11]&3`,
`buf[13]&3`, `buf[12]&1`) and on how the digit loop ends (four digits, three
digits before `C` or `F`, or the jump to `special`) get the same digits and
spec_digits from `sr_brymen_bm25x_parse`. -/
theorem bm25x_digits_depend (b1 b2 : Buffer)
    (h5 : maskSet (b1 5) 1 = maskSet (b2 5) 1) (h7 : maskSet (b1 7) 1 = maskSet (b2 7) 1)
    (h9 : maskSet (b1 9) 1 = maskSet (b2 9) 1)
    (h11 : (b1 11).val &&& 3 = (b2 11).val &&& 3) (h13 : (b1 13).val &&& 3 = (b2 13).val &&& 3)
    (h12 : (b1 12).val &&& 1 = (b2 12).val &&& 1)
    (hc : bm25x_digit_count b1 = bm25x_digit_count b2)
    (fv1 fv2 : FloatVal) (an1 an2 : sr_datafeed_analog) :
    (sr_brymen_bm25x_parse b1 fv1 an1).2.2.digits = (sr_brymen_bm25x_parse b2 fv2 an2).2.2.digits
      ∧ (sr_brymen_bm25x_parse b1 fv1 an1).2.2.spec_digits
          = (sr_brymen_bm25x_parse b2 fv2 an2).2.2.spec_digits := by
  have hpre : decode_prefix b1 = decode_prefix b2 := by
    unfold decode_prefix
    rw [maskSet_of_and_eq (b1 11) (b2 11) 3 2 (by decide) h11,
      maskSet_of_and_eq (b1 11) (b2 11) 3 1 (by decide) h11,
      maskSet_of_and_eq (b1 13) (b2 13) 3 1 (by decide) h13,
      maskSet_of_and_eq (b1 13) (b2 13) 3 2 (by decide) h13,
      maskSet_of_and_eq (b1 12) (b2 12) 1 1 (by decide) h12]
  have hpt := decode_point_congr b1 b2 h5 h7 h9
  have hex : (decode_value b1 0).2 = (decode_value b2 0).2 := by
    unfold bm25x_digit_count at hc
    unfold decode_value
    rw [hpt]
    rcases e1 : decode_value_loop b1 0 MAX_DIGITS 0 with _ | ⟨x1, i1⟩ <;>
      rcases e2 : decode_value_loop b2 0 MAX_DIGITS 0 with _ | ⟨x2, i2⟩ <;>
      rw [e1, e2] at hc <;> simp only [Option.map_some', Option.map_none', Option.some.injEq] at hc
    · simp only []
      split_ifs <;> rfl
    · exact absurd hc (by simp)
    · exact absurd hc (by simp)
    · simp only [hc]
  rw [(bm25x_parse_digits b1 fv1 an1).1, (bm25x_parse_digits b1 fv1 an1).2,
    (bm25x_parse_digits b2 fv2 an2).1, (bm25x_parse_digits b2 fv2 an2).2, hpre, hex]
  exact ⟨rfl, rfl⟩

/-- C17 (witness): the packets `pkt_bm_1234` and `pkt_bm_4321` show different
numbers with four digits each and the same point and prefix bits; both get two
decimal digits. -/
theorem bm25x_digits_depend_witness :
    (bm25x_digit_count pkt_bm_1234 = some 4 ∧ bm25x_digit_count pkt_bm_4321 = some 4
        ∧ (sr_brymen_bm25x_parse pkt_bm_1234 FloatVal.nan analog0).2.1 = FloatVal.num false 1234 (-2)
        ∧ (sr_brymen_bm25x_parse pkt_bm_4321 FloatVal.nan analog0).2.1 = FloatVal.num false 4321 (-2))
      ∧ (sr_brymen_bm25x_parse pkt_bm_1234 FloatVal.nan analog0).2.2.digits = 2
      ∧ (sr_brymen_bm25x_parse pkt_bm_4321 FloatVal.nan analog0).2.2.digits = 2 :=
  have h := bm25x_digits_depend pkt_bm_1234 pkt_bm_4321 (by decide) (by decide) (by decide)
    (by decide) (by decide) (by decide) (by decide) FloatVal.nan FloatVal.nan analog0 analog0
  have h1 : (sr_brymen_bm25x_parse pkt_bm_1234 FloatVal.nan analog0).2.2.digits = 2 := by decide
  ⟨by decide, h1, h.1.symm.trans h1⟩

/-- C18: the function `decode_scale` returns 0 when `point` is 0; otherwise,
with `pos = point + digits - 4`, it returns `-pos` when `0 ≤ pos ≤ 3` and 0
when `pos` is outside that range. A packet with more than one decimal-point
bit set has `decode_point` -1 and scale exponent 0, and
`sr_brymen_bm25x_parse` returns SR_OK for it, with digits from the prefix
exponent alone. -/
theorem decode_scale_spec (point digits : Int) :
    decode_scale 0 digits = 0
      ∧ (point ≠ 0 → decode_scale point digits =
          if 0 ≤ point + digits - 4 ∧ point + digits - 4 ≤ 3 then -(point + digits - 4) else 0)
      ∧ ∀ buf : Buffer, 2 ≤ bm25x_point_bits buf →
          decode_point buf = -1 ∧ (decode_value buf 0).2 = 0
            ∧ ∀ (fv : FloatVal) (an : sr_datafeed_analog),
                (sr_brymen_bm25x_parse buf fv an).1 = SR_OK
                  ∧ (sr_brymen_bm25x_parse buf fv an).2.2.digits = - decode_prefix buf := by
  refine ⟨by simp [decode_scale], ?_, ?_⟩
  · intro hp
    unfold decode_scale
    simp only [hp, ne_eq, not_false_eq_true, if_true, MAX_DIGITS, Nat.cast_ofNat]
    split_ifs <;> first | rfl | omega
  · intro buf hb
    have hpt : decode_point buf = -1 := by
      rw [decode_point_eq, if_neg (by omega)]
    have hdv : (decode_value buf 0).2 = 0 := by
      unfold decode_value
      rw [decode_value_loop_eq, hpt]
      split_ifs <;> simp [decode_scale, MAX_DIGITS]
    refine ⟨hpt, hdv, fun fv an => ⟨rfl, ?_⟩⟩
    show -((decode_value buf 0).2 + decode_prefix buf) = _
    rw [hdv, zero_add]

/-- C18 (witness): the packet `pkt_bm_two_points` has two decimal-point bits
set; it is parsed with SR_OK, the value 1234 and no decimal digits. -/
theorem decode_scale_spec_witness :
    2 ≤ bm25x_point_bits pkt_bm_two_points
      ∧ decode_point pkt_bm_two_points = -1
      ∧ (decode_value pkt_bm_two_points 0).2 = 0
      ∧ (sr_brymen_bm25x_parse pkt_bm_two_points FloatVal.nan analog0).1 = SR_OK
      ∧ (sr_brymen_bm25x_parse pkt_bm_two_points FloatVal.nan analog0).2.1
          = FloatVal.num false 1234 0
      ∧ (sr_brymen_bm25x_parse pkt_bm_two_points FloatVal.nan analog0).2.2.digits = 0 :=
  have k := (decode_scale_spec 0 0).2.2 pkt_bm_two_points (by decide)
  ⟨by decide, k.1, k.2.1, (k.2.2 FloatVal.nan analog0).1, by decide,
    (k.2.2 FloatVal.nan analog0).2.trans (by decide)⟩

/-- C19 (counterexample): the clamp meter packet `pkt_clamp_vasel_a`, function
byte `0x30` (A), VASEL bit set, VAHZ bit clear, is accepted as a current
measurement: `is_voltage` clear, `is_current` set, mq CURRENT, unit AMPERE. -/
theorem es519xx_clamp_vasel_ampere :
    ((pkt_clamp_vasel_a 5).val = 0x30 ∧ bitSet (pkt_clamp_vasel_a 7) 2 = true
        ∧ bitSet (pkt_clamp_vasel_a 8) 0 = false)
      ∧ (es519xx_parse .v19200_11b_clamp pkt_clamp_vasel_a FloatVal.nan analog0
          es519xx_info.zero).map
          (fun r => (r.1, r.2.2.2.is_voltage, r.2.2.2.is_current, r.2.2.1.mq, r.2.2.1.unit))
        = some (SR_OK, false, true, SR_MQ_CURRENT, SR_UNIT_AMPERE) := by
  decide

/-- C19 (amended): in the clamp meter variant, for a packet with the VASEL bit
(`buf[7]` bit 2) set and the VAHZ bit (`buf[8]` bit 0) clear: with the
function byte `0x3d` (uA) or `0x3f` (mA) it is classified as voltage
(`is_voltage` set, `is_current` cleared; mq VOLTAGE, unit VOLT when accepted);
with the function byte `0x30` (A) or `0x39` (manual A) it stays a current
measurement (mq CURRENT, unit AMPERE when accepted). -/
theorem es519xx_clamp_vasel (buf : Buffer)
    (hvasel : bitSet (buf 7) 2 = true) (hvahz : bitSet (buf 8) 0 = false) :
    ((buf 5).val = 0x3d ∨ (buf 5).val = 0x3f →
        (parse_flags buf es519xx_variant.v19200_11b_clamp.init).is_voltage = true
          ∧ (parse_flags buf es519xx_variant.v19200_11b_clamp.init).is_current = false
          ∧ ∀ (fv : FloatVal) (an : sr_datafeed_analog) (info : es519xx_info) (fv' : FloatVal)
              (an' : sr_datafeed_analog) (info' : es519xx_info),
              es519xx_parse .v19200_11b_clamp buf fv an info = some (SR_OK, fv', an', info') →
              info'.is_voltage = true ∧ info'.is_current = false
                ∧ an'.mq = SR_MQ_VOLTAGE ∧ an'.unit = SR_UNIT_VOLT)
      ∧ ((buf 5).val = 0x30 ∨ (buf 5).val = 0x39 →
        (parse_flags buf es519xx_variant.v19200_11b_clamp.init).is_voltage = false
          ∧ (parse_flags buf es519xx_variant.v19200_11b_clamp.init).is_current = true
          ∧ ∀ (fv : FloatVal) (an : sr_datafeed_analog) (info : es519xx_info) (fv' : FloatVal)
              (an' : sr_datafeed_analog) (info' : es519xx_info),
              es519xx_parse .v19200_11b_clamp buf fv an info = some (SR_OK, fv', an', info') →
              info'.is_voltage = false ∧ info'.is_current = true
                ∧ an'.mq = SR_MQ_CURRENT ∧ an'.unit = SR_UNIT_AMPERE) := by
  constructor
  · intro hf
    have hfl : (parse_flags buf es519xx_variant.v19200_11b_clamp.init).is_voltage = true
        ∧ (parse_flags buf es519xx_variant.v19200_11b_clamp.init).is_current = false := by
      rcases hf with hf | hf <;>
        simp [parse_flags, parse_flags_status, parse_flags_options, parse_flags_option1,
          parse_flags_function, parse_flags_function_std, parse_flags_vahz, parse_flags_vasel,
          parse_flags_2400, es519xx_variant.init, es519xx_info.zero, hf, hvasel, hvahz]
    refine ⟨hfl.1, hfl.2, ?_⟩
    intro fv an info fv' an' info' h
    obtain ⟨x, mode, e, hi, -, -, -, -, ha, -, -⟩ :=
      es519xx_parse_ok_parts _ buf fv an info fv' an' info' h
    have hv : info'.is_voltage = true := by rw [hi]; exact hfl.1
    have hc : info'.is_current = false := by rw [hi]; exact hfl.2
    have hk : kind_count info' ≤ 1 := by rw [hi]; exact kind_count_accepted _ buf (-e)
    have hmq := handle_flags_voltage { an with digits := -e, spec_digits := -e } (x.scale e)
      info' hk hv
    exact ⟨hv, hc, by rw [ha]; exact hmq.1, by rw [ha]; exact hmq.2⟩
  · intro hf
    have hfl : (parse_flags buf es519xx_variant.v19200_11b_clamp.init).is_voltage = false
        ∧ (parse_flags buf es519xx_variant.v19200_11b_clamp.init).is_current = true := by
      rcases hf with hf | hf <;>
        simp [parse_flags, parse_flags_status, parse_flags_options, parse_flags_option1,
          parse_flags_function, parse_flags_function_std, parse_flags_vahz, parse_flags_vasel,
          parse_flags_2400, es519xx_variant.init, es519xx_info.zero, hf, hvasel, hvahz]
    refine ⟨hfl.1, hfl.2, ?_⟩
    intro fv an info fv' an' info' h
    obtain ⟨x, mode, e, hi, -, -, -, -, ha, -, -⟩ :=
      es519xx_parse_ok_parts _ buf fv an info fv' an' info' h
    have hv : info'.is_voltage = false := by rw [hi]; exact hfl.1
    have hc : info'.is_current = true := by rw [hi]; exact hfl.2
    have hk : kind_count info' ≤ 1 := by rw [hi]; exact kind_count_accepted _ buf (-e)
    have hmq := handle_flags_current { an with digits := -e, spec_digits := -e } (x.scale e)
      info' hk hc
    exact ⟨hv, hc, by rw [ha]; exact hmq.1, by rw [ha]; exact hmq.2⟩

/-- C19 (witness): the clamp meter packet `pkt_clamp_vasel_ua`, function byte
`0x3d` (uA) with the VASEL bit, is accepted as a voltage measurement. -/
theorem es519xx_clamp_vasel_witness :
    (bitSet (pkt_clamp_vasel_ua 7) 2 = true ∧ bitSet (pkt_clamp_vasel_ua 8) 0 = false
        ∧ (pkt_clamp_vasel_ua 5).val = 0x3d)
      ∧ (parse_flags pkt_clamp_vasel_ua es519xx_variant.v19200_11b_clamp.init).is_voltage = true
      ∧ (parse_flags pkt_clamp_vasel_ua es519xx_variant.v19200_11b_clamp.init).is_current
          = false
      ∧ (es519xx_parse .v19200_11b_clamp pkt_clamp_vasel_ua FloatVal.nan analog0
          es519xx_info.zero).map (fun r => (r.1, r.2.2.1.mq, r.2.2.1.unit))
        = some (SR_OK, SR_MQ_VOLTAGE, SR_UNIT_VOLT) :=
  have k := (es519xx_clamp_vasel pkt_clamp_vasel_ua (by decide) (by decide)).1
    (Or.inl (by decide))
  ⟨⟨by decide, by decide, by decide⟩, k.1, k.2.1, by decide⟩

/-- C20 (counterexample): on the 2400 baud variant the packet
`pkt_manual_a_vahz`, manual A function code `0x39` with the VAHZ bit, ends flag
decoding with `is_milli` and `is_auto` FALSE and out of current mode, and is
accepted as a frequency measurement. -/
theorem es519xx_2400_manual_a_vahz :
    (pkt_manual_a_vahz 5).val = 0x39
      ∧ (parse_flags pkt_manual_a_vahz es519xx_variant.v2400_11b.init).is_milli = false
      ∧ (parse_flags pkt_manual_a_vahz es519xx_variant.v2400_11b.init).is_auto = false
      ∧ (parse_flags pkt_manual_a_vahz es519xx_variant.v2400_11b.init).is_current = false
      ∧ (es519xx_parse .v2400_11b pkt_manual_a_vahz FloatVal.nan analog0
          es519xx_info.zero).map (fun r => (r.1, r.2.2.1.mq, r.2.2.1.unit))
        = some (SR_OK, SR_MQ_FREQUENCY, SR_UNIT_HERTZ) := by
  decide

/-- C20 (amended): on both 2400 baud variants, whenever `parse_flags` leaves the
record in current mode, `is_auto` is set and the table row is 1 (uA), 2 (mA)
or 3 (A), never 4. With the standard function codes and the VAHZ bit
(`buf[7]` bit 0) clear, mA `0x3f` ends in current mode with `is_milli` clear
(row 3), manual A `0x39` with `is_milli` set (row 2), uA `0x3d` and A `0x30`
with their flags as decoded (rows 1 and 3), all four with `is_auto`; with the
VAHZ bit set the four codes end out of current mode, with `is_micro` and
`is_milli` clear, as frequency or, with the judge bit, RPM, and `is_auto` is
set for all but `0x39`. With the alternate function codes mA `0x3d`, uA
`0x3e` and A `0x3f` end in current mode in rows 3, 1 and 3. -/
theorem es519xx_2400_function_codes (v : es519xx_variant)
    (hv : v = .v2400_11b ∨ v = .v2400_11b_altfn) (buf : Buffer) :
    ((parse_flags buf v.init).is_current = true →
        (parse_flags buf v.init).is_auto = true
          ∧ parse_range_mode (parse_flags buf v.init)
            = some (if (parse_flags buf v.init).is_micro then 1
                else if (parse_flags buf v.init).is_milli then 2 else 3))
      ∧ (v = .v2400_11b → bitSet (buf 7) 0 = false →
          ((buf 5).val = 0x3f →
            (parse_flags buf v.init).is_current = true
              ∧ (parse_flags buf v.init).is_auto = true
              ∧ (parse_flags buf v.init).is_micro = false
              ∧ (parse_flags buf v.init).is_milli = false
              ∧ parse_range_mode (parse_flags buf v.init) = some 3)
          ∧ ((buf 5).val = 0x39 →
            (parse_flags buf v.init).is_current = true
              ∧ (parse_flags buf v.init).is_auto = true
              ∧ (parse_flags buf v.init).is_micro = false
              ∧ (parse_flags buf v.init).is_milli = true
              ∧ parse_range_mode (parse_flags buf v.init) = some 2)
          ∧ ((buf 5).val = 0x3d →
            (parse_flags buf v.init).is_current = true
              ∧ (parse_flags buf v.init).is_auto = true
              ∧ (parse_flags buf v.init).is_micro = true
              ∧ (parse_flags buf v.init).is_milli = false
              ∧ parse_range_mode (parse_flags buf v.init) = some 1)
          ∧ ((buf 5).val = 0x30 →
            (parse_flags buf v.init).is_current = true
              ∧ (parse_flags buf v.init).is_auto = true
              ∧ (parse_flags buf v.init).is_micro = false
              ∧ (parse_flags buf v.init).is_milli = false
              ∧ parse_range_mode (parse_flags buf v.init) = some 3))
      ∧ (v = .v2400_11b → bitSet (buf 7) 0 = true →
          ((buf 5).val = 0x3f ∨ (buf 5).val = 0x39 ∨ (buf 5).val = 0x3d
            ∨ (buf 5).val = 0x30) →
          (parse_flags buf v.init).is_current = false
            ∧ (parse_flags buf v.init).is_micro = false
            ∧ (parse_flags buf v.init).is_milli = false
            ∧ (parse_flags buf v.init).is_frequency = !(bitSet (buf 6) 3)
            ∧ (parse_flags buf v.init).is_rpm = bitSet (buf 6) 3
            ∧ (parse_flags buf v.init).is_auto = decide ((buf 5).val ≠ 0x39))
      ∧ (v = .v2400_11b_altfn →
          ((buf 5).val = 0x3d →
            (parse_flags buf v.init).is_current = true
              ∧ (parse_flags buf v.init).is_auto = true
              ∧ (parse_flags buf v.init).is_micro = false
              ∧ (parse_flags buf v.init).is_milli = false
              ∧ parse_range_mode (parse_flags buf v.init) = some 3)
          ∧ ((buf 5).val = 0x3e →
            (parse_flags buf v.init).is_current = true
              ∧ (parse_flags buf v.init).is_auto = true
              ∧ (parse_flags buf v.init).is_micro = true
              ∧ (parse_flags buf v.init).is_milli = false
              ∧ parse_range_mode (parse_flags buf v.init) = some 1)
          ∧ ((buf 5).val = 0x3f →
            (parse_flags buf v.init).is_current = true
              ∧ (parse_flags buf v.init).is_auto = true
              ∧ (parse_flags buf v.init).is_micro = false
              ∧ (parse_flags buf v.init).is_milli = false
              ∧ parse_range_mode (parse_flags buf v.init) = some 3)) := by
  have hk := kind_count_parse_flags buf v.init (kind_count_init v)
  have hA : (parse_flags buf v.init).is_current = true →
      (parse_flags buf v.init).is_auto = true
        ∧ parse_range_mode (parse_flags buf v.init)
          = some (if (parse_flags buf v.init).is_micro then 1
              else if (parse_flags buf v.init).is_milli then 2 else 3) := by
    intro hcur
    have hauto := parse_flags_auto_2400 v hv buf hcur
    have hvolt := (kind_count_one_flags _ hk).2.2 hcur
    exact ⟨hauto, current_mode_auto _ hcur hvolt hauto⟩
  have hrow : ∀ a b : Bool, (parse_flags buf v.init).is_current = true
        ∧ (parse_flags buf v.init).is_micro = a ∧ (parse_flags buf v.init).is_milli = b →
      (parse_flags buf v.init).is_current = true
        ∧ (parse_flags buf v.init).is_auto = true
        ∧ (parse_flags buf v.init).is_micro = a
        ∧ (parse_flags buf v.init).is_milli = b
        ∧ parse_range_mode (parse_flags buf v.init)
          = some (if a then 1 else if b then 2 else 3) := by
    intro a b h
    have := hA h.1
    refine ⟨h.1, this.1, h.2.1, h.2.2, ?_⟩
    rw [this.2, h.2.1, h.2.2]
  refine ⟨hA, ?_, ?_, ?_⟩
  · intro hv' hz
    subst hv'
    refine ⟨?_, ?_, ?_, ?_⟩
    · intro hf
      refine hrow false false ?_
      cases hj : bitSet (buf 6) 3 <;>
        simp [parse_flags, parse_flags_status, parse_flags_options, parse_flags_option1,
          parse_flags_function, parse_flags_function_std, parse_flags_function_alt,
          parse_flags_vahz, parse_flags_vasel, parse_flags_freq,
          parse_flags_2400, es519xx_variant.init, es519xx_info.zero, hf, hz, hj]
    · intro hf
      refine hrow false true ?_
      cases hj : bitSet (buf 6) 3 <;>
        simp [parse_flags, parse_flags_status, parse_flags_options, parse_flags_option1,
          parse_flags_function, parse_flags_function_std, parse_flags_function_alt,
          parse_flags_vahz, parse_flags_vasel, parse_flags_freq,
          parse_flags_2400, es519xx_variant.init, es519xx_info.zero, hf, hz, hj]
    · intro hf
      refine hrow true false ?_
      cases hj : bitSet (buf 6) 3 <;>
        simp [parse_flags, parse_flags_status, parse_flags_options, parse_flags_option1,
          parse_flags_function, parse_flags_function_std, parse_flags_function_alt,
          parse_flags_vahz, parse_flags_vasel, parse_flags_freq,
          parse_flags_2400, es519xx_variant.init, es519xx_info.zero, hf, hz, hj]
    · intro hf
      refine hrow false false ?_
      cases hj : bitSet (buf 6) 3 <;>
        simp [parse_flags, parse_flags_status, parse_flags_options, parse_flags_option1,
          parse_flags_function, parse_flags_function_std, parse_flags_function_alt,
          parse_flags_vahz, parse_flags_vasel, parse_flags_freq,
          parse_flags_2400, es519xx_variant.init, es519xx_info.zero, hf, hz, hj]
  · intro hv' hz hf
    subst hv'
    rcases hf with hf | hf | hf | hf <;> cases hj : bitSet (buf 6) 3 <;>
      simp [parse_flags, parse_flags_status, parse_flags_options, parse_flags_option1,
        parse_flags_function, parse_flags_function_std, parse_flags_function_alt,
        parse_flags_vahz, parse_flags_vasel, parse_flags_freq,
        parse_flags_2400, es519xx_variant.init, es519xx_info.zero, hf, hz, hj]
  · intro hv'
    subst hv'
    refine ⟨?_, ?_, ?_⟩
    · intro hf
      refine hrow false false ?_
      simp [parse_flags, parse_flags_status, parse_flags_options, parse_flags_option1,
        parse_flags_function, parse_flags_function_std, parse_flags_function_alt,
        parse_flags_vahz, parse_flags_vasel, parse_flags_freq,
        parse_flags_2400, es519xx_variant.init, es519xx_info.zero, hf]
    · intro hf
      refine hrow true false ?_
      simp [parse_flags, parse_flags_status, parse_flags_options, parse_flags_option1,
        parse_flags_function, parse_flags_function_std, parse_flags_function_alt,
        parse_flags_vahz, parse_flags_vasel, parse_flags_freq,
        parse_flags_2400, es519xx_variant.init, es519xx_info.zero, hf]
    · intro hf
      refine hrow false false ?_
      simp [parse_flags, parse_flags_status, parse_flags_options, parse_flags_option1,
        parse_flags_function, parse_flags_function_std, parse_flags_function_alt,
        parse_flags_vahz, parse_flags_vasel, parse_flags_freq,
        parse_flags_2400, es519xx_variant.init, es519xx_info.zero, hf]

/-- C20 (witness): on the 2400 baud variant the packet `pkt_manual_a`, function
byte `0x39` with the VAHZ bit clear, ends in current mode with `is_auto` and
`is_milli` set and is read with row 2 (mA). -/
theorem es519xx_2400_function_codes_witness :
    (es519xx_variant.v2400_11b = .v2400_11b ∨ es519xx_variant.v2400_11b = .v2400_11b_altfn)
      ∧ (bitSet (pkt_manual_a 7) 0 = false ∧ (pkt_manual_a 5).val = 0x39)
      ∧ (parse_flags pkt_manual_a es519xx_variant.v2400_11b.init).is_current = true
      ∧ (parse_flags pkt_manual_a es519xx_variant.v2400_11b.init).is_auto = true
      ∧ (parse_flags pkt_manual_a es519xx_variant.v2400_11b.init).is_milli = true
      ∧ parse_range_mode (parse_flags pkt_manual_a es519xx_variant.v2400_11b.init) = some 2 :=
  have k := ((es519xx_2400_function_codes .v2400_11b (Or.inl rfl) pkt_manual_a).2.1 rfl
    (by decide)).2.1 (by decide)
  ⟨Or.inl rfl, ⟨by decide, by decide⟩, k.1, k.2.1, k.2.2.2.1, k.2.2.2.2⟩

/-- C21: for every Brymen buffer, the mqflags written by `sr_brymen_bm25x_parse`
contain `SR_MQFLAG_DIODE` exactly when the volt indicator (`buf[14]` bit 2) is
set and neither the DC bit (`buf[1]` bit 2) nor the AC bit (`buf[1]` bit 1) is
set, and then they contain `SR_MQFLAG_DC` as well. -/
theorem bm25x_parse_diode (buf : Buffer) (fv : FloatVal) (an : sr_datafeed_analog) :
    ((sr_brymen_bm25x_parse buf fv an).2.2.mqflags &&& SR_MQFLAG_DIODE ≠ 0
        ↔ (bitSet (buf 14) 2 = true ∧ bitSet (buf 1) 2 = false ∧ bitSet (buf 1) 1 = false))
      ∧ ((sr_brymen_bm25x_parse buf fv an).2.2.mqflags &&& SR_MQFLAG_DIODE ≠ 0
        → (sr_brymen_bm25x_parse buf fv an).2.2.mqflags &&& SR_MQFLAG_DC ≠ 0) := by
  rw [bm25x_parse_mqflags]
  unfold bm25x_mqflags
  have e1 : bitSet (buf 14) 2 = maskSet (buf 14) 4 := rfl
  have e2 : bitSet (buf 1) 2 = maskSet (buf 1) 4 := rfl
  have e3 : bitSet (buf 1) 1 = maskSet (buf 1) 2 := rfl
  rw [e1, e2, e3]
  generalize maskSet (buf 14) 4 = a
  generalize maskSet (buf 1) 8 = b
  generalize maskSet (buf 1) 4 = c
  generalize maskSet (buf 1) 2 = d
  generalize maskSet (buf 1) 1 = e
  generalize maskSet (buf 11) 8 = f
  generalize maskSet (buf 13) 8 = g
  generalize maskSet (buf 14) 8 = h
  revert a b c d e f g h
  decide

/-- C22: for every ES519XX variant without alternate functions, after flag
decoding of a packet with the function byte `0x32` the judge flag is bit 3 of
the status byte; a 14-byte packet is duty cycle when judge is set, an 11-byte
packet is RPM when judge is set, both are frequency when judge is clear, and
exactly one measurement kind is set. -/
theorem es519xx_function_32 (v : es519xx_variant) (hv : v ≠ .v2400_11b_altfn) (buf : Buffer)
    (hf : (buf (5 + if v.size = 14 then 1 else 0)).val = 0x32) :
    (parse_flags buf v.init).is_judge = bitSet (buf (6 + if v.size = 14 then 1 else 0)) 3
      ∧ (parse_flags buf v.init).is_duty_cycle
          = (decide (v.size = 14) && bitSet (buf (6 + if v.size = 14 then 1 else 0)) 3)
      ∧ (parse_flags buf v.init).is_rpm
          = (decide (v.size = 11) && bitSet (buf (6 + if v.size = 14 then 1 else 0)) 3)
      ∧ (parse_flags buf v.init).is_frequency
          = !bitSet (buf (6 + if v.size = 14 then 1 else 0)) 3
      ∧ kind_count (parse_flags buf v.init) = 1 := by
  cases v
  case v2400_11b_altfn => exact absurd rfl hv
  all_goals
    simp only [es519xx_variant.size, es519xx_variant.init] at hf ⊢
    simp only [Nat.reduceEqDiff, if_true, if_false, Nat.reduceAdd, decide_True, decide_False,
      Bool.true_and, Bool.false_and] at hf ⊢
    cases hj : bitSet (buf 6) 3 <;> cases hk : bitSet (buf 7) 3 <;>
      simp [parse_flags, parse_flags_status, parse_flags_options, parse_flags_option1,
        parse_flags_function, parse_flags_function_std, parse_flags_freq,
        parse_flags_vahz, parse_flags_vasel, parse_flags_2400, kind_count,
        es519xx_info.zero, hf, hj, hk]

/-- C22 (witness): the 14-byte packet `pkt_duty_14b`, function byte `0x32` with
the judge bit, is decoded as duty cycle and accepted with 50.0 percent. -/
theorem es519xx_function_32_witness :
    (es519xx_variant.v19200_14b ≠ .v2400_11b_altfn ∧ (pkt_duty_14b 6).val = 0x32
        ∧ bitSet (pkt_duty_14b 7) 3 = true)
      ∧ (parse_flags pkt_duty_14b es519xx_variant.v19200_14b.init).is_duty_cycle = true
      ∧ kind_count (parse_flags pkt_duty_14b es519xx_variant.v19200_14b.init) = 1
      ∧ (es519xx_parse .v19200_14b pkt_duty_14b FloatVal.nan analog0 es519xx_info.zero).map
          (fun r => (r.1, r.2.1, r.2.2.1.mq, r.2.2.1.unit))
        = some (SR_OK, FloatVal.num false 500 (-1), SR_MQ_DUTY_CYCLE, SR_UNIT_PERCENTAGE) :=
  have k := es519xx_function_32 .v19200_14b (by decide) pkt_duty_14b (by decide)
  ⟨by decide, k.2.1.trans (by decide), k.2.2.2.2, by decide⟩

/-- C23: for every well-formed decimal number text (white space, optional sign,
digits `D`, optional point with digits `F`, optional exponent letter with sign
and digits `X`; `D` or `F` present) whose exponent, fraction length, numerator
and denominator stay inside the integer types, `sr_parse_rational` returns
`SR_OK` with `p` plus or minus `(D * 10 ^ len(F) + F) * 10 ^ max(0, X - len(F))`
and `q = 10 ^ max(0, len(F) - X)`, and `p / q` is the decimal value of the
text. -/
theorem sr_parse_rational_decimal (t : decimal_text) (ret : Int × Int) (hwf : t.wf)
    (hX : digits_value t.exp_digits < 2 ^ 31) (hF : t.frac_digits.length < 2 ^ 31)
    (hp : t.magnitude < 2 ^ 63) (hq : t.q < 2 ^ 63) :
    sr_parse_rational t.text ret = some (SR_OK, t.p, (t.q : Int))
      ∧ (t.p : ℚ) / (t.q : ℚ) = t.value := by
  refine ⟨?_, decimal_text_value t⟩
  have hk : 1 ≤ 10 ^ (t.exponent - t.frac_digits.length).toNat :=
    Nat.one_le_pow _ _ (by norm_num)
  have hl : 1 ≤ 10 ^ t.frac_digits.length := Nat.one_le_pow _ _ (by norm_num)
  have hmag := hp
  unfold decimal_text.magnitude at hmag
  have ha : digits_value t.int_digits * 10 ^ t.frac_digits.length + digits_value t.frac_digits
      < 2 ^ 63 := lt_of_le_of_lt (Nat.le_mul_of_pos_right _ hk) hmag
  have hf : digits_value t.frac_digits < 2 ^ 63 := lt_of_le_of_lt (Nat.le_add_left _ _) ha
  have hd : digits_value t.int_digits < 2 ^ 63 :=
    lt_of_le_of_lt (le_trans (Nat.le_mul_of_pos_right _ hl) (Nat.le_add_right _ _)) ha
  obtain ⟨hint, hneg, hsp⟩ := parse_rational_integral_text t hwf hd
  have hfrac := parse_rational_fraction_text t hwf hF hf
  have hexp := parse_rational_exponent_text t hwf hX
  have hxr : -(2 ^ 31 : Int) ≤ t.exponent ∧ t.exponent < 2 ^ 31 := by
    unfold decimal_text.exponent
    have h0 : (0 : Int) ≤ (digits_value t.exp_digits : Int) := Int.natCast_nonneg _
    have h1 : (digits_value t.exp_digits : Int) < 2 ^ 31 := by exact_mod_cast hX
    have h31 : (0 : Int) < 2 ^ 31 := by norm_num
    split_ifs
    · exact ⟨by linarith, by linarith⟩
    · exact ⟨by linarith, h1⟩
  have hq' := hq
  unfold decimal_text.q at hq'
  have hx1 : -(2 ^ 31 : Int) ≤ t.exponent - (t.frac_digits.length : Int) := by
    by_contra hc
    push_neg at hc
    have h64 : 64 ≤ ((t.frac_digits.length : Int) - t.exponent).toNat := by
      have : (64 : Int) ≤ (t.frac_digits.length : Int) - t.exponent := by
        norm_num at hc hxr ⊢
        linarith
      omega
    have : (2 : Nat) ^ 63 ≤ 10 ^ ((t.frac_digits.length : Int) - t.exponent).toNat :=
      calc (2 : Nat) ^ 63 ≤ 2 ^ ((t.frac_digits.length : Int) - t.exponent).toNat :=
            Nat.pow_le_pow_right (by norm_num) (by omega)
        _ ≤ 10 ^ ((t.frac_digits.length : Int) - t.exponent).toNat :=
            Nat.pow_le_pow_left (by norm_num) _
    omega
  have hx2 : t.exponent - (t.frac_digits.length : Int) < 2 ^ 31 := by
    have : (0 : Int) ≤ (t.frac_digits.length : Int) := Int.natCast_nonneg _
    linarith [hxr.2]
  have hres := parse_rational_result_eq (decide (t.sign = ['-'])) (digits_value t.int_digits)
    (digits_value t.frac_digits) t.frac_digits.length t.exponent hx1 hx2 hmag hq'
  obtain ⟨hspaces, -⟩ := hwf
  unfold sr_parse_rational decimal_text.text
  simp only []
  rw [skip_isspace_append _ _ hspaces hsp, hint]
  simp only []
  rw [hneg, hfrac]
  simp only []
  rw [hexp]
  simp only [peek, ne_eq, not_true_eq_false, if_false]
  simp only [decide_eq_true_eq] at hres
  rw [hres]
  unfold decimal_text.p decimal_text.q decimal_text.magnitude
  rfl

/-- C23 (witness): the text `-0.5` is well formed and is converted to `p = -5`,
`q = 10`. -/
theorem sr_parse_rational_decimal_witness :
    (text_minus_half.wf ∧ text_minus_half.text = "-0.5".toList)
      ∧ sr_parse_rational "-0.5".toList (0, 1) = some (SR_OK, -5, 10)
      ∧ text_minus_half.value = -5 / 10 :=
  have k := sr_parse_rational_decimal text_minus_half (0, 1) (by decide) (by decide) (by decide)
    (by decide) (by decide)
  have hp : text_minus_half.p = -5 := by decide
  have hq : text_minus_half.q = 10 := by decide
  ⟨⟨by decide, by decide⟩, k.1.trans (by decide), by rw [← k.2, hp, hq]; norm_num⟩

/-- C24 (evaluation at the failing inputs): `sr_parse_rational` returns `SR_OK`
for `1.-5` (as 95/100), for `1. 5` (as 105/100), for the empty string (as
0/1), for `1e` (as 1/1) and for `e5` (as 0/1), none of which is a decimal
number. -/
theorem sr_parse_rational_not_strict :
    sr_parse_rational "1.-5".toList (0, 1) = some (SR_OK, 95, 100)
      ∧ sr_parse_rational "1. 5".toList (0, 1) = some (SR_OK, 105, 100)
      ∧ sr_parse_rational "".toList (0, 1) = some (SR_OK, 0, 1)
      ∧ sr_parse_rational "1e".toList (0, 1) = some (SR_OK, 1, 1)
      ∧ sr_parse_rational "e5".toList (0, 1) = some (SR_OK, 0, 1) := by
  decide

/-- C25 (evaluation at the failing inputs): for `9007199254740993`, which is
`2 ^ 53 + 1`, `sr_parse_sizestring` returns `SR_OK` and stores
9007199254740992; for `9007199254740993k`, whose product fits `uint64_t`, it
stores 9007199254740993024. The documented examples `3k`, `3 K` and `15M` give
3000, 3000 and 15000000. -/
theorem sr_parse_sizestring_rounds :
    sr_parse_sizestring "9007199254740993".toList
        = some (SR_OK, size_value.exact 9007199254740992)
      ∧ sr_parse_sizestring "9007199254740993k".toList
        = some (SR_OK, size_value.exact 9007199254740993024)
      ∧ 9007199254740993 * 10 ^ 3 < 2 ^ 64
      ∧ sr_parse_sizestring "3k".toList = some (SR_OK, size_value.exact 3000)
      ∧ sr_parse_sizestring "3 K".toList = some (SR_OK, size_value.exact 3000)
      ∧ sr_parse_sizestring "15M".toList = some (SR_OK, size_value.exact 15000000) := by
  decide

/-- C26: for every `uint64_t` value `x` and every unit, `sr_si_string_u64`
returns the text of the least index `i` with `x / 1000 ^ i < 1000`, which is 6
at most: the quotient, then the remainder `x mod 1000 ^ i` after a point when
it is not 0, padded to `3 * i` digits and without trailing zeros, then a
space, the prefix letter of `i` and the unit. -/
theorem sr_si_string_u64_text (x : Nat) (hx : x < 2 ^ 64) (unit : Option (List Char)) :
    ∃ i, i ≤ 6 ∧ x / 1000 ^ i < 1000 ∧ (∀ j, j < i → 1000 ≤ x / 1000 ^ j)
      ∧ sr_si_string_u64 x unit = some (si_text x i (unit.getD [])) := by
  obtain ⟨k, hk, hloop, hlt, hmin⟩ :=
    si_index_loop_from x hx 8 0 rfl (by norm_num) (fun j hj => absurd hj (Nat.not_lt_zero _))
  refine ⟨k, hk, hlt, hmin, ?_⟩
  unfold sr_si_string_u64
  simp only []
  rw [hloop]
  simp only []
  rw [si_divisor_eq k hk]
  simp only []
  rw [si_fract_eq k _ hk (Nat.mod_lt _ (by positivity)), si_prefix_text_eq k hk]
  rfl

/-- C26 (witness): 31500 with the unit `W` gives `31.5 kW`; 3000000 gives
`3 MW`, 20000 gives `20 kW`, and the sample rate 31500 gives `31.5 kHz`. -/
theorem sr_si_string_u64_text_witness :
    31500 < 2 ^ 64
      ∧ (∃ i, i ≤ 6 ∧ 31500 / 1000 ^ i < 1000 ∧ (∀ j, j < i → 1000 ≤ 31500 / 1000 ^ j)
        ∧ sr_si_string_u64 31500 (some "W".toList) = some (si_text 31500 i "W".toList))
      ∧ sr_si_string_u64 31500 (some "W".toList) = some "31.5 kW".toList
      ∧ sr_si_string_u64 3000000 (some "W".toList) = some "3 MW".toList
      ∧ sr_si_string_u64 20000 (some "W".toList) = some "20 kW".toList
      ∧ sr_samplerate_string 31500 = some "31.5 kHz".toList :=
  ⟨by decide, sr_si_string_u64_text 31500 (by decide) (some "W".toList), by decide, by decide,
    by decide, by decide⟩

/-- C27: for every ES519XX entry point and every buffer whose decoded flags
have neither overflow nor underflow, if some value byte `buf[1..4]`
(`buf[1..5]` for 14-byte packets) is no ASCII digit then the parse returns
`SR_ERR` and leaves the value and the analog record as they were. -/
theorem es519xx_parse_non_digit (v : es519xx_variant) (buf : Buffer) (fv : FloatVal)
    (an : sr_datafeed_analog) (info : es519xx_info)
    (hol : (parse_flags buf v.init).is_ol = false)
    (hul : (parse_flags buf v.init).is_ul = false)
    (hd : ∃ i, 1 ≤ i ∧ i ≤ (if v.size = 14 then 5 else 4) ∧ isdigit (buf i) = false) :
    ∃ info', es519xx_parse v buf fv an info = some (SR_ERR, fv, an, info') := by
  have hv := value_decision_non_digit v buf (parse_flags buf v.init)
    (config_parse_flags buf v.init) hol hul hd
  unfold es519xx_parse
  rw [sr_es519xx_parse_eq]
  split_ifs
  · exact ⟨_, rfl⟩
  · rw [hv]
    exact ⟨_, rfl⟩

/-- C27 (witness): the packet `pkt_volt_colon` passes
`sr_es519xx_19200_11b_packet_valid`, has a colon among its value bytes, and is
rejected by the parse. -/
theorem es519xx_parse_non_digit_witness :
    ((parse_flags pkt_volt_colon es519xx_variant.v19200_11b.init).is_ol = false
        ∧ (parse_flags pkt_volt_colon es519xx_variant.v19200_11b.init).is_ul = false
        ∧ isdigit (pkt_volt_colon 3) = false
        ∧ sr_es519xx_19200_11b_packet_valid pkt_volt_colon = true)
      ∧ ∃ info', es519xx_parse .v19200_11b pkt_volt_colon FloatVal.nan analog0
          es519xx_info.zero = some (SR_ERR, FloatVal.nan, analog0, info') :=
  ⟨by decide, es519xx_parse_non_digit .v19200_11b pkt_volt_colon FloatVal.nan analog0
    es519xx_info.zero (by decide) (by decide) ⟨3, by decide, by decide, by decide⟩⟩

/-- C28: for every ES519XX variant and every buffer, flag decoding from the
record of the entry point never sets both `is_micro` and `is_milli` and sets
at most one of the nine kind flags `flags_valid` counts; the packet is valid
exactly when the framing holds (CR LF at the end, and equal halves for 11-byte
packets) and, without alternate functions, the AC and the DC option bit
(`buf[8]`, or `buf[10]` for 14-byte packets, bits 2 and 3) are not both
set. -/
theorem es519xx_packet_valid_iff (v : es519xx_variant) (buf : Buffer) :
    ((parse_flags buf v.init).is_micro && (parse_flags buf v.init).is_milli) = false
      ∧ kind_count (parse_flags buf v.init) - (parse_flags buf v.init).is_duty_cycle.toNat ≤ 1
      ∧ (es519xx_packet_valid v buf = true ↔
          ((buf (v.size - 2)).val = 13 ∧ (buf (v.size - 1)).val = 10
            ∧ (v.size = 11 → ∀ i, i < 11 → buf i = buf (11 + i)))
          ∧ (v ≠ .v2400_11b_altfn →
              ¬ (bitSet (buf (if v.size = 14 then 10 else 8)) 2 = true
                ∧ bitSet (buf (if v.size = 14 then 10 else 8)) 3 = true))) := by
  have hm := multiplier_parse_flags v buf
  have hk : kind_count (parse_flags buf v.init)
      - (parse_flags buf v.init).is_duty_cycle.toNat ≤ 1 :=
    le_trans (Nat.sub_le _ _) (kind_count_parse_flags buf v.init (kind_count_init v))
  refine ⟨hm, hk, ?_⟩
  have hfv := flags_valid_ac_dc _ hm hk
  have hacdc := parse_flags_ac_and_dc v buf
  have hsz : v.init.packet_size = v.size := rfl
  unfold es519xx_packet_valid sr_es519xx_packet_valid
  simp only []
  rw [hfv, hsz]
  generalize parse_flags buf v.init = pf at hacdc ⊢
  generalize (if v.size = 14 then 10 else 8) = k at hacdc ⊢
  simp only [Bool.not_not]
  split_ifs with h1 h2 h3
  · simp only [Bool.false_eq_true, false_iff, not_and]
    intro hF
    exfalso
    apply h1.2
    rw [h1.1, memcmp_eq_zero_iff]
    intro i hi
    rw [Nat.zero_add]
    exact hF.2.2 h1.1 i hi
  · simp only [Bool.false_eq_true, false_iff, not_and]
    intro hF
    exfalso
    rcases h2 with h2 | h2
    · exact h2 hF.1
    · exact h2 hF.2.1
  · simp only [Bool.false_eq_true, false_iff, not_and]
    intro _ hA
    obtain ⟨hne, hb⟩ := hacdc.1 h3
    exact hA hne hb.1 hb.2
  · simp only [true_iff]
    push_neg at h2
    refine ⟨⟨h2.1, h2.2, ?_⟩, ?_⟩
    · intro h11 i hi
      have hz : memcmp buf 0 v.size v.size = 0 := by
        by_contra hc
        exact h1 ⟨h11, hc⟩
      rw [h11, memcmp_eq_zero_iff] at hz
      have := hz i hi
      rwa [Nat.zero_add] at this
    · intro hne hb
      exact h3 (hacdc.2 ⟨hne, hb⟩)

/-- C29: for every ES519XX entry point and every buffer, a packet decoded as
temperature (the function byte `0x34` without alternate functions gives this),
a packet with an ADP flag and a packet with a function byte outside the switch
are rejected with `SR_ERR`, the analog record left as it was; and an accepted
packet is never a temperature packet and never gets mq TEMPERATURE. -/
theorem es519xx_parse_no_temperature (v : es519xx_variant) (buf : Buffer) (fv : FloatVal)
    (an : sr_datafeed_analog) (info : es519xx_info) :
    ((parse_flags buf v.init).is_temperature = true →
        ∃ fv' info', es519xx_parse v buf fv an info = some (SR_ERR, fv', an, info'))
      ∧ (v ≠ .v2400_11b_altfn → (buf (5 + if v.size = 14 then 1 else 0)).val = 0x34 →
        (parse_flags buf v.init).is_temperature = true)
      ∧ ((parse_flags buf v.init).is_adp0 = true ∨ (parse_flags buf v.init).is_adp1 = true
          ∨ (parse_flags buf v.init).is_adp2 = true ∨ (parse_flags buf v.init).is_adp3 = true →
        ∃ fv' info', es519xx_parse v buf fv an info = some (SR_ERR, fv', an, info'))
      ∧ ((if v = .v2400_11b_altfn then
            (buf (5 + if v.size = 14 then 1 else 0)).val < 0x30
              ∨ 0x3f < (buf (5 + if v.size = 14 then 1 else 0)).val
          else (buf (5 + if v.size = 14 then 1 else 0)).val < 0x30
              ∨ 0x3f < (buf (5 + if v.size = 14 then 1 else 0)).val
              ∨ (buf (5 + if v.size = 14 then 1 else 0)).val = 0x37) →
        ∃ fv' info', es519xx_parse v buf fv an info = some (SR_ERR, fv', an, info'))
      ∧ ∀ (fv' : FloatVal) (an' : sr_datafeed_analog) (info' : es519xx_info),
          es519xx_parse v buf fv an info = some (SR_OK, fv', an', info') →
          info'.is_temperature = false ∧ an'.mq ≠ SR_MQ_TEMPERATURE := by
  have hk := kind_count_parse_flags buf v.init (kind_count_init v)
  refine ⟨?_, fun hv => parse_flags_temperature v hv buf, ?_, ?_, ?_⟩
  · intro ht
    exact es519xx_parse_no_mode v buf fv an info (temperature_no_mode _ hk ht)
  · intro hadp
    exact es519xx_parse_no_mode v buf fv an info (kind_zero_no_mode _ (parse_flags_adp v buf hadp))
  · intro hf
    exact es519xx_parse_no_mode v buf fv an info (kind_zero_no_mode _ (parse_flags_unknown v buf hf))
  · intro fv' an' info' h
    obtain ⟨x, mode, e, hi, -, hm, -, -, ha, -, -⟩ :=
      es519xx_parse_ok_parts v buf fv an info fv' an' info' h
    have hk' : kind_count info' ≤ 1 := by rw [hi]; exact kind_count_accepted v buf (-e)
    have := handle_flags_no_temperature { an with digits := -e, spec_digits := -e }
      (x.scale e) info' mode hk' hm
    exact ⟨this.1, by rw [ha]; exact this.2⟩

/-- C29 (witness): the packet `pkt_temperature`, function byte `0x34`, passes
`sr_es519xx_19200_11b_packet_valid`, is decoded as temperature and is
rejected by the parse. -/
theorem es519xx_parse_no_temperature_witness :
    (sr_es519xx_19200_11b_packet_valid pkt_temperature = true
        ∧ (pkt_temperature 5).val = 0x34
        ∧ (parse_flags pkt_temperature es519xx_variant.v19200_11b.init).is_temperature = true)
      ∧ ∃ fv' info', es519xx_parse .v19200_11b pkt_temperature FloatVal.nan analog0
          es519xx_info.zero = some (SR_ERR, fv', analog0, info') :=
  ⟨by decide, (es519xx_parse_no_temperature .v19200_11b pkt_temperature FloatVal.nan analog0
    es519xx_info.zero).1 (by decide)⟩

/-- C30: `sr_brymen_bm25x_parse` returns `SR_OK` for every buffer; so it does
for `pkt_bm_odd`, which has the volt and the ampere indicator, the AC and the
DC bit, a segment pattern that is no digit and two decimal points, and whose
value is not-a-number. -/
theorem bm25x_parse_always_ok :
    (∀ (buf : Buffer) (fv : FloatVal) (an : sr_datafeed_analog),
        (sr_brymen_bm25x_parse buf fv an).1 = SR_OK)
      ∧ (maskSet (pkt_bm_odd 14) 4 = true ∧ maskSet (pkt_bm_odd 14) 2 = true
        ∧ maskSet (pkt_bm_odd 1) 4 = true ∧ maskSet (pkt_bm_odd 1) 2 = true
        ∧ decode_digit 0 pkt_bm_odd = -1 ∧ decode_point pkt_bm_odd = -1
        ∧ (sr_brymen_bm25x_parse pkt_bm_odd FloatVal.nan analog0).1 = SR_OK
        ∧ (sr_brymen_bm25x_parse pkt_bm_odd FloatVal.nan analog0).2.1 = FloatVal.nan) := by
  refine ⟨fun _ _ _ => rfl, ?_⟩
  decide

end Sigrok
